import Mathlib

/-!
Sebak: transaction pool, transaction validator and ballot transaction chain.

A shallow embedding of `lib/transaction/pool.go` and
`lib/node/runner/checker_ballot_transaction.go`, with the properties the
specification states about them.

Conventions of the embedding:

* a Go `map[string]V` is a finite map with unique keys (`GoMap V`);
* a Go slice is a `List`;
* `uint64` quantities (amounts, heights, sequence ids) are natural numbers,
  reduced modulo `2 ^ 64` where the source can wrap around;
* a Go `error` result is an `Option Error` (`none` is `nil`);
* code that mutates its receiver returns the new state.
-/

namespace Sebak

/-! ## Go maps -/

/-- Go `map[string]V`. -/
abbrev GoMap (V : Type) := AList (fun _ : String => V)

/-- Go `_, found := m[key]`. -/
def GoMap.found {V : Type} (m : GoMap V) (key : String) : Bool :=
  (AList.lookup key m).isSome

/-! ## Transactions (the fields the embedded code reads) -/

/-- Go `operation.OperationType`; the tags the validator does not name are
kept as `TypeOther`. -/
inductive OperationType where
  | TypeCreateAccount
  | TypePayment
  | TypeUnfreezingRequest
  | TypeCongressVoting
  | TypeCongressVotingResult
  | TypeOther (tag : String)
  deriving DecidableEq, Repr

/-- Go `operation.Body`: the dynamic type stored behind the interface. -/
inductive OperationBody where
  | CreateAccount (Target : String) (Amount : Nat) (Linked : String)
  | Payment (Target : String) (Amount : Nat)
  | UnfreezeRequest
  | CongressVoting
  | CongressVotingResult
  | Other
  deriving DecidableEq, Repr

/-- Go `operation.Header`. -/
structure OperationHeader where
  Type_ : OperationType
  deriving DecidableEq, Repr

/-- Go `operation.Operation`. -/
structure Operation where
  H : OperationHeader
  B : OperationBody
  deriving DecidableEq, Repr

/-- Go `transaction.Header`. -/
structure Header where
  Hash : String
  deriving DecidableEq, Repr

/-- Go `transaction.Body`. -/
structure Body where
  Source : String
  Fee : Nat
  SequenceID : Nat
  Operations : List Operation
  deriving DecidableEq, Repr

/-- Go `transaction.Transaction`. -/
structure Transaction where
  H : Header
  B : Body
  deriving DecidableEq, Repr

/-- The Go zero value of `Transaction`. -/
def Transaction.zero : Transaction :=
  { H := { Hash := "" }, B := { Source := "", Fee := 0, SequenceID := 0, Operations := [] } }

instance : Inhabited Transaction := ⟨Transaction.zero⟩

/-- Go `tx.GetHash()`. -/
def Transaction.GetHash (tx : Transaction) : String := tx.H.Hash

/-- Go `tx.Source()`. -/
def Transaction.Source (tx : Transaction) : String := tx.B.Source

/-! ## `lib/transaction/pool.go` -/

/-- Go `transaction.Pool` (the lock is not modelled: every method runs under it). -/
structure Pool where
  /-- Go field `Pool` (renamed: the structure already has that name). -/
  Pool_ : GoMap Transaction
  Sources : GoMap Bool
  hashes : List String

/-- Go `NewPool`. -/
def NewPool : Pool := { Pool_ := ∅, Sources := ∅, hashes := [] }

/-- Go `Pool.Len`: `len(tp.Pool)`. -/
def Pool.Len (tp : Pool) : Nat := tp.Pool_.entries.length

/-- Go `Pool.Has`. -/
def Pool.Has (tp : Pool) (hash : String) : Bool := tp.Pool_.found hash

/-- Go `Pool.Get`: the stored transaction and `true`, or the zero value and `false`. -/
def Pool.Get (tp : Pool) (hash : String) : Transaction × Bool :=
  match AList.lookup hash tp.Pool_ with
  | some tx => (tx, true)
  | none => (Transaction.zero, false)

/-- Go `Pool.Add`: the new pool and the returned flag. -/
def Pool.Add (tp : Pool) (tx : Transaction) : Pool × Bool :=
  if tp.Has tx.GetHash then (tp, false)
  else
    ({ Pool_ := AList.insert tx.GetHash tx tp.Pool_,
       Sources := AList.insert tx.Source true tp.Sources,
       hashes := tp.hashes ++ [tx.GetHash] }, true)

/-- The inner loop of `Pool.Remove`: cut the first element equal to `hash`
out of the slice and stop. -/
def spliceFirst (hash : String) : List String → List String
  | [] => []
  | h :: rest => if h = hash then rest else h :: spliceFirst hash rest

/-- The body of the outer loop of `Pool.Remove` for one hash. -/
def Pool.removeOne (tp : Pool) (hash : String) : Pool :=
  match AList.lookup hash tp.Pool_ with
  | some tx =>
    { Pool_ := AList.erase hash tp.Pool_,
      Sources := AList.erase tx.Source tp.Sources,
      hashes := spliceFirst hash tp.hashes }
  | none => tp

/-- Go `Pool.Remove(hashes...)`. -/
def Pool.Remove (tp : Pool) (hashes : List String) : Pool :=
  if hashes.length < 1 then tp
  else hashes.foldl Pool.removeOne tp

/-- The loop of `Pool.AvailableTransactions`, `ret` being the slice built so far. -/
def availableLoop (transactionLimit : Int) : List String → List String → List String
  | [], ret => ret
  | key :: rest, ret =>
    if (ret.length : Int) = transactionLimit then ret
    else availableLoop transactionLimit rest (ret ++ [key])

/-- Go `Pool.AvailableTransactions` (a `nil` slice is the empty list). -/
def Pool.AvailableTransactions (tp : Pool) (transactionLimit : Int) : List String :=
  if transactionLimit < 1 then []
  else availableLoop transactionLimit tp.hashes []

/-- Go `Pool.IsSameSource`. -/
def Pool.IsSameSource (tp : Pool) (source : String) : Bool := tp.Sources.found source

/-- A call of one of the two writers of the pool. -/
inductive PoolCall where
  | Add (tx : Transaction)
  | Remove (hashes : List String)

/-- The pool after one writer call. -/
def Pool.call (tp : Pool) : PoolCall → Pool
  | PoolCall.Add tx => (tp.Add tx).1
  | PoolCall.Remove hashes => tp.Remove hashes

/-- The pool reached from `NewPool()` by a sequence of `Add` and `Remove` calls. -/
def Pool.run (calls : List PoolCall) : Pool := calls.foldl Pool.call NewPool

/-! ## Errors and storage -/

/-- Go `errors.*`: the error values the embedded code returns or passes on. -/
inductive Error where
  | BlockAccountDoesNotExists
  | TransactionInvalidSequenceID
  | TransactionExcessAbilityToPay
  | TypeOperationBodyNotMatched
  | BlockAccountAlreadyExists
  | UnfreezingRequestNotRequested
  | UnfreezingNotReachedExpiration
  | FrozenAccountCreationWholeUnit
  | FrozenAccountNoDeposit
  | FrozenAccountMustWithdrawEverything
  | UnfreezingFromInvalidAccount
  | UnfreezingRequestAlreadyReceived
  | UnknownOperationType
  | NewButKnownMessage
  | TransactionSameSource
  | InvalidOperation
  | TransactionNotFound
  | InvalidFee
  | StorageRecordDoesNotExist
  | AmountUnderflow
  deriving DecidableEq, Repr

/-- Go `block.BlockAccount`. -/
structure BlockAccount where
  Address : String
  Balance : Nat
  SequenceID : Nat
  Linked : String
  deriving DecidableEq, Repr

/-- Go `block.BlockAccountSequenceID`. -/
structure BlockAccountSequenceID where
  SequenceID : Nat
  Address : String
  Balance : Nat
  deriving DecidableEq, Repr

/-- Go `block.BlockOperation` (the fields `ValidateOp` reads). -/
structure BlockOperation where
  Type_ : OperationType
  Height : Nat
  deriving DecidableEq, Repr

/-- The Go zero value of `BlockOperation`: what the iterator hands back when
the source has no recorded operation. -/
def BlockOperation.zero : BlockOperation :=
  { Type_ := OperationType.TypeOther "", Height := 0 }

/-- Go `block.Block` (the field the validator reads). -/
structure Block where
  Height : Nat
  deriving DecidableEq, Repr

/-- Status of a transaction history marker. -/
inductive TransactionHistoryStatus where
  | Submitted
  | Confirmed
  | Rejected
  deriving DecidableEq, Repr

/-- Modelled from the spec: the storage backend (`lib/storage`, and the
accessors of `lib/block`) is not under src/. It is the key-value schema of
the specification, one field per key prefix: `ba-<address>`,
`bas-<address>-<seq>`, `bt-<hash>`, `bth-<hash>`, the by-source index of
`bo-<hash>` in iteration order, the latest `blk-<height>`, and `bp-<hash>`.
A lookup either finds its record or does not; I/O failures are not modelled. -/
structure Storage where
  accounts : String → Option BlockAccount
  accountsAtSequence : String → Nat → Option BlockAccountSequenceID
  blockTransactions : String → Bool
  history : String → Option TransactionHistoryStatus
  operationsBySource : String → List BlockOperation
  latestBlock : Block
  transactionPool : String → Option Transaction

/-- Keys of the storage schema that the embedded code builds. -/
inductive StorageKey where
  | BlockTransactionHistory (hash : String)
  deriving DecidableEq, Repr

/-- Modelled from the spec: `block.GetBlockTransactionHistoryKey`, the key
`bth-<hash>` of the history marker of a transaction. -/
def GetBlockTransactionHistoryKey (hash : String) : StorageKey :=
  StorageKey.BlockTransactionHistory hash

/-- Modelled from the spec: `st.Remove(key)` deletes the record under `key`
(its error result is dropped by the caller). -/
def Storage.Remove (st : Storage) : StorageKey → Storage
  | StorageKey.BlockTransactionHistory hash =>
    { st with history := fun h => if h = hash then none else st.history h }

/-- Modelled from the spec: `block.GetBlockAccount`, the account stored under
an address, or an error. -/
def GetBlockAccount (st : Storage) (address : String) : Except Error BlockAccount :=
  match st.accounts address with
  | some ba => Except.ok ba
  | none => Except.error Error.StorageRecordDoesNotExist

/-- Modelled from the spec: `block.ExistsBlockAccount`. -/
def ExistsBlockAccount (st : Storage) (address : String) : Bool × Option Error :=
  ((st.accounts address).isSome, none)

/-- Modelled from the spec: `block.GetBlockAccountSequenceID`, the
AccountAtSequence snapshot for (address, sequence-id), or an error. -/
def GetBlockAccountSequenceID (st : Storage) (address : String) (sequenceID : Nat) :
    Except Error BlockAccountSequenceID :=
  match st.accountsAtSequence address sequenceID with
  | some bac => Except.ok bac
  | none => Except.error Error.StorageRecordDoesNotExist

/-- Modelled from the spec: `block.ExistsBlockTransaction`. -/
def ExistsBlockTransaction (st : Storage) (hash : String) : Bool × Option Error :=
  (st.blockTransactions hash, none)

/-- Modelled from the spec: the first item of the iterator of
`block.GetBlockOperationsBySource(st, address, nil)`, i.e. the source's latest
recorded operation, or the zero value when there is none. -/
def firstBlockOperationBySource (st : Storage) (address : String) : BlockOperation :=
  (st.operationsBySource address).headD BlockOperation.zero

/-- Modelled from the spec: `block.GetLatestBlock`. -/
def GetLatestBlock (st : Storage) : Block := st.latestBlock

/-- Constants of `lib/common` (not under src/), taken as parameters:
`common.BaseFee`, `common.Unit`, `common.UnfreezingPeriod`, and the amount
`Amount.Sub` hands back together with its underflow error. -/
structure Common where
  BaseFee : Nat
  Unit : Nat
  UnfreezingPeriod : Nat
  subUnderflow : Nat → Nat → Nat

/-- Modelled from the spec: `Amount.Sub`, `balance − base-fee` with an error
on underflow. -/
def AmountSub (cfg : Common) (a sub : Nat) : Nat × Option Error :=
  if sub ≤ a then (a - sub, none) else (cfg.subUnderflow a sub, some Error.AmountUnderflow)

/-- Go `a - b` on `uint64`. -/
def uint64Sub (a b : Nat) : Nat := (a + 2 ^ 64 - b) % 2 ^ 64

/-- Modelled from the spec: `tx.IsValidSequenceID`, "the transaction's
sequence-id must equal the account's current sequence-id". -/
def Transaction.IsValidSequenceID (tx : Transaction) (sequenceID : Nat) : Bool :=
  tx.B.SequenceID == sequenceID

/-- Amount carried by an operation body (zero for the bodies without one). -/
def OperationBody.GetAmount : OperationBody → Nat
  | OperationBody.CreateAccount _ amount _ => amount
  | OperationBody.Payment _ amount => amount
  | _ => 0

/-- Modelled from the spec: `tx.TotalAmount(withFee)`, the
"total-amount-including-fees": the amounts of the operations, plus the fee.
The source adds with `MustAdd`, which does not wrap, so the sum is exact. -/
def Transaction.TotalAmount (tx : Transaction) (withFee : Bool) : Nat :=
  (tx.B.Operations.map (fun op => op.B.GetAmount)).sum + (if withFee then tx.B.Fee else 0)

/-! ## `ValidateOp` and `ValidateTx` -/

/-- The frozen-source check shared by the `CreateAccount` and `Payment`
branches of `ValidateOp`: an unfreezing request must be the latest operation of
the source and the unfreezing period must have passed. -/
def unfreezingCheck (cfg : Common) (st : Storage) (source : BlockAccount) : Option Error :=
  let bo := firstBlockOperationBySource st source.Address
  if bo.Type_ ≠ OperationType.TypeUnfreezingRequest then
    some Error.UnfreezingRequestNotRequested
  else
    let lastblock := GetLatestBlock st
    if uint64Sub lastblock.Height bo.Height < cfg.UnfreezingPeriod then
      some Error.UnfreezingNotReachedExpiration
    else none

/-- Go `ValidateOp`. The named result `err` of the source is threaded: it is
what the final bare `return` hands back. -/
def ValidateOp (cfg : Common) (st : Storage) (source : BlockAccount) (op : Operation) :
    Option Error :=
  match op.H.Type_ with
  | OperationType.TypeCreateAccount =>
    match op.B with
    | OperationBody.CreateAccount target amount linked =>
      let r := ExistsBlockAccount st target
      if r.2 = none ∧ r.1 = true then some Error.BlockAccountAlreadyExists
      else if source.Linked ≠ "" then
        match unfreezingCheck cfg st source with
        | some e => some e
        | none =>
          if linked ≠ "" ∧ amount % cfg.Unit ≠ 0 then some Error.FrozenAccountCreationWholeUnit
          else r.2
      else r.2
    | _ => some Error.TypeOperationBodyNotMatched
  | OperationType.TypePayment =>
    match op.B with
    | OperationBody.Payment target amount =>
      match GetBlockAccount st target with
      | Except.error _ => some Error.BlockAccountDoesNotExists
      | Except.ok taccount =>
        if taccount.Linked ≠ "" then some Error.FrozenAccountNoDeposit
        else if source.Linked ≠ "" then
          let r := AmountSub cfg source.Balance cfg.BaseFee
          if amount ≠ r.1 then some Error.FrozenAccountMustWithdrawEverything
          else
            match unfreezingCheck cfg st source with
            | some e => some e
            | none => r.2
        else none
    | _ => some Error.TypeOperationBodyNotMatched
  | OperationType.TypeUnfreezingRequest =>
    match op.B with
    | OperationBody.UnfreezeRequest =>
      if source.Linked = "" then some Error.UnfreezingFromInvalidAccount
      else
        let bo := firstBlockOperationBySource st source.Address
        if bo.Type_ = OperationType.TypeUnfreezingRequest then
          some Error.UnfreezingRequestAlreadyReceived
        else none
    | _ => some Error.TypeOperationBodyNotMatched
  | OperationType.TypeCongressVoting => none
  | OperationType.TypeCongressVotingResult => none
  | OperationType.TypeOther _ => some Error.UnknownOperationType

/-- The loop of `ValidateTx` over the operations: the first operation that
`ValidateOp` rejects ends it, after the history marker of the transaction was
removed from storage. -/
def validateOperations (cfg : Common) (st : Storage) (ba : BlockAccount) (hash : String) :
    List Operation → Storage × Option Error
  | [] => (st, none)
  | op :: rest =>
    match ValidateOp cfg st ba op with
    | some e => (st.Remove (GetBlockTransactionHistoryKey hash), some e)
    | none => validateOperations cfg st ba hash rest

/-- Go `ValidateTx`: the storage afterwards and the returned error. -/
def ValidateTx (cfg : Common) (st : Storage) (tx : Transaction) : Storage × Option Error :=
  match GetBlockAccount st tx.B.Source with
  | Except.error _ => (st, some Error.BlockAccountDoesNotExists)
  | Except.ok ba =>
    if ¬ tx.IsValidSequenceID ba.SequenceID then (st, some Error.TransactionInvalidSequenceID)
    else
      match GetBlockAccountSequenceID st tx.B.Source tx.B.SequenceID with
      | Except.error e => (st, some e)
      | Except.ok bac =>
        let totalAmount := tx.TotalAmount true
        if bac.Balance < totalAmount then (st, some Error.TransactionExcessAbilityToPay)
        else validateOperations cfg st ba tx.H.Hash tx.B.Operations

/-! ## The ballot transaction checker -/

/-- Go `voting.Hole`. -/
inductive Hole where
  | NOTYET
  | YES
  | NO
  | EXP
  deriving DecidableEq, Repr

/-- Go `operation.CollectTxFee` (the field the checker reads). -/
structure CollectTxFee where
  Amount : Nat
  deriving DecidableEq, Repr

/-- Go `ballot.Ballot`, as far as the transaction checker reads it: the
transaction hashes, and the outcome of `ProposerTransaction().CollectTxFee()`
(that accessor is not under src/; its result is carried as a field). -/
structure Ballot where
  Transactions : List String
  ProposerCollectTxFee : Except Error CollectTxFee

/-- Go `ballot.TransactionsLength()`. -/
def Ballot.TransactionsLength (b : Ballot) : Nat := b.Transactions.length

/-- Go `NodeRunner`, as far as the checkers use it. -/
structure NodeRunner where
  TransactionPool : Pool
  Storage_ : Storage

/-- Go `BallotTransactionChecker`. -/
structure BallotTransactionChecker where
  NodeRunner : NodeRunner
  Ballot : Ballot
  Transactions : List String
  VotingHole : Hole
  ValidTransactions : List String
  validTransactionsMap : GoMap Bool
  CheckTransactionsOnly : Bool

/-- Go `common.InStringMap`. -/
def InStringMap (m : GoMap Bool) (key : String) : Bool := m.found key

/-- Go `checker.InvalidTransactions()`. -/
def BallotTransactionChecker.InvalidTransactions (checker : BallotTransactionChecker) :
    List String :=
  checker.Transactions.filter (fun hash => !checker.validTransactionsMap.found hash)

/-- Go `checker.setValidTransactions(hashes)`. -/
def BallotTransactionChecker.setValidTransactions (checker : BallotTransactionChecker)
    (hashes : List String) : BallotTransactionChecker :=
  { checker with
    ValidTransactions := hashes,
    validTransactionsMap := hashes.foldl (fun m hash => AList.insert hash true m) ∅ }

/-- The loop of `IsNew`: `none` when it returns `NewButKnownMessage`,
otherwise the hashes collected in `validTransactions`. -/
def isNewLoop (st : Storage) (only : Bool) : List String → List String → Option (List String)
  | [], validTransactions => some validTransactions
  | hash :: rest, validTransactions =>
    let r := ExistsBlockTransaction st hash
    if r.2 ≠ none ∨ r.1 = true then
      if ¬ only then none
      else isNewLoop st only rest validTransactions
    else isNewLoop st only rest (validTransactions ++ [hash])

/-- Go `IsNew`. -/
def IsNew (checker : BallotTransactionChecker) : BallotTransactionChecker × Option Error :=
  match isNewLoop checker.NodeRunner.Storage_ checker.CheckTransactionsOnly
      checker.Transactions [] with
  | none => (checker, some Error.NewButKnownMessage)
  | some validTransactions => (checker.setValidTransactions validTransactions, none)

/-- The loop of `CheckMissingTransaction`. -/
def checkMissingLoop (pool : Pool) : List String → List String → List String
  | [], validTransactions => validTransactions
  | hash :: rest, validTransactions =>
    if ¬ pool.Has hash then checkMissingLoop pool rest validTransactions
    else checkMissingLoop pool rest (validTransactions ++ [hash])

/-- Go `CheckMissingTransaction`. -/
def CheckMissingTransaction (checker : BallotTransactionChecker) :
    BallotTransactionChecker × Option Error :=
  (checker.setValidTransactions
    (checkMissingLoop checker.NodeRunner.TransactionPool checker.ValidTransactions []), none)

/-- The loop of `BallotTransactionsSameSource`: `none` when it returns
`TransactionSameSource`. -/
def sameSourceLoop (pool : Pool) (only : Bool) :
    List String → GoMap Bool → List String → Option (List String)
  | [], _, validTransactions => some validTransactions
  | hash :: rest, sources, validTransactions =>
    let tx := (pool.Get hash).1
    if InStringMap sources tx.B.Source then
      if ¬ only then none
      else sameSourceLoop pool only rest sources validTransactions
    else
      sameSourceLoop pool only rest (AList.insert tx.B.Source true sources)
        (validTransactions ++ [hash])

/-- Go `BallotTransactionsSameSource`. -/
def BallotTransactionsSameSource (checker : BallotTransactionChecker) :
    BallotTransactionChecker × Option Error :=
  match sameSourceLoop checker.NodeRunner.TransactionPool checker.CheckTransactionsOnly
      checker.ValidTransactions ∅ [] with
  | none => (checker, some Error.TransactionSameSource)
  | some validTransactions => (checker.setValidTransactions validTransactions, none)

/-- The loop of `BallotTransactionsSourceCheck`: the storage after the calls
of `ValidateTx`, and either the error it returns or the hashes collected. -/
def sourceCheckLoop (cfg : Common) (pool : Pool) (only : Bool) :
    List String → Storage → List String → Storage × Except Error (List String)
  | [], st, validTransactions => (st, Except.ok validTransactions)
  | hash :: rest, st, validTransactions =>
    let tx := (pool.Get hash).1
    match ValidateTx cfg st tx with
    | (st1, some e) =>
      if ¬ only then (st1, Except.error e)
      else sourceCheckLoop cfg pool only rest st1 validTransactions
    | (st1, none) => sourceCheckLoop cfg pool only rest st1 (validTransactions ++ [hash])

/-- Go `BallotTransactionsSourceCheck`. -/
def BallotTransactionsSourceCheck (cfg : Common) (checker : BallotTransactionChecker) :
    BallotTransactionChecker × Option Error :=
  match sourceCheckLoop cfg checker.NodeRunner.TransactionPool checker.CheckTransactionsOnly
      checker.ValidTransactions checker.NodeRunner.Storage_ [] with
  | (st1, Except.error e) =>
    ({ checker with NodeRunner := { checker.NodeRunner with Storage_ := st1 } }, some e)
  | (st1, Except.ok validTransactions) =>
    (({ checker with NodeRunner := { checker.NodeRunner with Storage_ := st1 } }
        ).setValidTransactions validTransactions, none)

/-- The fee loop of `BallotTransactionsOperationBodyCollectTxFee`: `none` when
a hash is not in the pool (`TransactionNotFound`), otherwise the fee summed.
The source adds with `MustAdd`, which does not wrap. -/
def collectFeeLoop (pool : Pool) : List String → Nat → Option Nat
  | [], fee => some fee
  | hash :: rest, fee =>
    match pool.Get hash with
    | (_, false) => none
    | (tx, true) => collectFeeLoop pool rest (fee + tx.B.Fee)

/-- Go `BallotTransactionsOperationBodyCollectTxFee`. -/
def BallotTransactionsOperationBodyCollectTxFee (checker : BallotTransactionChecker) :
    BallotTransactionChecker × Option Error :=
  match checker.Ballot.ProposerCollectTxFee with
  | Except.error e => (checker, some e)
  | Except.ok opb =>
    if checker.Ballot.TransactionsLength < 1 then
      if opb.Amount ≠ 0 then (checker, some Error.InvalidOperation)
      else (checker, none)
    else
      match collectFeeLoop checker.NodeRunner.TransactionPool checker.Transactions 0 with
      | none => (checker, some Error.TransactionNotFound)
      | some fee =>
        if opb.Amount ≠ fee then (checker, some Error.InvalidFee)
        else (checker, none)

/-- Go `BallotTransactionsAllValid`. -/
def BallotTransactionsAllValid (checker : BallotTransactionChecker) :
    BallotTransactionChecker × Option Error :=
  if checker.InvalidTransactions.length > 0 then
    ({ checker with VotingHole := Hole.NO }, none)
  else
    ({ checker with VotingHole := Hole.YES }, none)

/-- Modelled from the spec: `common.RunChecker` is not under src/. "An ordered
list of stage functions" over a shared context: a stage that returns no error
advances to the next one, a stage that returns an error ends the run with that
error. -/
def RunChecker {σ : Type} : List (σ → σ × Option Error) → σ → σ × Option Error
  | [], checker => (checker, none)
  | stage :: rest, checker =>
    match stage checker with
    | (checker1, some e) => (checker1, some e)
    | (checker1, none) => RunChecker rest checker1

/-- The ballot transaction chain, in the order of the specification. -/
def ballotTransactionCheckerFuncs (cfg : Common) :
    List (BallotTransactionChecker → BallotTransactionChecker × Option Error) :=
  [IsNew, CheckMissingTransaction, BallotTransactionsSameSource,
   BallotTransactionsSourceCheck cfg, BallotTransactionsOperationBodyCollectTxFee,
   BallotTransactionsAllValid]

/-! ## The message checker (`checker_message.go`) -/

/-- Modelled from the spec: `block.ExistsBlockTransactionHistory`, whether the
history marker `bth-<hash>` is in storage. -/
def ExistsBlockTransactionHistory (st : Storage) (hash : String) : Bool × Option Error :=
  ((st.history hash).isSome, none)

/-- Modelled from the spec: `block.SaveTransactionHistory`, which records the
history marker `bth-<hash>` of the transaction with the given status. -/
def blockSaveTransactionHistory (st : Storage) (tx : Transaction)
    (status : TransactionHistoryStatus) : Storage × Option Error :=
  ({ st with history := fun h => if h = tx.GetHash then some status else st.history h }, none)

/-- Modelled from the spec: `block.SaveTransactionPool`, which records the
pooled transaction under `bp-<hash>`. -/
def blockSaveTransactionPool (st : Storage) (tx : Transaction) : Storage × Option Error :=
  ({ st with transactionPool := fun h => if h = tx.GetHash then some tx
      else st.transactionPool h }, none)

/-- Go `MessageChecker`, as far as the stages below use it (the fields
`Storage` and `Transaction` are renamed: the types already have these names). -/
structure MessageChecker where
  TransactionPool : Pool
  Storage_ : Storage
  Transaction_ : Transaction

/-- Go `HasTransaction`. -/
def HasTransaction (checker : MessageChecker) : MessageChecker × Option Error :=
  let hash := checker.Transaction_.GetHash
  if checker.TransactionPool.Has hash then (checker, some Error.NewButKnownMessage)
  else
    let r := ExistsBlockTransaction checker.Storage_ hash
    match r.2 with
    | some err => (checker, some err)
    | none =>
      if r.1 then (checker, some Error.NewButKnownMessage)
      else (checker, none)

/-- Go `SaveTransactionHistory` (the checker stage). -/
def SaveTransactionHistory (checker : MessageChecker) : MessageChecker × Option Error :=
  let r := ExistsBlockTransactionHistory checker.Storage_ checker.Transaction_.GetHash
  if r.1 = true ∧ r.2 = none then (checker, some Error.NewButKnownMessage)
  else
    let w := blockSaveTransactionHistory checker.Storage_ checker.Transaction_
      TransactionHistoryStatus.Submitted
    ({ checker with Storage_ := w.1 }, w.2)

/-- Go `MessageHasSameSource`. -/
def MessageHasSameSource (checker : MessageChecker) : MessageChecker × Option Error :=
  if checker.TransactionPool.IsSameSource checker.Transaction_.Source then
    (checker, some Error.TransactionSameSource)
  else (checker, none)

/-- Go `MessageValidate`. -/
def MessageValidate (cfg : Common) (checker : MessageChecker) :
    MessageChecker × Option Error :=
  let r := ValidateTx cfg checker.Storage_ checker.Transaction_
  ({ checker with Storage_ := r.1 }, r.2)

/-- Go `PushIntoTransactionPool`. -/
def PushIntoTransactionPool (checker : MessageChecker) : MessageChecker × Option Error :=
  let tx := checker.Transaction_
  let added := checker.TransactionPool.Add tx
  let w := blockSaveTransactionPool checker.Storage_ tx
  ({ checker with TransactionPool := added.1, Storage_ := w.1 }, w.2)

/-- The transaction ingress chain between unmarshalling and broadcast, in the
order of the specification. -/
def messageCheckerFuncs (cfg : Common) :
    List (MessageChecker → MessageChecker × Option Error) :=
  [HasTransaction, SaveTransactionHistory, MessageHasSameSource, MessageValidate cfg,
   PushIntoTransactionPool]

/-! ## The same-proposer check -/

/-- Go `ballot.State`. -/
inductive BallotState where
  | INIT
  | SIGN
  | ACCEPT
  deriving DecidableEq, Repr

/-- Go `voting.Basis`. -/
structure VotingBasis where
  Round : Nat
  Height : Nat
  BlockHash : String
  TotalTxs : Nat
  deriving DecidableEq, Repr

/-- Go `ballot.Ballot`, as far as the same-proposer check is concerned: what
the ballot votes about, its proposer, its signer, its state and its vote. -/
structure ReceivedBallot where
  Basis : VotingBasis
  Proposer : String
  Source : String
  State : BallotState
  Vote : Hole
  deriving DecidableEq, Repr

/-- Go `BallotChecker`, as far as the same-proposer check is concerned;
`CalculateProposer` is the proposer selector of the node runner. -/
structure BallotChecker where
  CalculateProposer : Nat → Nat → String
  Ballot : ReceivedBallot
  VotingHole : Hole

/-- Modelled from the spec: `BallotIsSameProposer` is not under src/ (only its
test is). "A received ballot's proposer field must match the round's expected
proposer; a mismatched proposer causes the receiver to vote NO regardless of
content"; the test expects no error in both cases. -/
def BallotIsSameProposer (checker : BallotChecker) : BallotChecker × Option Error :=
  if checker.Ballot.Proposer ≠
      checker.CalculateProposer checker.Ballot.Basis.Height checker.Ballot.Basis.Round then
    ({ checker with VotingHole := Hole.NO }, none)
  else (checker, none)

/-! ## `lib/sync/syncer.go` -/

/-- Go `SyncProgress` (`uint64` fields). -/
structure SyncProgress where
  StartingBlock : Nat
  CurrentBlock : Nat
  HighestBlock : Nat
  deriving DecidableEq, Repr

/-- The `for` loop of `Syncer.sync`. `work height` is what
`s.work(height, nodeAddrs)` returns, i.e. whether the worker pool took the job
(`workPool.TryAdd` is not under src/). The result is the final `currentHeight`
and the calls of `work` made, each with its answer; `none` when the fuel runs
out, which stands for a loop that does not end (`height++` wraps around at
`2 ^ 64`). -/
def syncLoop (work : Nat → Bool) (highestHeight : Nat) :
    Nat → Nat → Nat → Option (Nat × List (Nat × Bool))
  | 0, _, _ => none
  | fuel + 1, height, currentHeight =>
    if height ≤ highestHeight then
      if work height = false then some (currentHeight, [(height, false)])
      else
        match syncLoop work highestHeight fuel ((height + 1) % 2 ^ 64) height with
        | none => none
        | some (cur, calls) => some (cur, (height, true) :: calls)
    else some (currentHeight, [])

/-- Go `Syncer.sync`: the progress afterwards and the calls of `work` made;
`latestBlockHeight` is what `s.latestBlockHeight()` returns. -/
def Syncer.sync (latestBlockHeight : Nat) (work : Nat → Bool) (p : SyncProgress) :
    Option (SyncProgress × List (Nat × Bool)) :=
  let currentHeight := p.CurrentBlock
  let highestHeight := p.HighestBlock
  let startHeight :=
    if latestBlockHeight > currentHeight then (latestBlockHeight + 1) % 2 ^ 64
    else (p.CurrentBlock + 1) % 2 ^ 64
  if startHeight > highestHeight then
    some ({ p with StartingBlock := (latestBlockHeight + 1) % 2 ^ 64,
                   CurrentBlock := currentHeight }, [])
  else
    match syncLoop work highestHeight (highestHeight + 2) startHeight currentHeight with
    | none => none
    | some (cur, calls) =>
      some ({ p with StartingBlock := startHeight, CurrentBlock := cur }, calls)

/-- The events of `Syncer.loop` that touch the sync progress. -/
inductive SyncEvent where
  | Check
  | Notify
  | RequestHighestBlock (height : Nat)
  deriving DecidableEq, Repr

/-- The sync progress `Syncer.loop` starts with. -/
def Syncer.initialProgress (height : Nat) : SyncProgress :=
  { StartingBlock := height, CurrentBlock := height, HighestBlock := height }

/-- One turn of the `select` of `Syncer.loop` on the sync progress. -/
def Syncer.handle (latestBlockHeight : Nat) (work : Nat → Bool) (p : SyncProgress) :
    SyncEvent → Option (SyncProgress × List (Nat × Bool))
  | SyncEvent.Check => Syncer.sync latestBlockHeight work p
  | SyncEvent.Notify => Syncer.sync latestBlockHeight work p
  | SyncEvent.RequestHighestBlock height =>
    if height > p.CurrentBlock then
      Syncer.sync latestBlockHeight work { p with HighestBlock := height }
    else some (p, [])

/-- What happens in one turn of the retry loop of the worker: the context is
done, or `Fetch` and `Validate` are called and return these errors. -/
inductive WorkIteration where
  | ContextDone
  | Attempt (fetchErr : Option Error) (validateErr : Option Error)
  deriving DecidableEq, Repr

/-- How the retry loop ended: the number of turns made, whether it was left
through `ctx.Done()`, and the value of `err` after it. -/
structure WorkResult where
  iterations : Nat
  canceled : Bool
  err : Option Error
  deriving DecidableEq, Repr

/-- The retry loop `L` of the worker in `Syncer.work`, run against the given
turns; `err` is the variable of the source (assigned by `Fetch`, then by
`Validate`), `n` counts the turns made. `none`: the loop has not ended yet. -/
def workLoop : List WorkIteration → Option Error → Nat → Option WorkResult
  | [], _, _ => none
  | WorkIteration.ContextDone :: _, err, n =>
    some { iterations := n + 1, canceled := true, err := err }
  | WorkIteration.Attempt _ validateErr :: rest, _, n =>
    match validateErr with
    | some e => workLoop rest (some e) (n + 1)
    | none => some { iterations := n + 1, canceled := false, err := none }

/-! ## The `--genesis` flag of the node command (`cmd/sebak/cmd/run.go`) -/

/-- Go `strings.Split(s, sep)` for a one-character separator, on the
characters left to read; `cur` holds the field being read, reversed. -/
def splitFields (sep : Char) : List Char → List Char → List String
  | [], cur => [String.mk cur.reverse]
  | c :: rest, cur =>
    if c = sep then String.mk cur.reverse :: splitFields sep rest []
    else splitFields sep rest (c :: cur)

/-- Go `strings.Split(s, ",")`. -/
def stringsSplitComma (s : String) : List String := splitFields ',' s.data []

/-- What the `--genesis` part of the node command does: nothing when the flag
is empty, a flags error (`cmdcommon.PrintFlagsError`, which is not under src/
and ends the command), or a call of `makeGenesisBlock` with these arguments. -/
inductive GenesisOutcome where
  | NotRequested
  | FlagsError
  | MakeGenesisBlock (genesisAddress commonAccount balanceStr : String)
  deriving DecidableEq, Repr

/-- The `--genesis` handling in `nodeCmd.Run`. -/
def nodeCmdGenesis (flagGenesis : String) : GenesisOutcome :=
  if flagGenesis.length ≠ 0 then
    let csv := stringsSplitComma flagGenesis
    if csv.length < 2 ∨ csv.length > 3 then GenesisOutcome.FlagsError
    else
      let balanceStr := if csv.length = 3 then csv.getD 1 "" else ""
      GenesisOutcome.MakeGenesisBlock (csv.getD 0 "") (csv.getD 1 "") balanceStr
  else GenesisOutcome.NotRequested

/-! ## Ghost bookkeeping for the pool -/

/-- A pool run with a step counter and, for every hash, the step of its latest
admission by `Add` (0 when it never was admitted). -/
structure TracedPool where
  pool : Pool
  clock : Nat
  admittedAt : String → Nat

/-- One writer call on a traced pool. -/
def TracedPool.call (s : TracedPool) : PoolCall → TracedPool
  | PoolCall.Add tx =>
    { pool := (s.pool.Add tx).1,
      clock := s.clock + 1,
      admittedAt := fun h =>
        if (s.pool.Add tx).2 = true ∧ h = tx.GetHash then s.clock + 1 else s.admittedAt h }
  | PoolCall.Remove hashes =>
    { pool := s.pool.Remove hashes, clock := s.clock + 1, admittedAt := s.admittedAt }

/-- The traced run of a sequence of calls from `NewPool()`. -/
def TracedPool.run (calls : List PoolCall) : TracedPool :=
  calls.foldl TracedPool.call { pool := NewPool, clock := 0, admittedAt := fun _ => 0 }

/-- Every `Add` of the call sequence is made while the source of its
transaction is not in the source set: the discipline of the ingress chain,
where `MessageHasSameSource` stands before `PushIntoTransactionPool`. -/
def Pool.sourceGated (tp : Pool) : List PoolCall → Bool
  | [] => true
  | PoolCall.Add tx :: rest =>
    !tp.IsSameSource tx.Source && (tp.call (PoolCall.Add tx)).sourceGated rest
  | PoolCall.Remove hashes :: rest => (tp.call (PoolCall.Remove hashes)).sourceGated rest

/-- The hash sequence mirrors the key set of the transaction map. -/
def Pool.Mirrored (tp : Pool) : Prop :=
  tp.hashes.Nodup ∧ ∀ h, h ∈ tp.hashes ↔ h ∈ tp.Pool_

/-- One transaction per source: every stored transaction is stored under its
own hash with its source in the source set, every source of the source set is
the source of a stored transaction, and no two stored transactions share a
source. -/
def Pool.SourceConsistent (tp : Pool) : Prop :=
  (∀ h tx, AList.lookup h tp.Pool_ = some tx → tx.GetHash = h ∧ tx.Source ∈ tp.Sources) ∧
  (∀ s, s ∈ tp.Sources → ∃ h tx, AList.lookup h tp.Pool_ = some tx ∧ tx.Source = s) ∧
  (∀ h1 h2 t1 t2, AList.lookup h1 tp.Pool_ = some t1 → AList.lookup h2 tp.Pool_ = some t2 →
    t1.Source = t2.Source → h1 = h2)

/-- Triple consistency of a pool: a hash is a key of the transaction map
exactly when it occurs in the hash sequence; every stored transaction has its
hash in the map, its hash in the sequence and its source in the source set; and
every source of the source set is the source of a stored transaction. -/
def Pool.TripleConsistent (tp : Pool) : Prop :=
  (∀ h, tp.Has h = true ↔ h ∈ tp.hashes) ∧
  (∀ t, tp.Get t.GetHash = (t, true) →
    tp.Has t.GetHash = true ∧ t.GetHash ∈ tp.hashes ∧ tp.IsSameSource t.Source = true) ∧
  (∀ s, tp.IsSameSource s = true → ∃ t, tp.Get t.GetHash = (t, true) ∧ t.Source = s)

/-- Bookkeeping invariant of a traced pool: the hash sequence mirrors the key
set, every hash of the sequence was admitted at a step between 1 and the
current clock, and the sequence is in increasing order of admission. -/
def TracedPool.Ordered (s : TracedPool) : Prop :=
  s.pool.Mirrored ∧
  (∀ h, h ∈ s.pool.hashes → 1 ≤ s.admittedAt h ∧ s.admittedAt h ≤ s.clock) ∧
  s.pool.hashes.Pairwise (fun a b => s.admittedAt a < s.admittedAt b)

/-- No hash of the ballot is dropped by the narrowing stages: every referenced
transaction is not yet stored in a block, is in the local pool and passes
`ValidateTx`, and no two different referenced hashes have the same source. -/
def BallotTransactionChecker.AllGood (cfg : Common) (c : BallotTransactionChecker) : Prop :=
  (∀ h, h ∈ c.Transactions →
    ExistsBlockTransaction c.NodeRunner.Storage_ h = (false, none) ∧
    c.NodeRunner.TransactionPool.Has h = true ∧
    (ValidateTx cfg c.NodeRunner.Storage_ (c.NodeRunner.TransactionPool.Get h).1).2 = none) ∧
  (∀ h1 h2, h1 ∈ c.Transactions → h2 ∈ c.Transactions →
    (c.NodeRunner.TransactionPool.Get h1).1.B.Source =
      (c.NodeRunner.TransactionPool.Get h2).1.B.Source → h1 = h2)

/-- The fee collected by the proposer is the fee of the referenced
transactions: the proposer transaction carries a collect-tx-fee body whose
amount is the sum, over the listed hashes, of the fees of the transactions the
pool holds under them. -/
def BallotTransactionChecker.FeeMatches (c : BallotTransactionChecker) : Prop :=
  ∃ opb, c.Ballot.ProposerCollectTxFee = Except.ok opb ∧
    opb.Amount =
      (c.Transactions.map (fun h => (c.NodeRunner.TransactionPool.Get h).1.B.Fee)).sum

/-- Outcome of a run of stages `r` started from `c`: either an error, the vote
left as it was, or no error and the vote set to YES when `good` holds and to
NO when it does not. -/
def VoteOutcome (c : BallotTransactionChecker) (r : BallotTransactionChecker × Option Error)
    (good : Prop) : Prop :=
  (∃ e, r.2 = some e ∧ r.1.VotingHole = c.VotingHole) ∨
    (r.2 = none ∧
      ((r.1.VotingHole = Hole.YES ∧ good) ∨ (r.1.VotingHole = Hole.NO ∧ ¬ good)))

/-! ## Concrete data for the examples -/

/-- A transaction without operations. -/
def sampleTx (hash source : String) (fee sequenceID : Nat) : Transaction :=
  { H := { Hash := hash },
    B := { Source := source, Fee := fee, SequenceID := sequenceID, Operations := [] } }

/-- A storage with one account `S1` (sequence-id 5, balance 200 at that
sequence-id), a target account `T1`, a history marker for `h1`, and latest
block 10. -/
def sampleStorage : Storage :=
  { accounts := fun a =>
      if a = "S1" then some { Address := "S1", Balance := 200, SequenceID := 5, Linked := "" }
      else if a = "T1" then some { Address := "T1", Balance := 7, SequenceID := 0, Linked := "" }
      else none,
    accountsAtSequence := fun a n =>
      if a = "S1" ∧ n = 5 then some { SequenceID := 5, Address := "S1", Balance := 200 }
      else none,
    blockTransactions := fun _ => false,
    history := fun h => if h = "h1" then some TransactionHistoryStatus.Submitted else none,
    operationsBySource := fun _ => [],
    latestBlock := { Height := 10 },
    transactionPool := fun _ => none }

/-- The constants of the examples. -/
def sampleCommon : Common :=
  { BaseFee := 10000, Unit := 10000000, UnfreezingPeriod := 241920,
    subUnderflow := fun _ _ => 0 }

/-- A payment operation. -/
def samplePayment (target : String) (amount : Nat) : Operation :=
  { H := { Type_ := OperationType.TypePayment }, B := OperationBody.Payment target amount }

/-- A transaction of source `S1` with the given sequence-id, fee and operations. -/
def sampleTxOps (hash : String) (fee sequenceID : Nat) (ops : List Operation) : Transaction :=
  { H := { Hash := hash },
    B := { Source := "S1", Fee := fee, SequenceID := sequenceID, Operations := ops } }

/-- A ballot transaction checker over `sampleStorage` in
check-transactions-only mode, the vote not yet set. -/
def sampleChecker (pool : Pool) (hashes : List String) (collected : Nat) :
    BallotTransactionChecker :=
  { NodeRunner := { TransactionPool := pool, Storage_ := sampleStorage },
    Ballot := { Transactions := hashes, ProposerCollectTxFee := Except.ok { Amount := collected } },
    Transactions := hashes,
    VotingHole := Hole.NOTYET,
    ValidTransactions := [],
    validTransactionsMap := ∅,
    CheckTransactionsOnly := true }

/-- The checker `sampleChecker` outside check-transactions-only mode. -/
def strictChecker (pool : Pool) (hashes : List String) (collected : Nat) :
    BallotTransactionChecker :=
  { sampleChecker pool hashes collected with CheckTransactionsOnly := false }

/-- A frozen account `F1` (balance 1000000, linked to its parent `P1`). -/
def sampleFrozen : BlockAccount :=
  { Address := "F1", Balance := 1000000, SequenceID := 0, Linked := "P1" }

/-- A storage holding the frozen account `F1`, its parent `P1`, the recorded
operations `ops` of `F1` (latest first) and a latest block of the given
height. -/
def frozenStorage (ops : List BlockOperation) (height : Nat) : Storage :=
  { accounts := fun a =>
      if a = "F1" then some sampleFrozen
      else if a = "P1" then some { Address := "P1", Balance := 5, SequenceID := 0, Linked := "" }
      else none,
    accountsAtSequence := fun _ _ => none,
    blockTransactions := fun _ => false,
    history := fun _ => none,
    operationsBySource := fun a => if a = "F1" then ops else [],
    latestBlock := { Height := height },
    transactionPool := fun _ => none }

/-- An unfreezing request recorded at the given height. -/
def sampleUnfreezingRequest (height : Nat) : BlockOperation :=
  { Type_ := OperationType.TypeUnfreezingRequest, Height := height }

/-- A create-account operation. -/
def sampleCreateAccount (target : String) (amount : Nat) (linked : String) : Operation :=
  { H := { Type_ := OperationType.TypeCreateAccount },
    B := OperationBody.CreateAccount target amount linked }

/-- The storage `sampleStorage` with the transaction `hb` stored in a block. -/
def storedStorage : Storage :=
  { sampleStorage with blockTransactions := fun h => decide (h = "hb") }

/-- A ballot transaction checker over `storedStorage` with the given mode. -/
def storedChecker (hashes : List String) (only : Bool) : BallotTransactionChecker :=
  { NodeRunner := { TransactionPool := NewPool, Storage_ := storedStorage },
    Ballot := { Transactions := hashes, ProposerCollectTxFee := Except.ok { Amount := 0 } },
    Transactions := hashes,
    VotingHole := Hole.NOTYET,
    ValidTransactions := [],
    validTransactionsMap := ∅,
    CheckTransactionsOnly := only }

/-- A message checker over the given pool and storage for the transaction. -/
def sampleMessageChecker (pool : Pool) (st : Storage) (tx : Transaction) : MessageChecker :=
  { TransactionPool := pool, Storage_ := st, Transaction_ := tx }

/-! ## Basic facts about the pool -/

theorem GoMap.found_iff {V : Type} (m : GoMap V) (key : String) :
    m.found key = true ↔ key ∈ m := by
  unfold GoMap.found
  exact AList.lookup_isSome

theorem GoMap.found_eq_false_iff {V : Type} (m : GoMap V) (key : String) :
    m.found key = false ↔ key ∉ m := by
  rw [← GoMap.found_iff, Bool.not_eq_true]

theorem Pool.Has_iff (tp : Pool) (hash : String) : tp.Has hash = true ↔ hash ∈ tp.Pool_ :=
  GoMap.found_iff _ _

theorem Pool.Has_eq_false_iff (tp : Pool) (hash : String) :
    tp.Has hash = false ↔ hash ∉ tp.Pool_ :=
  GoMap.found_eq_false_iff _ _

theorem Pool.IsSameSource_iff (tp : Pool) (source : String) :
    tp.IsSameSource source = true ↔ source ∈ tp.Sources :=
  GoMap.found_iff _ _

theorem Pool.Get_of_lookup (tp : Pool) (hash : String) (tx : Transaction)
    (h : AList.lookup hash tp.Pool_ = some tx) : tp.Get hash = (tx, true) := by
  simp [Pool.Get, h]

theorem Pool.lookup_of_Get (tp : Pool) (hash : String) (tx : Transaction)
    (h : tp.Get hash = (tx, true)) : AList.lookup hash tp.Pool_ = some tx := by
  unfold Pool.Get at h
  split at h
  · next t ht => rw [ht]; simp only [Prod.mk.injEq, and_true] at h; rw [h]
  · simp at h

theorem spliceFirst_eq_erase (hash : String) (l : List String) :
    spliceFirst hash l = l.erase hash := by
  induction l with
  | nil => rfl
  | cons h t ih =>
    by_cases hh : h = hash
    · simp [spliceFirst, hh]
    · simp [spliceFirst, hh, ih, List.erase_cons]

theorem Pool.Remove_eq_foldl (tp : Pool) (hashes : List String) :
    tp.Remove hashes = hashes.foldl Pool.removeOne tp := by
  cases hashes <;> simp [Pool.Remove]

theorem Pool.Len_eq_keys (tp : Pool) : tp.Len = tp.Pool_.keys.length := by
  simp [Pool.Len, AList.keys, List.keys]

theorem Pool.Add_of_has (tp : Pool) (tx : Transaction) (h : tp.Has tx.GetHash = true) :
    tp.Add tx = (tp, false) := by
  simp [Pool.Add, h]

theorem Pool.Add_of_not_has (tp : Pool) (tx : Transaction) (h : tp.Has tx.GetHash = false) :
    tp.Add tx =
      ({ Pool_ := AList.insert tx.GetHash tx tp.Pool_,
         Sources := AList.insert tx.Source true tp.Sources,
         hashes := tp.hashes ++ [tx.GetHash] }, true) := by
  simp [Pool.Add, h]

theorem Pool.removeOne_of_lookup (tp : Pool) (hash : String) (tx : Transaction)
    (h : AList.lookup hash tp.Pool_ = some tx) :
    tp.removeOne hash =
      { Pool_ := AList.erase hash tp.Pool_,
        Sources := AList.erase tx.Source tp.Sources,
        hashes := tp.hashes.erase hash } := by
  simp [Pool.removeOne, h, spliceFirst_eq_erase]

theorem Pool.removeOne_of_not_mem (tp : Pool) (hash : String) (h : hash ∉ tp.Pool_) :
    tp.removeOne hash = tp := by
  have : AList.lookup hash tp.Pool_ = none := AList.lookup_eq_none.mpr h
  simp [Pool.removeOne, this]

/-! ## The hash sequence mirrors the key set -/

theorem Pool.Mirrored_new : NewPool.Mirrored := by
  constructor
  · simp [NewPool]
  · intro h
    simp [NewPool]

theorem Pool.Mirrored_add (tp : Pool) (tx : Transaction) (inv : tp.Mirrored) :
    (tp.Add tx).1.Mirrored := by
  cases hh : tp.Has tx.GetHash
  · rw [Pool.Add_of_not_has tp tx hh]
    have hnot : tx.GetHash ∉ tp.Pool_ := (Pool.Has_eq_false_iff _ _).mp hh
    constructor
    · show (tp.hashes ++ [tx.GetHash]).Nodup
      rw [List.nodup_append]
      refine ⟨inv.1, List.nodup_singleton _, ?_⟩
      intro a ha hb
      rw [List.mem_singleton] at hb
      subst hb
      exact hnot ((inv.2 _).mp ha)
    · intro h
      show h ∈ tp.hashes ++ [tx.GetHash] ↔ h ∈ AList.insert tx.GetHash tx tp.Pool_
      rw [List.mem_append, List.mem_singleton, AList.mem_insert, inv.2 h]
      exact Or.comm
  · rw [Pool.Add_of_has tp tx hh]
    exact inv

theorem Pool.Mirrored_removeOne (tp : Pool) (hash : String) (inv : tp.Mirrored) :
    (tp.removeOne hash).Mirrored := by
  cases hl : AList.lookup hash tp.Pool_ with
  | none =>
    rw [Pool.removeOne_of_not_mem tp hash (AList.lookup_eq_none.mp hl)]
    exact inv
  | some tx =>
    rw [Pool.removeOne_of_lookup tp hash tx hl]
    constructor
    · exact inv.1.erase hash
    · intro h
      show h ∈ tp.hashes.erase hash ↔ h ∈ AList.erase hash tp.Pool_
      rw [inv.1.mem_erase_iff, AList.mem_erase, inv.2 h]

theorem Pool.Mirrored_foldl_removeOne (hashes : List String) (tp : Pool) (inv : tp.Mirrored) :
    (hashes.foldl Pool.removeOne tp).Mirrored := by
  induction hashes generalizing tp with
  | nil => exact inv
  | cons h t ih => exact ih _ (Pool.Mirrored_removeOne tp h inv)

theorem Pool.Mirrored_remove (tp : Pool) (hashes : List String) (inv : tp.Mirrored) :
    (tp.Remove hashes).Mirrored := by
  rw [Pool.Remove_eq_foldl]
  exact Pool.Mirrored_foldl_removeOne hashes tp inv

theorem Pool.Mirrored_call (tp : Pool) (c : PoolCall) (inv : tp.Mirrored) :
    (tp.call c).Mirrored := by
  cases c with
  | Add tx => exact Pool.Mirrored_add tp tx inv
  | Remove hashes => exact Pool.Mirrored_remove tp hashes inv

theorem Pool.Mirrored_foldl_call (calls : List PoolCall) (tp : Pool) (inv : tp.Mirrored) :
    (calls.foldl Pool.call tp).Mirrored := by
  induction calls generalizing tp with
  | nil => exact inv
  | cons c t ih => exact ih _ (Pool.Mirrored_call tp c inv)

theorem Pool.Mirrored_run (calls : List PoolCall) : (Pool.run calls).Mirrored :=
  Pool.Mirrored_foldl_call calls NewPool Pool.Mirrored_new

theorem Pool.Mirrored_len (tp : Pool) (inv : tp.Mirrored) : tp.Len = tp.hashes.length := by
  rw [Pool.Len_eq_keys]
  apply List.Perm.length_eq
  rw [List.perm_ext_iff_of_nodup tp.Pool_.keys_nodup inv.1]
  intro h
  rw [inv.2 h]
  exact AList.mem_keys.symm

theorem availableLoop_eq (n : Int) (l ret : List String) (h : (ret.length : Int) ≤ n) :
    availableLoop n l ret = ret ++ l.take (n.toNat - ret.length) := by
  induction l generalizing ret with
  | nil => simp [availableLoop]
  | cons key rest ih =>
    unfold availableLoop
    by_cases hn : (ret.length : Int) = n
    · have h0 : n.toNat - ret.length = 0 := by omega
      simp [hn, h0]
    · have hlt : ((ret ++ [key]).length : Int) ≤ n := by
        simp only [List.length_append, List.length_singleton]
        omega
      rw [if_neg hn, ih _ hlt]
      have hk : n.toNat - ret.length = (n.toNat - (ret ++ [key]).length) + 1 := by
        simp only [List.length_append, List.length_singleton]
        omega
      rw [hk, List.take_succ_cons]
      simp

theorem Pool.AvailableTransactions_eq_take (tp : Pool) (n : Int) (h : 1 ≤ n) :
    tp.AvailableTransactions n = tp.hashes.take n.toNat := by
  unfold Pool.AvailableTransactions
  rw [if_neg (by omega), availableLoop_eq n tp.hashes [] (by simp; omega)]
  simp

theorem Pool.AvailableTransactions_subset (tp : Pool) (n : Int) (h : String)
    (hm : h ∈ tp.AvailableTransactions n) : h ∈ tp.hashes := by
  by_cases hn : 1 ≤ n
  · rw [Pool.AvailableTransactions_eq_take tp n hn] at hm
    exact List.mem_of_mem_take hm
  · unfold Pool.AvailableTransactions at hm
    rw [if_pos (by omega)] at hm
    simp at hm

/-! ## What `Remove` leaves behind -/

theorem Pool.removeOne_mem_pool (tp : Pool) (x h : String)
    (hm : h ∈ (tp.removeOne x).Pool_) : h ∈ tp.Pool_ := by
  cases hl : AList.lookup x tp.Pool_ with
  | none =>
    rw [Pool.removeOne_of_not_mem tp x (AList.lookup_eq_none.mp hl)] at hm
    exact hm
  | some tx =>
    rw [Pool.removeOne_of_lookup tp x tx hl] at hm
    exact (AList.mem_erase.mp hm).2

theorem Pool.removeOne_mem_sources (tp : Pool) (x s : String)
    (hm : s ∈ (tp.removeOne x).Sources) : s ∈ tp.Sources := by
  cases hl : AList.lookup x tp.Pool_ with
  | none =>
    rw [Pool.removeOne_of_not_mem tp x (AList.lookup_eq_none.mp hl)] at hm
    exact hm
  | some tx =>
    rw [Pool.removeOne_of_lookup tp x tx hl] at hm
    exact (AList.mem_erase.mp hm).2

theorem Pool.removeOne_not_mem_self (tp : Pool) (x : String) : x ∉ (tp.removeOne x).Pool_ := by
  cases hl : AList.lookup x tp.Pool_ with
  | none =>
    rw [Pool.removeOne_of_not_mem tp x (AList.lookup_eq_none.mp hl)]
    exact AList.lookup_eq_none.mp hl
  | some tx =>
    rw [Pool.removeOne_of_lookup tp x tx hl]
    intro hm
    exact (AList.mem_erase.mp hm).1 rfl

theorem Pool.removeOne_lookup_ne (tp : Pool) (x h : String) (hne : h ≠ x) :
    AList.lookup h (tp.removeOne x).Pool_ = AList.lookup h tp.Pool_ := by
  cases hl : AList.lookup x tp.Pool_ with
  | none => rw [Pool.removeOne_of_not_mem tp x (AList.lookup_eq_none.mp hl)]
  | some tx =>
    rw [Pool.removeOne_of_lookup tp x tx hl]
    exact AList.lookup_erase_ne hne

theorem Pool.foldl_removeOne_mem_pool (hashes : List String) (tp : Pool) (h : String)
    (hm : h ∈ (hashes.foldl Pool.removeOne tp).Pool_) : h ∈ tp.Pool_ := by
  induction hashes generalizing tp with
  | nil => exact hm
  | cons x t ih => exact Pool.removeOne_mem_pool tp x h (ih _ hm)

theorem Pool.foldl_removeOne_mem_sources (hashes : List String) (tp : Pool) (s : String)
    (hm : s ∈ (hashes.foldl Pool.removeOne tp).Sources) : s ∈ tp.Sources := by
  induction hashes generalizing tp with
  | nil => exact hm
  | cons x t ih => exact Pool.removeOne_mem_sources tp x s (ih _ hm)

theorem Pool.foldl_removeOne_not_mem (hashes : List String) (tp : Pool) (h : String)
    (hh : h ∈ hashes) : h ∉ (hashes.foldl Pool.removeOne tp).Pool_ := by
  induction hashes generalizing tp with
  | nil => simp at hh
  | cons x t ih =>
    by_cases hx : h ∈ t
    · exact ih _ hx
    · have hxe : h = x := by
        rcases List.mem_cons.mp hh with h1 | h1
        · exact h1
        · exact absurd h1 hx
      subst hxe
      intro hm
      exact Pool.removeOne_not_mem_self tp h (Pool.foldl_removeOne_mem_pool t _ h hm)

theorem Pool.foldl_removeOne_source_gone (hashes : List String) (tp : Pool) (h : String)
    (tx : Transaction) (hh : h ∈ hashes) (hl : AList.lookup h tp.Pool_ = some tx) :
    tx.Source ∉ (hashes.foldl Pool.removeOne tp).Sources := by
  induction hashes generalizing tp with
  | nil => simp at hh
  | cons x t ih =>
    by_cases hx : h = x
    · subst hx
      intro hm
      have h1 := Pool.foldl_removeOne_mem_sources t _ _ hm
      rw [Pool.removeOne_of_lookup tp h tx hl] at h1
      exact (AList.mem_erase.mp h1).1 rfl
    · have ht : h ∈ t := by
        rcases List.mem_cons.mp hh with h1 | h1
        · exact absurd h1 hx
        · exact h1
      apply ih _ ht
      rw [Pool.removeOne_lookup_ne tp x h hx]
      exact hl

/-! ## `Add` -/

/-- C5: when the hash of `tx` is already a key of the pool, `Add(tx)` returns
false and changes nothing: the transaction map (so also the transaction stored
under that hash), the source set and the hash sequence are as before. -/
theorem Pool.Add_known_hash_noop (tp : Pool) (tx : Transaction)
    (h : tp.Has tx.GetHash = true) :
    (tp.Add tx).2 = false ∧ (tp.Add tx).1 = tp ∧
      (tp.Add tx).1.Pool_ = tp.Pool_ ∧ (tp.Add tx).1.Sources = tp.Sources ∧
      (tp.Add tx).1.hashes = tp.hashes ∧
      (tp.Add tx).1.Get tx.GetHash = tp.Get tx.GetHash := by
  rw [Pool.Add_of_has tp tx h]
  exact ⟨rfl, rfl, rfl, rfl, rfl, rfl⟩

/-- Witness of C5: a pool holding hash `h1` from source `S1` is offered another
transaction with hash `h1`, from source `S2`. -/
theorem Pool.Add_known_hash_noop_witness :
    (NewPool.Add (sampleTx "h1" "S1" 1 0)).1.Has (sampleTx "h1" "S2" 2 0).GetHash = true ∧
    (((NewPool.Add (sampleTx "h1" "S1" 1 0)).1.Add (sampleTx "h1" "S2" 2 0)).2 = false ∧
      ((NewPool.Add (sampleTx "h1" "S1" 1 0)).1.Add (sampleTx "h1" "S2" 2 0)).1 =
        (NewPool.Add (sampleTx "h1" "S1" 1 0)).1 ∧
      ((NewPool.Add (sampleTx "h1" "S1" 1 0)).1.Add (sampleTx "h1" "S2" 2 0)).1.Pool_ =
        (NewPool.Add (sampleTx "h1" "S1" 1 0)).1.Pool_ ∧
      ((NewPool.Add (sampleTx "h1" "S1" 1 0)).1.Add (sampleTx "h1" "S2" 2 0)).1.Sources =
        (NewPool.Add (sampleTx "h1" "S1" 1 0)).1.Sources ∧
      ((NewPool.Add (sampleTx "h1" "S1" 1 0)).1.Add (sampleTx "h1" "S2" 2 0)).1.hashes =
        (NewPool.Add (sampleTx "h1" "S1" 1 0)).1.hashes ∧
      ((NewPool.Add (sampleTx "h1" "S1" 1 0)).1.Add (sampleTx "h1" "S2" 2 0)).1.Get
          (sampleTx "h1" "S2" 2 0).GetHash =
        (NewPool.Add (sampleTx "h1" "S1" 1 0)).1.Get (sampleTx "h1" "S2" 2 0).GetHash) :=
  ⟨by decide,
   Pool.Add_known_hash_noop (NewPool.Add (sampleTx "h1" "S1" 1 0)).1 (sampleTx "h1" "S2" 2 0)
     (by decide)⟩

/-- C6: when the hash of `tx` is not in the pool, `Add(tx)` returns true and
afterwards `Has(hash)` is true, `Get(hash)` is `(tx, true)`,
`IsSameSource(source)` is true, the hash is the last element of the hash
sequence and `Len()` has grown by exactly one. -/
theorem Pool.Add_fresh_hash (tp : Pool) (tx : Transaction) (h : tp.Has tx.GetHash = false) :
    (tp.Add tx).2 = true ∧ (tp.Add tx).1.Has tx.GetHash = true ∧
      (tp.Add tx).1.Get tx.GetHash = (tx, true) ∧
      (tp.Add tx).1.IsSameSource tx.Source = true ∧
      (tp.Add tx).1.hashes.getLast? = some tx.GetHash ∧
      (tp.Add tx).1.Len = tp.Len + 1 := by
  have hnot : tx.GetHash ∉ tp.Pool_ := (Pool.Has_eq_false_iff _ _).mp h
  rw [Pool.Add_of_not_has tp tx h]
  refine ⟨rfl, ?_, ?_, ?_, ?_, ?_⟩
  · rw [Pool.Has_iff]
    exact (AList.mem_insert _).mpr (Or.inl rfl)
  · apply Pool.Get_of_lookup
    exact AList.lookup_insert _
  · rw [Pool.IsSameSource_iff]
    exact (AList.mem_insert _).mpr (Or.inl rfl)
  · simp
  · show (AList.insert tx.GetHash tx tp.Pool_).entries.length = tp.Pool_.entries.length + 1
    rw [AList.insert_entries_of_neg hnot]
    rfl

/-- Witness of C6: a fresh hash `h2` is added to a pool that holds `h1`. -/
theorem Pool.Add_fresh_hash_witness :
    (NewPool.Add (sampleTx "h1" "S1" 1 0)).1.Has (sampleTx "h2" "S2" 1 0).GetHash = false ∧
    ((NewPool.Add (sampleTx "h1" "S1" 1 0)).1.Add (sampleTx "h2" "S2" 1 0)).1.hashes.getLast? =
      some (sampleTx "h2" "S2" 1 0).GetHash ∧
    ((NewPool.Add (sampleTx "h1" "S1" 1 0)).1.Add (sampleTx "h2" "S2" 1 0)).1.Len =
      (NewPool.Add (sampleTx "h1" "S1" 1 0)).1.Len + 1 :=
  ⟨by decide,
   (Pool.Add_fresh_hash (NewPool.Add (sampleTx "h1" "S1" 1 0)).1 (sampleTx "h2" "S2" 1 0)
     (by decide)).2.2.2.2.1,
   (Pool.Add_fresh_hash (NewPool.Add (sampleTx "h1" "S1" 1 0)).1 (sampleTx "h2" "S2" 1 0)
     (by decide)).2.2.2.2.2⟩

/-! ## Reachable pools -/

/-- C7: in every pool reached from `NewPool()` by `Add` and `Remove` calls the
hash sequence mirrors the key set of the transaction map: no hash occurs twice
in it, its elements are exactly the stored hashes, and `Len()` is its length. -/
theorem Pool.hashes_mirror_keys (calls : List PoolCall) :
    (Pool.run calls).hashes.Nodup ∧
      (∀ h, h ∈ (Pool.run calls).hashes ↔ (Pool.run calls).Has h = true) ∧
      (Pool.run calls).Len = (Pool.run calls).hashes.length := by
  have inv := Pool.Mirrored_run calls
  refine ⟨inv.1, ?_, Pool.Mirrored_len _ inv⟩
  intro h
  rw [Pool.Has_iff]
  exact inv.2 h

/-- C8: after `Remove(hs)` on a reachable pool, every hash of `hs` is out of
the transaction map and out of the hash sequence, `AvailableTransactions` never
returns it, and the source of every transaction that was stored under a hash of
`hs` is out of the source set. -/
theorem Pool.Remove_clears (calls : List PoolCall) (hs : List String) :
    ∀ h, h ∈ hs →
      ((Pool.run calls).Remove hs).Has h = false ∧
      h ∉ ((Pool.run calls).Remove hs).hashes ∧
      (∀ n, h ∉ ((Pool.run calls).Remove hs).AvailableTransactions n) ∧
      (∀ tx, (Pool.run calls).Get h = (tx, true) →
        ((Pool.run calls).Remove hs).IsSameSource tx.Source = false) := by
  intro h hh
  have inv := Pool.Mirrored_remove _ hs (Pool.Mirrored_run calls)
  have hnot : h ∉ ((Pool.run calls).Remove hs).Pool_ := by
    rw [Pool.Remove_eq_foldl]
    exact Pool.foldl_removeOne_not_mem hs _ h hh
  have hseq : h ∉ ((Pool.run calls).Remove hs).hashes := fun hm => hnot ((inv.2 h).mp hm)
  refine ⟨(Pool.Has_eq_false_iff _ _).mpr hnot, hseq, ?_, ?_⟩
  · intro n hm
    exact hseq (Pool.AvailableTransactions_subset _ n h hm)
  · intro tx hget
    have hl := Pool.lookup_of_Get _ _ _ hget
    unfold Pool.IsSameSource
    rw [GoMap.found_eq_false_iff, Pool.Remove_eq_foldl]
    exact Pool.foldl_removeOne_source_gone hs _ h tx hh hl

/-- Witness of C8: two transactions of one source are in the pool and both
hashes are removed in one call. -/
theorem Pool.Remove_clears_witness :
    ((Pool.run [PoolCall.Add (sampleTx "h1" "S1" 1 0),
        PoolCall.Add (sampleTx "h2" "S1" 1 1)]).Remove ["h2", "h1"]).Has "h1" = false ∧
    (Pool.run [PoolCall.Add (sampleTx "h1" "S1" 1 0),
        PoolCall.Add (sampleTx "h2" "S1" 1 1)]).Has "h1" = true ∧
    ((Pool.run [PoolCall.Add (sampleTx "h1" "S1" 1 0),
        PoolCall.Add (sampleTx "h2" "S1" 1 1)]).Remove ["h2", "h1"]).IsSameSource
      (sampleTx "h1" "S1" 1 0).Source = false :=
  ⟨(Pool.Remove_clears [PoolCall.Add (sampleTx "h1" "S1" 1 0),
      PoolCall.Add (sampleTx "h2" "S1" 1 1)] ["h2", "h1"] "h1" (by decide)).1, by decide,
   (Pool.Remove_clears [PoolCall.Add (sampleTx "h1" "S1" 1 0),
      PoolCall.Add (sampleTx "h2" "S1" 1 1)] ["h2", "h1"] "h1" (by decide)).2.2.2
        (sampleTx "h1" "S1" 1 0) (by decide)⟩

/-! ## One transaction per source, behind the gate of the ingress chain -/

theorem Pool.SourceConsistent_new : NewPool.SourceConsistent := by
  refine ⟨?_, ?_, ?_⟩
  · intro h tx hl
    simp [NewPool] at hl
  · intro s hs
    exact absurd hs (AList.not_mem_empty s)
  · intro h1 h2 t1 t2 l1
    simp [NewPool] at l1

theorem Pool.SourceConsistent_add (tp : Pool) (tx : Transaction) (inv : tp.SourceConsistent)
    (g : tp.IsSameSource tx.Source = false) : (tp.Add tx).1.SourceConsistent := by
  cases hh : tp.Has tx.GetHash
  · rw [Pool.Add_of_not_has tp tx hh]
    have hnot : tx.GetHash ∉ tp.Pool_ := (Pool.Has_eq_false_iff _ _).mp hh
    have gs : tx.Source ∉ tp.Sources := (GoMap.found_eq_false_iff _ _).mp g
    have key : ∀ h t, AList.lookup h (AList.insert tx.GetHash tx tp.Pool_) = some t →
        (h = tx.GetHash ∧ t = tx) ∨ (h ≠ tx.GetHash ∧ AList.lookup h tp.Pool_ = some t) := by
      intro h t hl
      by_cases e : h = tx.GetHash
      · subst e
        rw [AList.lookup_insert] at hl
        exact Or.inl ⟨rfl, (Option.some.inj hl).symm⟩
      · rw [AList.lookup_insert_ne e] at hl
        exact Or.inr ⟨e, hl⟩
    refine ⟨?_, ?_, ?_⟩
    · intro h t hl
      show t.GetHash = h ∧ t.Source ∈ AList.insert tx.Source true tp.Sources
      rcases key h t hl with ⟨e1, e2⟩ | ⟨_, hl2⟩
      · subst e2
        exact ⟨e1.symm, (AList.mem_insert _).mpr (Or.inl rfl)⟩
      · exact ⟨(inv.1 h t hl2).1, (AList.mem_insert _).mpr (Or.inr (inv.1 h t hl2).2)⟩
    · intro s hs
      show ∃ h t, AList.lookup h (AList.insert tx.GetHash tx tp.Pool_) = some t ∧ t.Source = s
      rcases (AList.mem_insert _).mp hs with e | hm
      · exact ⟨tx.GetHash, tx, AList.lookup_insert _, e.symm⟩
      · obtain ⟨h, t, hl, hs2⟩ := inv.2.1 s hm
        have hne : h ≠ tx.GetHash := by
          intro e
          apply hnot
          rw [← e]
          exact AList.lookup_isSome.mp (by rw [hl]; rfl)
        refine ⟨h, t, ?_, hs2⟩
        rw [AList.lookup_insert_ne hne]
        exact hl
    · intro h1 h2 t1 t2 l1 l2 es
      rcases key h1 t1 l1 with ⟨a1, b1⟩ | ⟨a1, b1⟩ <;>
        rcases key h2 t2 l2 with ⟨a2, b2⟩ | ⟨a2, b2⟩
      · rw [a1, a2]
      · exfalso
        apply gs
        rw [← b1, es]
        exact (inv.1 h2 t2 b2).2
      · exfalso
        apply gs
        rw [← b2, ← es]
        exact (inv.1 h1 t1 b1).2
      · exact inv.2.2 h1 h2 t1 t2 b1 b2 es
  · rw [Pool.Add_of_has tp tx hh]
    exact inv

theorem Pool.SourceConsistent_removeOne (tp : Pool) (x : String) (inv : tp.SourceConsistent) :
    (tp.removeOne x).SourceConsistent := by
  cases hl : AList.lookup x tp.Pool_ with
  | none =>
    rw [Pool.removeOne_of_not_mem tp x (AList.lookup_eq_none.mp hl)]
    exact inv
  | some tx0 =>
    rw [Pool.removeOne_of_lookup tp x tx0 hl]
    have key : ∀ h t, AList.lookup h (AList.erase x tp.Pool_) = some t →
        h ≠ x ∧ AList.lookup h tp.Pool_ = some t := by
      intro h t hl2
      by_cases e : h = x
      · subst e
        rw [AList.lookup_erase] at hl2
        cases hl2
      · rw [AList.lookup_erase_ne e] at hl2
        exact ⟨e, hl2⟩
    refine ⟨?_, ?_, ?_⟩
    · intro h t hl2
      obtain ⟨hne, hl3⟩ := key h t hl2
      refine ⟨(inv.1 h t hl3).1, ?_⟩
      show t.Source ∈ AList.erase tx0.Source tp.Sources
      rw [AList.mem_erase]
      refine ⟨?_, (inv.1 h t hl3).2⟩
      intro es
      exact hne (inv.2.2 h x t tx0 hl3 hl es)
    · intro s hs
      obtain ⟨hne, hm⟩ := AList.mem_erase.mp hs
      obtain ⟨h, t, hl3, hs2⟩ := inv.2.1 s hm
      have hx : h ≠ x := by
        intro e
        rw [e, hl] at hl3
        apply hne
        rw [← hs2, ← Option.some.inj hl3]
      refine ⟨h, t, ?_, hs2⟩
      show AList.lookup h (AList.erase x tp.Pool_) = some t
      rw [AList.lookup_erase_ne hx]
      exact hl3
    · intro h1 h2 t1 t2 l1 l2 es
      exact inv.2.2 h1 h2 t1 t2 (key h1 t1 l1).2 (key h2 t2 l2).2 es

theorem Pool.SourceConsistent_remove (tp : Pool) (hashes : List String)
    (inv : tp.SourceConsistent) : (tp.Remove hashes).SourceConsistent := by
  rw [Pool.Remove_eq_foldl]
  induction hashes generalizing tp with
  | nil => exact inv
  | cons h t ih => exact ih _ (Pool.SourceConsistent_removeOne tp h inv)

theorem Pool.SourceConsistent_gated (calls : List PoolCall) (tp : Pool)
    (inv : tp.SourceConsistent) (g : tp.sourceGated calls = true) :
    (calls.foldl Pool.call tp).SourceConsistent := by
  induction calls generalizing tp with
  | nil => exact inv
  | cons c t ih =>
    cases c with
    | Add tx =>
      simp only [Pool.sourceGated, Bool.and_eq_true, Bool.not_eq_true'] at g
      exact ih _ (Pool.SourceConsistent_add tp tx inv g.1) g.2
    | Remove hs =>
      simp only [Pool.sourceGated] at g
      exact ih _ (Pool.SourceConsistent_remove tp hs inv) g

theorem Pool.TripleConsistent_of (tp : Pool) (m : tp.Mirrored) (sc : tp.SourceConsistent) :
    tp.TripleConsistent := by
  refine ⟨?_, ?_, ?_⟩
  · intro h
    rw [Pool.Has_iff]
    exact (m.2 h).symm
  · intro t hget
    have hl := Pool.lookup_of_Get _ _ _ hget
    have hm : t.GetHash ∈ tp.Pool_ := AList.lookup_isSome.mp (by rw [hl]; rfl)
    exact ⟨(Pool.Has_iff _ _).mpr hm, (m.2 _).mpr hm,
      (Pool.IsSameSource_iff _ _).mpr (sc.1 _ _ hl).2⟩
  · intro s hs
    obtain ⟨h, t, hl, e⟩ := sc.2.1 s ((Pool.IsSameSource_iff _ _).mp hs)
    refine ⟨t, ?_, e⟩
    rw [(sc.1 h t hl).1]
    exact Pool.Get_of_lookup _ _ _ hl

/-- C3 (amended): in every pool reached from `NewPool()` by `Remove` calls and
by `Add` calls made while the source of the transaction is not in the source
set (the gate `MessageHasSameSource` of the ingress chain), membership in the
transaction map and occurrence in the hash sequence are equivalent for every
hash, every transaction stored in the pool has its hash in the map, its hash in
the sequence and its source in the source set, every source of the source set
belongs to a stored transaction, and `Remove` preserves all of this. -/
theorem Pool.triple_consistency_gated (calls : List PoolCall)
    (g : NewPool.sourceGated calls = true) :
    (Pool.run calls).TripleConsistent ∧
      ∀ hs, ((Pool.run calls).Remove hs).TripleConsistent := by
  have m := Pool.Mirrored_run calls
  have sc := Pool.SourceConsistent_gated calls NewPool Pool.SourceConsistent_new g
  refine ⟨Pool.TripleConsistent_of _ m sc, ?_⟩
  intro hs
  exact Pool.TripleConsistent_of _ (Pool.Mirrored_remove _ hs m)
    (Pool.SourceConsistent_remove _ hs sc)

/-- Witness of C3 (amended): two sources, one removal. -/
theorem Pool.triple_consistency_gated_witness :
    NewPool.sourceGated [PoolCall.Add (sampleTx "h1" "S1" 1 0),
      PoolCall.Add (sampleTx "h2" "S2" 1 0), PoolCall.Remove ["h1"],
      PoolCall.Add (sampleTx "h3" "S1" 1 1)] = true ∧
    (Pool.run [PoolCall.Add (sampleTx "h1" "S1" 1 0),
      PoolCall.Add (sampleTx "h2" "S2" 1 0), PoolCall.Remove ["h1"],
      PoolCall.Add (sampleTx "h3" "S1" 1 1)]).TripleConsistent :=
  ⟨by decide,
   (Pool.triple_consistency_gated [PoolCall.Add (sampleTx "h1" "S1" 1 0),
      PoolCall.Add (sampleTx "h2" "S2" 1 0), PoolCall.Remove ["h1"],
      PoolCall.Add (sampleTx "h3" "S1" 1 1)] (by decide)).1⟩

/-- Counterexample to C3 as stated. First run: two transactions of source `S1`
are added and the first is removed; the second is still stored but its source
is no longer in the source set. Second run (every `Add` passes the gate): `h1`
is added and removed, then `h3` of the same source is added; for the
transaction of `h1`, which was passed to `Add`, the source is in the source set
while the hash is neither in the map nor in the sequence. -/
theorem Pool.triple_consistency_fails :
    ((Pool.run [PoolCall.Add (sampleTx "h1" "S1" 1 0), PoolCall.Add (sampleTx "h2" "S1" 1 0),
        PoolCall.Remove ["h1"]]).Get "h2" = (sampleTx "h2" "S1" 1 0, true) ∧
     (Pool.run [PoolCall.Add (sampleTx "h1" "S1" 1 0), PoolCall.Add (sampleTx "h2" "S1" 1 0),
        PoolCall.Remove ["h1"]]).Has (sampleTx "h2" "S1" 1 0).GetHash = true ∧
     (Pool.run [PoolCall.Add (sampleTx "h1" "S1" 1 0), PoolCall.Add (sampleTx "h2" "S1" 1 0),
        PoolCall.Remove ["h1"]]).IsSameSource (sampleTx "h2" "S1" 1 0).Source = false) ∧
    ((Pool.run [PoolCall.Add (sampleTx "h1" "S1" 1 0), PoolCall.Remove ["h1"],
        PoolCall.Add (sampleTx "h3" "S1" 1 1)]).IsSameSource
          (sampleTx "h1" "S1" 1 0).Source = true ∧
     (Pool.run [PoolCall.Add (sampleTx "h1" "S1" 1 0), PoolCall.Remove ["h1"],
        PoolCall.Add (sampleTx "h3" "S1" 1 1)]).Has (sampleTx "h1" "S1" 1 0).GetHash = false ∧
     (sampleTx "h1" "S1" 1 0).GetHash ∉
       (Pool.run [PoolCall.Add (sampleTx "h1" "S1" 1 0), PoolCall.Remove ["h1"],
        PoolCall.Add (sampleTx "h3" "S1" 1 1)]).hashes) := by
  decide

/-- C4 (amended): `Pool.Add` itself does not look at the source; in every pool
reached from `NewPool()` by `Remove` calls and by `Add` calls made while the
source of the transaction is not in the source set (the gate
`MessageHasSameSource` of the ingress chain), no two stored transactions have
the same source, and the source of every stored transaction is in the source
set, so that the gate refuses a second transaction from it. -/
theorem Pool.one_transaction_per_source (calls : List PoolCall)
    (g : NewPool.sourceGated calls = true) :
    (∀ h1 h2 t1 t2, (Pool.run calls).Get h1 = (t1, true) →
        (Pool.run calls).Get h2 = (t2, true) → t1.Source = t2.Source → h1 = h2) ∧
      (∀ h t, (Pool.run calls).Get h = (t, true) →
        (Pool.run calls).IsSameSource t.Source = true) := by
  have sc := Pool.SourceConsistent_gated calls NewPool Pool.SourceConsistent_new g
  constructor
  · intro h1 h2 t1 t2 g1 g2 es
    exact sc.2.2 h1 h2 t1 t2 (Pool.lookup_of_Get _ _ _ g1) (Pool.lookup_of_Get _ _ _ g2) es
  · intro h t g1
    exact (Pool.IsSameSource_iff _ _).mpr (sc.1 h t (Pool.lookup_of_Get _ _ _ g1)).2

/-- Witness of C4 (amended): the stored transaction of `h1` makes the gate
refuse its source. -/
theorem Pool.one_transaction_per_source_witness :
    NewPool.sourceGated [PoolCall.Add (sampleTx "h1" "S1" 1 0),
      PoolCall.Add (sampleTx "h2" "S2" 1 0)] = true ∧
    (Pool.run [PoolCall.Add (sampleTx "h1" "S1" 1 0),
      PoolCall.Add (sampleTx "h2" "S2" 1 0)]).IsSameSource (sampleTx "h1" "S1" 1 0).Source
        = true :=
  ⟨by decide,
   (Pool.one_transaction_per_source [PoolCall.Add (sampleTx "h1" "S1" 1 0),
      PoolCall.Add (sampleTx "h2" "S2" 1 0)] (by decide)).2 "h1" (sampleTx "h1" "S1" 1 0)
        (by decide)⟩

/-- Counterexample to C4 as stated: `Add` admits a second transaction of source
`S1` while the first is pending, and both are stored. -/
theorem Pool.Add_admits_same_source :
    ((NewPool.Add (sampleTx "h1" "S1" 1 0)).1.Add (sampleTx "h2" "S1" 1 0)).2 = true ∧
    (Pool.run [PoolCall.Add (sampleTx "h1" "S1" 1 0),
      PoolCall.Add (sampleTx "h2" "S1" 1 0)]).Get "h1" = (sampleTx "h1" "S1" 1 0, true) ∧
    (Pool.run [PoolCall.Add (sampleTx "h1" "S1" 1 0),
      PoolCall.Add (sampleTx "h2" "S1" 1 0)]).Get "h2" = (sampleTx "h2" "S1" 1 0, true) ∧
    (sampleTx "h1" "S1" 1 0).Source = (sampleTx "h2" "S1" 1 0).Source ∧ "h1" ≠ "h2" := by
  decide

/-! ## Insertion order -/

theorem Pool.removeOne_hashes_sublist (tp : Pool) (x : String) :
    (tp.removeOne x).hashes.Sublist tp.hashes := by
  cases hl : AList.lookup x tp.Pool_ with
  | none =>
    rw [Pool.removeOne_of_not_mem tp x (AList.lookup_eq_none.mp hl)]
  | some tx =>
    rw [Pool.removeOne_of_lookup tp x tx hl]
    exact List.erase_sublist x tp.hashes

theorem Pool.Remove_hashes_sublist (tp : Pool) (hashes : List String) :
    (tp.Remove hashes).hashes.Sublist tp.hashes := by
  rw [Pool.Remove_eq_foldl]
  induction hashes generalizing tp with
  | nil => exact List.Sublist.refl _
  | cons h t ih => exact (ih _).trans (Pool.removeOne_hashes_sublist tp h)

theorem TracedPool.Ordered_call (s : TracedPool) (c : PoolCall) (inv : s.Ordered) :
    (s.call c).Ordered := by
  obtain ⟨m, bnd, ord⟩ := inv
  cases c with
  | Add tx =>
    cases hh : s.pool.Has tx.GetHash
    · have hadd := Pool.Add_of_not_has s.pool tx hh
      have hnot : tx.GetHash ∉ s.pool.hashes := fun hm =>
        (Pool.Has_eq_false_iff _ _).mp hh ((m.2 _).mp hm)
      have hold : ∀ a, a ∈ s.pool.hashes →
          (s.call (PoolCall.Add tx)).admittedAt a = s.admittedAt a := by
        intro a ha
        have hne : a ≠ tx.GetHash := fun e => hnot (e ▸ ha)
        simp [TracedPool.call, hne]
      have hnew : (s.call (PoolCall.Add tx)).admittedAt tx.GetHash = s.clock + 1 := by
        simp [TracedPool.call, hadd]
      have hseq : (s.call (PoolCall.Add tx)).pool.hashes = s.pool.hashes ++ [tx.GetHash] := by
        simp [TracedPool.call, hadd]
      have hclock : (s.call (PoolCall.Add tx)).clock = s.clock + 1 := rfl
      refine ⟨Pool.Mirrored_add s.pool tx m, ?_, ?_⟩
      · intro h hm
        rw [hseq, List.mem_append, List.mem_singleton] at hm
        rw [hclock]
        rcases hm with hm | hm
        · rw [hold h hm]
          have := bnd h hm
          omega
        · rw [hm, hnew]
          omega
      · rw [hseq, List.pairwise_append]
        refine ⟨?_, List.pairwise_singleton _ _, ?_⟩
        · refine List.Pairwise.imp_of_mem ?_ ord
          intro a b ha hb hab
          rw [hold a ha, hold b hb]
          exact hab
        · intro a ha b hb
          rw [List.mem_singleton] at hb
          rw [hb, hnew, hold a ha]
          have := bnd a ha
          omega
    · have hadd := Pool.Add_of_has s.pool tx hh
      have hstate : (s.call (PoolCall.Add tx)).pool = s.pool := by
        simp [TracedPool.call, hadd]
      have hold : (s.call (PoolCall.Add tx)).admittedAt = s.admittedAt := by
        simp [TracedPool.call, hadd]
      have hclock : (s.call (PoolCall.Add tx)).clock = s.clock + 1 := rfl
      refine ⟨?_, ?_, ?_⟩
      · rw [hstate]
        exact m
      · intro h hm
        rw [hstate] at hm
        rw [hold, hclock]
        have := bnd h hm
        omega
      · rw [hstate, hold]
        exact ord
  | Remove hs =>
    have hsub := Pool.Remove_hashes_sublist s.pool hs
    refine ⟨Pool.Mirrored_remove s.pool hs m, ?_, ?_⟩
    · intro h hm
      have := bnd h (hsub.subset hm)
      show 1 ≤ s.admittedAt h ∧ s.admittedAt h ≤ s.clock + 1
      omega
    · exact ord.sublist hsub

theorem TracedPool.Ordered_foldl (calls : List PoolCall) (s : TracedPool) (inv : s.Ordered) :
    (calls.foldl TracedPool.call s).Ordered := by
  induction calls generalizing s with
  | nil => exact inv
  | cons c t ih => exact ih _ (TracedPool.Ordered_call s c inv)

theorem TracedPool.Ordered_run (calls : List PoolCall) : (TracedPool.run calls).Ordered := by
  apply TracedPool.Ordered_foldl
  refine ⟨Pool.Mirrored_new, ?_, ?_⟩
  · intro h hm
    simp [NewPool] at hm
  · simp [NewPool]

theorem TracedPool.foldl_pool (calls : List PoolCall) (s : TracedPool) :
    (calls.foldl TracedPool.call s).pool = calls.foldl Pool.call s.pool := by
  induction calls generalizing s with
  | nil => rfl
  | cons c t ih =>
    simp only [List.foldl_cons]
    rw [ih]
    cases c <;> rfl

theorem TracedPool.run_pool (calls : List PoolCall) :
    (TracedPool.run calls).pool = Pool.run calls :=
  TracedPool.foldl_pool calls _

/-- C9: on every reachable pool, `AvailableTransactions(n)` for `n ≥ 1` is the
first `min(n, Len())` hashes of the hash sequence, and the hash sequence lists
the hashes still in the pool in the order of their admission by `Add`, oldest
first (`admittedAt` is the step of the latest successful `Add` of a hash in the
run); for `n < 1` the result is empty. -/
theorem Pool.AvailableTransactions_insertion_order (calls : List PoolCall) (n : Int) :
    (1 ≤ n → (Pool.run calls).AvailableTransactions n =
        (Pool.run calls).hashes.take (min n.toNat (Pool.run calls).Len)) ∧
      (n < 1 → (Pool.run calls).AvailableTransactions n = []) ∧
      (∀ h, h ∈ (Pool.run calls).hashes ↔ (Pool.run calls).Has h = true) ∧
      (∀ h, h ∈ (Pool.run calls).hashes → 1 ≤ (TracedPool.run calls).admittedAt h) ∧
      (Pool.run calls).hashes.Pairwise
        (fun a b => (TracedPool.run calls).admittedAt a < (TracedPool.run calls).admittedAt b) ∧
      (TracedPool.run calls).pool = Pool.run calls := by
  obtain ⟨m, bnd, ord⟩ := TracedPool.Ordered_run calls
  rw [TracedPool.run_pool] at m bnd ord
  refine ⟨?_, ?_, ?_, ?_, ord, TracedPool.run_pool calls⟩
  · intro hn
    rw [Pool.AvailableTransactions_eq_take _ n hn, Pool.Mirrored_len _ m, List.take_eq_take]
    omega
  · intro hn
    simp [Pool.AvailableTransactions, hn]
  · intro h
    rw [Pool.Has_iff]
    exact m.2 h
  · intro h hm
    exact (bnd h hm).1

/-- Witness of C9: `h1`, `h2`, `h3` are added, `h1` is removed and added again
(steps 1 to 5); the two oldest of the three pending hashes are `h2` and `h3`,
the latest admission of `h1` being step 5; with limit 0 nothing is returned. -/
theorem Pool.AvailableTransactions_insertion_order_witness :
    (1 : Int) ≤ 2 ∧
    (Pool.run [PoolCall.Add (sampleTx "h1" "S1" 1 0), PoolCall.Add (sampleTx "h2" "S2" 1 0),
      PoolCall.Add (sampleTx "h3" "S3" 1 0), PoolCall.Remove ["h1"],
      PoolCall.Add (sampleTx "h1" "S1" 1 0)]).AvailableTransactions 2 = ["h2", "h3"] ∧
    (Pool.run [PoolCall.Add (sampleTx "h1" "S1" 1 0), PoolCall.Add (sampleTx "h2" "S2" 1 0),
      PoolCall.Add (sampleTx "h3" "S3" 1 0), PoolCall.Remove ["h1"],
      PoolCall.Add (sampleTx "h1" "S1" 1 0)]).hashes = ["h2", "h3", "h1"] ∧
    (["h2", "h3", "h1"].map
      (TracedPool.run [PoolCall.Add (sampleTx "h1" "S1" 1 0),
        PoolCall.Add (sampleTx "h2" "S2" 1 0), PoolCall.Add (sampleTx "h3" "S3" 1 0),
        PoolCall.Remove ["h1"], PoolCall.Add (sampleTx "h1" "S1" 1 0)]).admittedAt) = [2, 3, 5] ∧
    (Pool.run [PoolCall.Add (sampleTx "h1" "S1" 1 0), PoolCall.Add (sampleTx "h2" "S2" 1 0),
      PoolCall.Add (sampleTx "h3" "S3" 1 0), PoolCall.Remove ["h1"],
      PoolCall.Add (sampleTx "h1" "S1" 1 0)]).AvailableTransactions 2 =
    (Pool.run [PoolCall.Add (sampleTx "h1" "S1" 1 0), PoolCall.Add (sampleTx "h2" "S2" 1 0),
      PoolCall.Add (sampleTx "h3" "S3" 1 0), PoolCall.Remove ["h1"],
      PoolCall.Add (sampleTx "h1" "S1" 1 0)]).hashes.take
        (min (2 : Int).toNat
          (Pool.run [PoolCall.Add (sampleTx "h1" "S1" 1 0),
            PoolCall.Add (sampleTx "h2" "S2" 1 0), PoolCall.Add (sampleTx "h3" "S3" 1 0),
            PoolCall.Remove ["h1"], PoolCall.Add (sampleTx "h1" "S1" 1 0)]).Len) ∧
    (Pool.run [PoolCall.Add (sampleTx "h1" "S1" 1 0), PoolCall.Add (sampleTx "h2" "S2" 1 0),
      PoolCall.Add (sampleTx "h3" "S3" 1 0), PoolCall.Remove ["h1"],
      PoolCall.Add (sampleTx "h1" "S1" 1 0)]).AvailableTransactions 0 = [] :=
  ⟨by decide, by decide, by decide, by decide,
   (Pool.AvailableTransactions_insertion_order
      [PoolCall.Add (sampleTx "h1" "S1" 1 0), PoolCall.Add (sampleTx "h2" "S2" 1 0),
       PoolCall.Add (sampleTx "h3" "S3" 1 0), PoolCall.Remove ["h1"],
       PoolCall.Add (sampleTx "h1" "S1" 1 0)] 2).1 (by decide),
   (Pool.AvailableTransactions_insertion_order
      [PoolCall.Add (sampleTx "h1" "S1" 1 0), PoolCall.Add (sampleTx "h2" "S2" 1 0),
       PoolCall.Add (sampleTx "h3" "S3" 1 0), PoolCall.Remove ["h1"],
       PoolCall.Add (sampleTx "h1" "S1" 1 0)] 0).2.1 (by decide)⟩

/-! ## `ValidateTx` -/

theorem validateOperations_first_error (cfg : Common) (st : Storage) (ba : BlockAccount)
    (hash : String) (pre : List Operation) (op : Operation) (post : List Operation) (e : Error)
    (hpre : ∀ o, o ∈ pre → ValidateOp cfg st ba o = none)
    (hop : ValidateOp cfg st ba op = some e) :
    validateOperations cfg st ba hash (pre ++ op :: post) =
      (st.Remove (GetBlockTransactionHistoryKey hash), some e) := by
  induction pre with
  | nil => simp [validateOperations, hop]
  | cons o t ih =>
    have ho : ValidateOp cfg st ba o = none := hpre o (List.mem_cons_self _ _)
    simp only [List.cons_append, validateOperations, ho]
    exact ih (fun x hx => hpre x (List.mem_cons_of_mem _ hx))

theorem validateOperations_all_pass (cfg : Common) (st : Storage) (ba : BlockAccount)
    (hash : String) (ops : List Operation)
    (h : ∀ o, o ∈ ops → ValidateOp cfg st ba o = none) :
    validateOperations cfg st ba hash ops = (st, none) := by
  induction ops with
  | nil => rfl
  | cons o t ih =>
    have ho : ValidateOp cfg st ba o = none := h o (List.mem_cons_self _ _)
    simp only [validateOperations, ho]
    exact ih (fun x hx => h x (List.mem_cons_of_mem _ hx))

theorem validateOperations_result (cfg : Common) (st : Storage) (ba : BlockAccount)
    (hash : String) (ops : List Operation) :
    (validateOperations cfg st ba hash ops = (st, none) ∧
        ∀ o, o ∈ ops → ValidateOp cfg st ba o = none) ∨
      (∃ pre op post e, ops = pre ++ op :: post ∧
        (∀ o, o ∈ pre → ValidateOp cfg st ba o = none) ∧ ValidateOp cfg st ba op = some e ∧
        validateOperations cfg st ba hash ops =
          (st.Remove (GetBlockTransactionHistoryKey hash), some e)) := by
  induction ops with
  | nil => exact Or.inl ⟨rfl, fun o ho => by simp at ho⟩
  | cons o t ih =>
    cases ho : ValidateOp cfg st ba o with
    | some e =>
      refine Or.inr ⟨[], o, t, e, rfl, fun x hx => by simp at hx, ho, ?_⟩
      simp [validateOperations, ho]
    | none =>
      rcases ih with ⟨h1, h2⟩ | ⟨pre, op, post, e, h1, h2, h3, h4⟩
      · refine Or.inl ⟨?_, ?_⟩
        · simp only [validateOperations, ho]
          exact h1
        · intro x hx
          rcases List.mem_cons.mp hx with hx | hx
          · rw [hx]
            exact ho
          · exact h2 x hx
      · refine Or.inr ⟨o :: pre, op, post, e, by rw [h1]; rfl, ?_, h3, ?_⟩
        · intro x hx
          rcases List.mem_cons.mp hx with hx | hx
          · rw [hx]
            exact ho
          · exact h2 x hx
        · simp only [validateOperations, ho]
          exact h4

theorem validateOperations_none_iff (cfg : Common) (st : Storage) (ba : BlockAccount)
    (hash : String) (ops : List Operation) :
    (validateOperations cfg st ba hash ops).2 = none ↔
      ∀ o, o ∈ ops → ValidateOp cfg st ba o = none := by
  constructor
  · intro h
    rcases validateOperations_result cfg st ba hash ops with ⟨_, h2⟩ | ⟨_, _, _, e, _, _, _, h4⟩
    · exact h2
    · rw [h4] at h
      cases h
  · intro h
    rw [validateOperations_all_pass cfg st ba hash ops h]

theorem ValidateTx_of_checks (cfg : Common) (st : Storage) (tx : Transaction)
    (ba : BlockAccount) (bac : BlockAccountSequenceID)
    (h1 : GetBlockAccount st tx.B.Source = Except.ok ba)
    (h2 : tx.IsValidSequenceID ba.SequenceID = true)
    (h3 : GetBlockAccountSequenceID st tx.B.Source tx.B.SequenceID = Except.ok bac) :
    ValidateTx cfg st tx =
      if bac.Balance < tx.TotalAmount true then (st, some Error.TransactionExcessAbilityToPay)
      else validateOperations cfg st ba tx.H.Hash tx.B.Operations := by
  simp [ValidateTx, h1, h2, h3]

/-- C1: `ValidateTx` rejects in a fixed order, whatever else is wrong with the
transaction: a missing source account gives `BlockAccountDoesNotExists`; else a
sequence-id other than the account's gives `TransactionInvalidSequenceID`; else
a failed AccountAtSequence lookup gives the error of that lookup; else a
balance below the total amount gives `TransactionExcessAbilityToPay`; else the
error of the first operation, in list order, that `ValidateOp` rejects; and the
result is `nil` exactly when none of these fails. -/
theorem ValidateTx_precedence (cfg : Common) (st : Storage) (tx : Transaction) :
    (∀ e, GetBlockAccount st tx.B.Source = Except.error e →
        (ValidateTx cfg st tx).2 = some Error.BlockAccountDoesNotExists) ∧
    (∀ ba, GetBlockAccount st tx.B.Source = Except.ok ba →
        tx.B.SequenceID ≠ ba.SequenceID →
        (ValidateTx cfg st tx).2 = some Error.TransactionInvalidSequenceID) ∧
    (∀ ba e, GetBlockAccount st tx.B.Source = Except.ok ba →
        tx.B.SequenceID = ba.SequenceID →
        GetBlockAccountSequenceID st tx.B.Source tx.B.SequenceID = Except.error e →
        (ValidateTx cfg st tx).2 = some e) ∧
    (∀ ba bac, GetBlockAccount st tx.B.Source = Except.ok ba →
        tx.B.SequenceID = ba.SequenceID →
        GetBlockAccountSequenceID st tx.B.Source tx.B.SequenceID = Except.ok bac →
        bac.Balance < tx.TotalAmount true →
        (ValidateTx cfg st tx).2 = some Error.TransactionExcessAbilityToPay) ∧
    (∀ ba bac pre op post e, GetBlockAccount st tx.B.Source = Except.ok ba →
        tx.B.SequenceID = ba.SequenceID →
        GetBlockAccountSequenceID st tx.B.Source tx.B.SequenceID = Except.ok bac →
        tx.TotalAmount true ≤ bac.Balance →
        tx.B.Operations = pre ++ op :: post →
        (∀ o, o ∈ pre → ValidateOp cfg st ba o = none) →
        ValidateOp cfg st ba op = some e →
        (ValidateTx cfg st tx).2 = some e) ∧
    ((ValidateTx cfg st tx).2 = none ↔
      ∃ ba bac, GetBlockAccount st tx.B.Source = Except.ok ba ∧
        tx.B.SequenceID = ba.SequenceID ∧
        GetBlockAccountSequenceID st tx.B.Source tx.B.SequenceID = Except.ok bac ∧
        tx.TotalAmount true ≤ bac.Balance ∧
        ∀ o, o ∈ tx.B.Operations → ValidateOp cfg st ba o = none) := by
  have seq : ∀ ba : BlockAccount, tx.B.SequenceID = ba.SequenceID →
      tx.IsValidSequenceID ba.SequenceID = true := by
    intro ba h
    simp [Transaction.IsValidSequenceID, h]
  refine ⟨?_, ?_, ?_, ?_, ?_, ?_⟩
  · intro e h1
    simp [ValidateTx, h1]
  · intro ba h1 h2
    simp [ValidateTx, h1, Transaction.IsValidSequenceID, h2]
  · intro ba e h1 h2 h3
    simp [ValidateTx, h1, seq ba h2, h3]
  · intro ba bac h1 h2 h3 h4
    rw [ValidateTx_of_checks cfg st tx ba bac h1 (seq ba h2) h3, if_pos h4]
  · intro ba bac pre op post e h1 h2 h3 h4 h5 h6 h7
    rw [ValidateTx_of_checks cfg st tx ba bac h1 (seq ba h2) h3, if_neg (by omega), h5,
      validateOperations_first_error cfg st ba tx.H.Hash pre op post e h6 h7]
  · constructor
    · intro h
      cases h1 : GetBlockAccount st tx.B.Source with
      | error e => simp [ValidateTx, h1] at h
      | ok ba =>
        by_cases h2 : tx.B.SequenceID = ba.SequenceID
        · cases h3 : GetBlockAccountSequenceID st tx.B.Source tx.B.SequenceID with
          | error e => simp [ValidateTx, h1, seq ba h2, h3] at h
          | ok bac =>
            rw [ValidateTx_of_checks cfg st tx ba bac h1 (seq ba h2) h3] at h
            by_cases h4 : bac.Balance < tx.TotalAmount true
            · rw [if_pos h4] at h
              cases h
            · rw [if_neg h4] at h
              exact ⟨ba, bac, rfl, h2, rfl, by omega,
                (validateOperations_none_iff cfg st ba tx.H.Hash tx.B.Operations).mp h⟩
        · simp [ValidateTx, h1, Transaction.IsValidSequenceID, h2] at h
    · rintro ⟨ba, bac, h1, h2, h3, h4, h5⟩
      rw [ValidateTx_of_checks cfg st tx ba bac h1 (seq ba h2) h3, if_neg (by omega)]
      exact (validateOperations_none_iff cfg st ba tx.H.Hash tx.B.Operations).mpr h5

/-- Witness of C1: a transaction with sequence-id 4 on an account at 5, asking
for more than the balance, with a payment to a missing account, is rejected for
its sequence-id; with sequence-id 5 it is rejected for the balance; with an
affordable amount it is rejected for the second operation, the first one
passing. -/
theorem ValidateTx_precedence_witness :
    (ValidateTx sampleCommon sampleStorage
      (sampleTxOps "h1" 1 4 [samplePayment "nobody" 500])).2 =
        some Error.TransactionInvalidSequenceID ∧
    (ValidateTx sampleCommon sampleStorage
      (sampleTxOps "h1" 1 5 [samplePayment "nobody" 500])).2 =
        some Error.TransactionExcessAbilityToPay ∧
    (ValidateTx sampleCommon sampleStorage
      (sampleTxOps "h1" 1 5 [samplePayment "T1" 50, samplePayment "nobody" 50])).2 =
        some Error.BlockAccountDoesNotExists :=
  ⟨(ValidateTx_precedence sampleCommon sampleStorage
      (sampleTxOps "h1" 1 4 [samplePayment "nobody" 500])).2.1
      { Address := "S1", Balance := 200, SequenceID := 5, Linked := "" } rfl (by decide),
   (ValidateTx_precedence sampleCommon sampleStorage
      (sampleTxOps "h1" 1 5 [samplePayment "nobody" 500])).2.2.2.1
      { Address := "S1", Balance := 200, SequenceID := 5, Linked := "" }
      { SequenceID := 5, Address := "S1", Balance := 200 } rfl rfl rfl (by decide),
   (ValidateTx_precedence sampleCommon sampleStorage
      (sampleTxOps "h1" 1 5 [samplePayment "T1" 50, samplePayment "nobody" 50])).2.2.2.2.1
      { Address := "S1", Balance := 200, SequenceID := 5, Linked := "" }
      { SequenceID := 5, Address := "S1", Balance := 200 }
      [samplePayment "T1" 50] (samplePayment "nobody" 50) [] Error.BlockAccountDoesNotExists
      rfl rfl rfl (by decide) rfl (by decide) (by decide)⟩

theorem unfreezingCheck_ne_excess (cfg : Common) (st : Storage) (source : BlockAccount) :
    unfreezingCheck cfg st source ≠ some Error.TransactionExcessAbilityToPay := by
  unfold unfreezingCheck
  simp only
  split
  · simp
  · split <;> simp

theorem AmountSub_ne_excess (cfg : Common) (a sub : Nat) :
    (AmountSub cfg a sub).2 ≠ some Error.TransactionExcessAbilityToPay := by
  unfold AmountSub
  split <;> simp

theorem ValidateOp_ne_excess (cfg : Common) (st : Storage) (source : BlockAccount)
    (op : Operation) :
    ValidateOp cfg st source op ≠ some Error.TransactionExcessAbilityToPay := by
  have hu := unfreezingCheck_ne_excess cfg st source
  have hs := AmountSub_ne_excess cfg source.Balance cfg.BaseFee
  unfold ValidateOp
  dsimp only [ExistsBlockAccount]
  repeat' split
  all_goals first
    | exact hs
    | (intro h; simp_all)

theorem validateOperations_ne_excess (cfg : Common) (st : Storage) (ba : BlockAccount)
    (hash : String) (ops : List Operation) :
    (validateOperations cfg st ba hash ops).2 ≠ some Error.TransactionExcessAbilityToPay := by
  rcases validateOperations_result cfg st ba hash ops with ⟨h1, _⟩ | ⟨_, op, _, e, _, _, h3, h4⟩
  · rw [h1]
    simp
  · rw [h4]
    intro h
    have he : e = Error.TransactionExcessAbilityToPay := Option.some.inj h
    rw [he] at h3
    exact ValidateOp_ne_excess cfg st ba op h3

/-- C2: when the source account exists, the sequence-id is valid and the
AccountAtSequence snapshot exists, `ValidateTx` returns
`TransactionExcessAbilityToPay` if and only if the snapshot balance is strictly
below the total amount including the fee (the amounts of the operations plus
the fee); a balance equal to that total is not rejected by the balance check. -/
theorem ValidateTx_excess_iff (cfg : Common) (st : Storage) (tx : Transaction)
    (ba : BlockAccount) (bac : BlockAccountSequenceID)
    (h1 : GetBlockAccount st tx.B.Source = Except.ok ba)
    (h2 : tx.IsValidSequenceID ba.SequenceID = true)
    (h3 : GetBlockAccountSequenceID st tx.B.Source tx.B.SequenceID = Except.ok bac) :
    ((ValidateTx cfg st tx).2 = some Error.TransactionExcessAbilityToPay ↔
        bac.Balance < tx.TotalAmount true) ∧
      (bac.Balance = tx.TotalAmount true →
        (ValidateTx cfg st tx).2 ≠ some Error.TransactionExcessAbilityToPay) ∧
      tx.TotalAmount true = tx.TotalAmount false + tx.B.Fee := by
  have key : (ValidateTx cfg st tx).2 = some Error.TransactionExcessAbilityToPay ↔
      bac.Balance < tx.TotalAmount true := by
    rw [ValidateTx_of_checks cfg st tx ba bac h1 h2 h3]
    by_cases h4 : bac.Balance < tx.TotalAmount true
    · simp [h4]
    · rw [if_neg h4]
      constructor
      · intro h
        exact absurd h (validateOperations_ne_excess cfg st ba tx.H.Hash tx.B.Operations)
      · intro h
        exact absurd h h4
  refine ⟨key, ?_, ?_⟩
  · intro he h
    have := key.mp h
    omega
  · simp [Transaction.TotalAmount]

/-- Witness of C2: balance 200, amount 199, fee 1 is not rejected for the
balance; amount 200, fee 1 is. -/
theorem ValidateTx_excess_iff_witness :
    (ValidateTx sampleCommon sampleStorage (sampleTxOps "h1" 1 5 [samplePayment "T1" 199])).2 ≠
        some Error.TransactionExcessAbilityToPay ∧
    (ValidateTx sampleCommon sampleStorage (sampleTxOps "h1" 1 5 [samplePayment "T1" 200])).2 =
        some Error.TransactionExcessAbilityToPay :=
  ⟨(ValidateTx_excess_iff sampleCommon sampleStorage
      (sampleTxOps "h1" 1 5 [samplePayment "T1" 199])
      { Address := "S1", Balance := 200, SequenceID := 5, Linked := "" }
      { SequenceID := 5, Address := "S1", Balance := 200 } rfl rfl rfl).2.1 (by decide),
   (ValidateTx_excess_iff sampleCommon sampleStorage
      (sampleTxOps "h1" 1 5 [samplePayment "T1" 200])
      { Address := "S1", Balance := 200, SequenceID := 5, Linked := "" }
      { SequenceID := 5, Address := "S1", Balance := 200 } rfl rfl rfl).1.mpr (by decide)⟩

/-! ## The stages of the ballot transaction chain -/

theorem foldl_insert_found (hashes : List String) (m : GoMap Bool) (x : String) :
    GoMap.found (hashes.foldl (fun m hash => AList.insert hash true m) m) x = true ↔
      x ∈ hashes ∨ m.found x = true := by
  induction hashes generalizing m with
  | nil => simp
  | cons h t ih =>
    rw [List.foldl_cons, ih, GoMap.found_iff, GoMap.found_iff, AList.mem_insert,
      List.mem_cons]
    tauto

theorem setValidTransactions_found (c : BallotTransactionChecker) (hashes : List String)
    (x : String) :
    (c.setValidTransactions hashes).validTransactionsMap.found x = true ↔ x ∈ hashes := by
  show GoMap.found (hashes.foldl (fun m hash => AList.insert hash true m) ∅) x = true ↔
    x ∈ hashes
  rw [foldl_insert_found, GoMap.found_iff]
  simp [AList.not_mem_empty]

theorem isNewLoop_some (st : Storage) (only : Bool) (l acc v : List String)
    (h : isNewLoop st only l acc = some v) :
    v = acc ++ l.filter (fun x => !(st.blockTransactions x)) := by
  induction l generalizing acc with
  | nil =>
    simp only [isNewLoop, Option.some.injEq] at h
    simp [h]
  | cons y t ih =>
    unfold isNewLoop at h
    cases hy : st.blockTransactions y
    · simp only [ExistsBlockTransaction, hy, ne_eq, not_true_eq_false, Bool.false_eq_true,
        or_self, if_false] at h
      rw [ih _ h]
      simp [hy]
    · simp only [ExistsBlockTransaction, hy, or_true, if_true] at h
      split at h
      · cases h
      · rw [ih _ h]
        simp [hy]

theorem checkMissingLoop_eq (pool : Pool) (l acc : List String) :
    checkMissingLoop pool l acc = acc ++ l.filter (fun x => pool.Has x) := by
  induction l generalizing acc with
  | nil => simp [checkMissingLoop]
  | cons y t ih =>
    unfold checkMissingLoop
    cases hy : pool.Has y
    · simp [ih, hy]
    · simp [ih, hy]

theorem sameSourceLoop_mem (pool : Pool) (only : Bool) (l : List String) (seen : GoMap Bool)
    (acc v : List String) (h : sameSourceLoop pool only l seen acc = some v) (x : String) :
    x ∈ v ↔ x ∈ acc ∨ ((pool.Get x).1.B.Source ∉ seen ∧
      l.find? (fun y => decide ((pool.Get y).1.B.Source = (pool.Get x).1.B.Source)) = some x) := by
  induction l generalizing seen acc with
  | nil =>
    simp only [sameSourceLoop, Option.some.injEq] at h
    simp [h]
  | cons y t ih =>
    unfold sameSourceLoop at h
    by_cases hy : (pool.Get y).1.B.Source ∈ seen
    · have hf : InStringMap seen (pool.Get y).1.B.Source = true := (GoMap.found_iff _ _).mpr hy
      simp only [hf, if_true] at h
      split at h
      · cases h
      · rw [ih _ _ h]
        by_cases hxy : (pool.Get y).1.B.Source = (pool.Get x).1.B.Source
        · have hx : (pool.Get x).1.B.Source ∈ seen := hxy ▸ hy
          simp [hx]
        · rw [List.find?_cons_of_neg _ (by simpa using hxy)]
    · have hf : InStringMap seen (pool.Get y).1.B.Source = false :=
        (GoMap.found_eq_false_iff _ _).mpr hy
      simp only [hf, Bool.false_eq_true, if_false] at h
      rw [ih _ _ h, List.mem_append, List.mem_singleton, AList.mem_insert]
      by_cases hxy : (pool.Get y).1.B.Source = (pool.Get x).1.B.Source
      · rw [List.find?_cons_of_pos _ (by simpa using hxy)]
        have hx : (pool.Get x).1.B.Source ∉ seen := hxy ▸ hy
        simp only [hxy, true_or, not_true_eq_false, false_and, or_false, Option.some.injEq, hx,
          not_false_eq_true, true_and]
        constructor
        · rintro (h1 | h1)
          · exact Or.inl h1
          · exact Or.inr h1.symm
        · rintro (h1 | h1)
          · exact Or.inl h1
          · exact Or.inr h1.symm
      · rw [List.find?_cons_of_neg _ (by simpa using hxy)]
        have hne : x ≠ y := fun e => hxy (by rw [e])
        have hne2 : ¬ (pool.Get x).1.B.Source = (pool.Get y).1.B.Source := fun e => hxy e.symm
        simp only [hne, or_false, hne2, false_or]

theorem ValidateOp_Remove (cfg : Common) (st : Storage) (k : StorageKey) (ba : BlockAccount)
    (op : Operation) : ValidateOp cfg (st.Remove k) ba op = ValidateOp cfg st ba op := by
  cases k
  rfl

theorem validateOperations_Remove (cfg : Common) (st : Storage) (k : StorageKey)
    (ba : BlockAccount) (hash : String) (ops : List Operation) :
    (validateOperations cfg (st.Remove k) ba hash ops).2 =
      (validateOperations cfg st ba hash ops).2 := by
  induction ops with
  | nil => rfl
  | cons o t ih =>
    simp only [validateOperations, ValidateOp_Remove]
    cases ValidateOp cfg st ba o with
    | some e => rfl
    | none => exact ih

theorem ValidateTx_Remove (cfg : Common) (st : Storage) (k : StorageKey) (tx : Transaction) :
    (ValidateTx cfg (st.Remove k) tx).2 = (ValidateTx cfg st tx).2 := by
  have h1 : GetBlockAccount (st.Remove k) tx.B.Source = GetBlockAccount st tx.B.Source := by
    cases k
    rfl
  have h2 : GetBlockAccountSequenceID (st.Remove k) tx.B.Source tx.B.SequenceID =
      GetBlockAccountSequenceID st tx.B.Source tx.B.SequenceID := by
    cases k
    rfl
  unfold ValidateTx
  rw [h1, h2]
  cases GetBlockAccount st tx.B.Source with
  | error e => rfl
  | ok ba =>
    dsimp only
    split
    · rfl
    · cases GetBlockAccountSequenceID st tx.B.Source tx.B.SequenceID with
      | error e => rfl
      | ok bac =>
        dsimp only
        split
        · rfl
        · exact validateOperations_Remove cfg st k ba tx.H.Hash tx.B.Operations

theorem ValidateTx_storage (cfg : Common) (st : Storage) (tx : Transaction) :
    ((ValidateTx cfg st tx).1 = st) ∨
      ((ValidateTx cfg st tx).1 = st.Remove (GetBlockTransactionHistoryKey tx.H.Hash) ∧
        (ValidateTx cfg st tx).2 ≠ none) := by
  unfold ValidateTx
  cases GetBlockAccount st tx.B.Source with
  | error e => exact Or.inl rfl
  | ok ba =>
    dsimp only
    split
    · exact Or.inl rfl
    · cases GetBlockAccountSequenceID st tx.B.Source tx.B.SequenceID with
      | error e => exact Or.inl rfl
      | ok bac =>
        dsimp only
        split
        · exact Or.inl rfl
        · rcases validateOperations_result cfg st ba tx.H.Hash tx.B.Operations with
            ⟨h1, _⟩ | ⟨_, _, _, e, _, _, _, h4⟩
          · rw [h1]
            exact Or.inl rfl
          · rw [h4]
            exact Or.inr ⟨rfl, by simp⟩

theorem sourceCheckLoop_ok (cfg : Common) (pool : Pool) (only : Bool) (l : List String)
    (st : Storage) (acc : List String) (st1 : Storage) (v : List String)
    (h : sourceCheckLoop cfg pool only l st acc = (st1, Except.ok v)) :
    v = acc ++ l.filter (fun x => (ValidateTx cfg st (pool.Get x).1).2.isNone) := by
  induction l generalizing st acc with
  | nil =>
    simp only [sourceCheckLoop, Prod.mk.injEq, Except.ok.injEq] at h
    simp [h.2]
  | cons y t ih =>
    unfold sourceCheckLoop at h
    rcases hv : ValidateTx cfg st (pool.Get y).1 with ⟨s1, _ | e⟩
    · dsimp only at h
      rw [hv] at h
      dsimp only at h
      have hs : s1 = st := by
        rcases ValidateTx_storage cfg st (pool.Get y).1 with h1 | h1
        · rw [hv] at h1
          exact h1
        · rw [hv] at h1
          exact absurd rfl h1.2
      rw [hs] at h
      rw [ih _ _ h]
      simp [hv]
    · dsimp only at h
      rw [hv] at h
      dsimp only at h
      split at h
      · simp at h
      · rw [ih _ _ h]
        have hfilter : t.filter (fun x => (ValidateTx cfg s1 (pool.Get x).1).2.isNone) =
            t.filter (fun x => (ValidateTx cfg st (pool.Get x).1).2.isNone) := by
          rcases ValidateTx_storage cfg st (pool.Get y).1 with h1 | h1
          · rw [hv] at h1
            rw [show s1 = st from h1]
          · rw [hv] at h1
            rw [show s1 = st.Remove (GetBlockTransactionHistoryKey (pool.Get y).1.H.Hash)
              from h1.1]
            simp only [ValidateTx_Remove]
        rw [hfilter]
        simp [hv]

theorem survive_all_iff (T : List String) (p1 p2 p4 : String → Bool) (src : String → String) :
    (∀ h, h ∈ T → (p4 h = true ∧
        ((T.filter p1).filter p2).find? (fun y => decide (src y = src h)) = some h)) ↔
      ((∀ h, h ∈ T → p1 h = true ∧ p2 h = true ∧ p4 h = true) ∧
        ∀ h1 h2, h1 ∈ T → h2 ∈ T → src h1 = src h2 → h1 = h2) := by
  constructor
  · intro hall
    have hp : ∀ h, h ∈ T → p1 h = true ∧ p2 h = true ∧ p4 h = true := by
      intro h hh
      have hm := List.mem_of_find?_eq_some (hall h hh).2
      rw [List.mem_filter, List.mem_filter] at hm
      exact ⟨hm.1.2, hm.2, (hall h hh).1⟩
    have hT : (T.filter p1).filter p2 = T := by
      rw [List.filter_eq_self.mpr (fun a ha => (hp a ha).1),
        List.filter_eq_self.mpr (fun a ha => (hp a ha).2.1)]
    refine ⟨hp, ?_⟩
    intro h1 h2 m1 m2 e
    have f1 := (hall h1 m1).2
    have f2 := (hall h2 m2).2
    rw [e, f2] at f1
    exact (Option.some.inj f1).symm
  · rintro ⟨hp, hinj⟩ h hh
    have hT : (T.filter p1).filter p2 = T := by
      rw [List.filter_eq_self.mpr (fun a ha => (hp a ha).1),
        List.filter_eq_self.mpr (fun a ha => (hp a ha).2.1)]
    refine ⟨(hp h hh).2.2, ?_⟩
    rw [hT]
    cases hf : T.find? (fun y => decide (src y = src h)) with
    | none =>
      rw [List.find?_eq_none] at hf
      exact absurd (by simp) (hf h hh)
    | some z =>
      have hz := List.find?_some hf
      have hzm := List.mem_of_find?_eq_some hf
      rw [hinj z h hzm hh (by simpa using hz)]

theorem IsNew_cases (c : BallotTransactionChecker) :
    IsNew c = (c, some Error.NewButKnownMessage) ∨
      IsNew c = (c.setValidTransactions
        (c.Transactions.filter (fun x => !(c.NodeRunner.Storage_.blockTransactions x))), none) := by
  unfold IsNew
  cases h : isNewLoop c.NodeRunner.Storage_ c.CheckTransactionsOnly c.Transactions [] with
  | none => exact Or.inl rfl
  | some v =>
    right
    rw [isNewLoop_some _ _ _ _ _ h]
    simp

theorem CheckMissingTransaction_eq (c : BallotTransactionChecker) :
    CheckMissingTransaction c = (c.setValidTransactions
      (c.ValidTransactions.filter (fun x => c.NodeRunner.TransactionPool.Has x)), none) := by
  unfold CheckMissingTransaction
  rw [checkMissingLoop_eq]
  simp

theorem BallotTransactionsSameSource_cases (c : BallotTransactionChecker) :
    BallotTransactionsSameSource c = (c, some Error.TransactionSameSource) ∨
      ∃ v, BallotTransactionsSameSource c = (c.setValidTransactions v, none) ∧
        ∀ x, x ∈ v ↔ c.ValidTransactions.find? (fun y =>
          decide ((c.NodeRunner.TransactionPool.Get y).1.B.Source =
            (c.NodeRunner.TransactionPool.Get x).1.B.Source)) = some x := by
  unfold BallotTransactionsSameSource
  cases h : sameSourceLoop c.NodeRunner.TransactionPool c.CheckTransactionsOnly
      c.ValidTransactions ∅ [] with
  | none => exact Or.inl rfl
  | some v =>
    refine Or.inr ⟨v, rfl, ?_⟩
    intro x
    rw [sameSourceLoop_mem _ _ _ _ _ _ h x]
    simp [AList.not_mem_empty]

theorem BallotTransactionsSourceCheck_cases (cfg : Common) (c : BallotTransactionChecker) :
    (∃ st1 e, BallotTransactionsSourceCheck cfg c =
        ({ c with NodeRunner := { c.NodeRunner with Storage_ := st1 } }, some e)) ∨
      ∃ st1, BallotTransactionsSourceCheck cfg c =
        (({ c with NodeRunner := { c.NodeRunner with Storage_ := st1 } }
            ).setValidTransactions
          (c.ValidTransactions.filter (fun x =>
            (ValidateTx cfg c.NodeRunner.Storage_ (c.NodeRunner.TransactionPool.Get x).1).2.isNone)),
          none) := by
  unfold BallotTransactionsSourceCheck
  rcases h : sourceCheckLoop cfg c.NodeRunner.TransactionPool c.CheckTransactionsOnly
      c.ValidTransactions c.NodeRunner.Storage_ [] with ⟨st1, e | v⟩
  · exact Or.inl ⟨st1, e, rfl⟩
  · refine Or.inr ⟨st1, ?_⟩
    rw [sourceCheckLoop_ok _ _ _ _ _ _ _ _ h]
    simp

theorem BallotTransactionsOperationBodyCollectTxFee_state (c : BallotTransactionChecker) :
    (BallotTransactionsOperationBodyCollectTxFee c).1 = c := by
  unfold BallotTransactionsOperationBodyCollectTxFee
  repeat' split
  all_goals rfl

theorem BallotTransactionsAllValid_vote (c : BallotTransactionChecker) :
    (BallotTransactionsAllValid c).2 = none ∧
      (((BallotTransactionsAllValid c).1.VotingHole = Hole.YES ∧
          ∀ h, h ∈ c.Transactions → c.validTransactionsMap.found h = true) ∨
       ((BallotTransactionsAllValid c).1.VotingHole = Hole.NO ∧
          ¬ ∀ h, h ∈ c.Transactions → c.validTransactionsMap.found h = true)) := by
  unfold BallotTransactionsAllValid
  by_cases hl : c.InvalidTransactions.length > 0
  · rw [if_pos hl]
    refine ⟨rfl, Or.inr ⟨rfl, ?_⟩⟩
    intro hall
    have hne := List.length_pos.mp hl
    apply hne
    unfold BallotTransactionChecker.InvalidTransactions
    rw [List.filter_eq_nil_iff]
    intro a ha
    simp [hall a ha]
  · rw [if_neg hl]
    refine ⟨rfl, Or.inl ⟨rfl, ?_⟩⟩
    intro h hh
    have hnil : c.InvalidTransactions = [] := by
      cases hc : c.InvalidTransactions with
      | nil => rfl
      | cons a t =>
        rw [hc] at hl
        simp at hl
    unfold BallotTransactionChecker.InvalidTransactions at hnil
    rw [List.filter_eq_nil_iff] at hnil
    simpa using hnil h hh

/-! ## The vote of the ballot transaction chain -/

theorem RunChecker_cons_error {σ : Type} (f : σ → σ × Option Error)
    (rest : List (σ → σ × Option Error)) (c c1 : σ) (e : Error) (h : f c = (c1, some e)) :
    RunChecker (f :: rest) c = (c1, some e) := by
  simp [RunChecker, h]

theorem RunChecker_cons_ok {σ : Type} (f : σ → σ × Option Error)
    (rest : List (σ → σ × Option Error)) (c c1 : σ) (h : f c = (c1, none)) :
    RunChecker (f :: rest) c = RunChecker rest c1 := by
  simp [RunChecker, h]

theorem VoteOutcome_congr (c c1 : BallotTransactionChecker)
    (r : BallotTransactionChecker × Option Error) (good good1 : Prop)
    (hv : c1.VotingHole = c.VotingHole) (hg : good1 ↔ good) (h : VoteOutcome c1 r good1) :
    VoteOutcome c r good := by
  unfold VoteOutcome at h ⊢
  rw [← hv, ← hg]
  exact h

theorem chain_tail_fee (c : BallotTransactionChecker) :
    VoteOutcome c
      (RunChecker [BallotTransactionsOperationBodyCollectTxFee, BallotTransactionsAllValid] c)
      (∀ h, h ∈ c.Transactions → c.validTransactionsMap.found h = true) := by
  have hst := BallotTransactionsOperationBodyCollectTxFee_state c
  rcases h5 : BallotTransactionsOperationBodyCollectTxFee c with ⟨c5, _ | e⟩
  · rw [h5] at hst
    have hc5 : c5 = c := hst
    rw [RunChecker_cons_ok _ _ _ _ h5, hc5]
    have hv := BallotTransactionsAllValid_vote c
    rcases hr : BallotTransactionsAllValid c with ⟨c6, oe⟩
    rw [hr] at hv
    have hoe : oe = none := hv.1
    subst hoe
    rw [RunChecker_cons_ok _ _ _ _ hr]
    exact Or.inr ⟨rfl, hv.2⟩
  · rw [h5] at hst
    have hc5 : c5 = c := hst
    rw [RunChecker_cons_error _ _ _ _ _ h5, hc5]
    exact Or.inl ⟨e, rfl, rfl⟩

theorem chain_tail_sourceCheck (cfg : Common) (c : BallotTransactionChecker) :
    VoteOutcome c
      (RunChecker [BallotTransactionsSourceCheck cfg,
        BallotTransactionsOperationBodyCollectTxFee, BallotTransactionsAllValid] c)
      (∀ h, h ∈ c.Transactions →
        (ValidateTx cfg c.NodeRunner.Storage_
          (c.NodeRunner.TransactionPool.Get h).1).2.isNone = true ∧ h ∈ c.ValidTransactions) := by
  rcases BallotTransactionsSourceCheck_cases cfg c with ⟨st1, e, h4⟩ | ⟨st1, h4⟩
  · rw [RunChecker_cons_error _ _ _ _ _ h4]
    exact Or.inl ⟨e, rfl, rfl⟩
  · rw [RunChecker_cons_ok _ _ _ _ h4]
    refine VoteOutcome_congr _ _ _ _ _ rfl ?_ (chain_tail_fee _)
    apply forall_congr'
    intro h
    apply imp_congr Iff.rfl
    rw [setValidTransactions_found, List.mem_filter]
    exact And.comm

theorem chain_tail_sameSource (cfg : Common) (c : BallotTransactionChecker) :
    VoteOutcome c
      (RunChecker [BallotTransactionsSameSource, BallotTransactionsSourceCheck cfg,
        BallotTransactionsOperationBodyCollectTxFee, BallotTransactionsAllValid] c)
      (∀ h, h ∈ c.Transactions →
        (ValidateTx cfg c.NodeRunner.Storage_
          (c.NodeRunner.TransactionPool.Get h).1).2.isNone = true ∧
        c.ValidTransactions.find? (fun y =>
          decide ((c.NodeRunner.TransactionPool.Get y).1.B.Source =
            (c.NodeRunner.TransactionPool.Get h).1.B.Source)) = some h) := by
  rcases BallotTransactionsSameSource_cases c with h3 | ⟨V3, h3, hV3⟩
  · rw [RunChecker_cons_error _ _ _ _ _ h3]
    exact Or.inl ⟨_, rfl, rfl⟩
  · rw [RunChecker_cons_ok _ _ _ _ h3]
    refine VoteOutcome_congr _ _ _ _ _ rfl ?_ (chain_tail_sourceCheck cfg _)
    apply forall_congr'
    intro h
    apply imp_congr Iff.rfl
    apply and_congr Iff.rfl
    exact hV3 h

theorem chain_tail_checkMissing (cfg : Common) (c : BallotTransactionChecker) :
    VoteOutcome c
      (RunChecker [CheckMissingTransaction, BallotTransactionsSameSource,
        BallotTransactionsSourceCheck cfg,
        BallotTransactionsOperationBodyCollectTxFee, BallotTransactionsAllValid] c)
      (∀ h, h ∈ c.Transactions →
        (ValidateTx cfg c.NodeRunner.Storage_
          (c.NodeRunner.TransactionPool.Get h).1).2.isNone = true ∧
        (c.ValidTransactions.filter (fun x => c.NodeRunner.TransactionPool.Has x)).find?
          (fun y => decide ((c.NodeRunner.TransactionPool.Get y).1.B.Source =
            (c.NodeRunner.TransactionPool.Get h).1.B.Source)) = some h) := by
  rw [RunChecker_cons_ok _ _ _ _ (CheckMissingTransaction_eq c)]
  exact VoteOutcome_congr _ _ _ _ _ rfl Iff.rfl (chain_tail_sameSource cfg _)

theorem ballot_chain_outcome (cfg : Common) (c : BallotTransactionChecker) :
    VoteOutcome c (RunChecker (ballotTransactionCheckerFuncs cfg) c) (c.AllGood cfg) := by
  unfold ballotTransactionCheckerFuncs
  rcases IsNew_cases c with h1 | h1
  · rw [RunChecker_cons_error _ _ _ _ _ h1]
    exact Or.inl ⟨_, rfl, rfl⟩
  · rw [RunChecker_cons_ok _ _ _ _ h1]
    refine VoteOutcome_congr _ _ _ _ _ rfl ?_ (chain_tail_checkMissing cfg _)
    show (∀ h, h ∈ c.Transactions →
        (ValidateTx cfg c.NodeRunner.Storage_
          (c.NodeRunner.TransactionPool.Get h).1).2.isNone = true ∧
        ((c.Transactions.filter (fun x => !(c.NodeRunner.Storage_.blockTransactions x))).filter
            (fun x => c.NodeRunner.TransactionPool.Has x)).find?
          (fun y => decide ((c.NodeRunner.TransactionPool.Get y).1.B.Source =
            (c.NodeRunner.TransactionPool.Get h).1.B.Source)) = some h) ↔ c.AllGood cfg
    rw [survive_all_iff]
    unfold BallotTransactionChecker.AllGood
    simp only [ExistsBlockTransaction, Prod.mk.injEq, and_true, Bool.not_eq_true',
      Option.isNone_iff_eq_none]

theorem collectFeeLoop_some (pool : Pool) (l : List String) (fee total : Nat)
    (h : collectFeeLoop pool l fee = some total) : ∀ x, x ∈ l → pool.Has x = true := by
  induction l generalizing fee with
  | nil =>
    intro x hx
    simp at hx
  | cons y t ih =>
    unfold collectFeeLoop at h
    cases hl : AList.lookup y pool.Pool_ with
    | none => simp [Pool.Get, hl] at h
    | some tx =>
      simp only [Pool.Get, hl] at h
      intro x hx
      rcases List.mem_cons.mp hx with hx | hx
      · rw [hx, Pool.Has_iff]
        exact AList.lookup_isSome.mp (by rw [hl]; rfl)
      · exact ih _ h x hx

theorem fee_stage_all_in_pool (c : BallotTransactionChecker)
    (hb : c.Ballot.Transactions = c.Transactions)
    (h : (BallotTransactionsOperationBodyCollectTxFee c).2 = none) :
    ∀ x, x ∈ c.Transactions → c.NodeRunner.TransactionPool.Has x = true := by
  unfold BallotTransactionsOperationBodyCollectTxFee at h
  cases hp : c.Ballot.ProposerCollectTxFee with
  | error e => simp [hp] at h
  | ok opb =>
    rw [hp] at h
    dsimp only at h
    by_cases hlen : c.Ballot.TransactionsLength < 1
    · intro x hx
      unfold Ballot.TransactionsLength at hlen
      rw [hb] at hlen
      have : c.Transactions = [] := List.length_eq_zero.mp (by omega)
      rw [this] at hx
      simp at hx
    · rw [if_neg hlen] at h
      cases hf : collectFeeLoop c.NodeRunner.TransactionPool c.Transactions 0 with
      | none => simp [hf] at h
      | some fee => exact collectFeeLoop_some _ _ _ _ hf

theorem fee_stage_congr (c1 c : BallotTransactionChecker) (hB : c1.Ballot = c.Ballot)
    (hT : c1.Transactions = c.Transactions)
    (hP : c1.NodeRunner.TransactionPool = c.NodeRunner.TransactionPool) :
    (BallotTransactionsOperationBodyCollectTxFee c1).2 =
      (BallotTransactionsOperationBodyCollectTxFee c).2 := by
  unfold BallotTransactionsOperationBodyCollectTxFee
  rw [hB, hT, hP]
  repeat' split
  all_goals rfl

theorem fee_tail_fee (c : BallotTransactionChecker)
    (h : (RunChecker [BallotTransactionsOperationBodyCollectTxFee,
      BallotTransactionsAllValid] c).2 = none) :
    (BallotTransactionsOperationBodyCollectTxFee c).2 = none := by
  rcases h5 : BallotTransactionsOperationBodyCollectTxFee c with ⟨c5, _ | e⟩
  · rfl
  · rw [RunChecker_cons_error _ _ _ _ _ h5] at h
    cases h

theorem fee_tail_sourceCheck (cfg : Common) (c : BallotTransactionChecker)
    (h : (RunChecker [BallotTransactionsSourceCheck cfg,
      BallotTransactionsOperationBodyCollectTxFee, BallotTransactionsAllValid] c).2 = none) :
    (BallotTransactionsOperationBodyCollectTxFee c).2 = none := by
  rcases BallotTransactionsSourceCheck_cases cfg c with ⟨st1, e, h4⟩ | ⟨st1, h4⟩
  · rw [RunChecker_cons_error _ _ _ _ _ h4] at h
    cases h
  · rw [RunChecker_cons_ok _ _ _ _ h4] at h
    have h5 := fee_tail_fee _ h
    refine Eq.trans (Eq.symm (fee_stage_congr _ c ?_ ?_ ?_)) h5 <;> rfl

theorem fee_tail_sameSource (cfg : Common) (c : BallotTransactionChecker)
    (h : (RunChecker [BallotTransactionsSameSource, BallotTransactionsSourceCheck cfg,
      BallotTransactionsOperationBodyCollectTxFee, BallotTransactionsAllValid] c).2 = none) :
    (BallotTransactionsOperationBodyCollectTxFee c).2 = none := by
  rcases BallotTransactionsSameSource_cases c with h3 | ⟨V3, h3, _⟩
  · rw [RunChecker_cons_error _ _ _ _ _ h3] at h
    cases h
  · rw [RunChecker_cons_ok _ _ _ _ h3] at h
    have h5 := fee_tail_sourceCheck cfg _ h
    refine Eq.trans (Eq.symm (fee_stage_congr _ c ?_ ?_ ?_)) h5 <;> rfl

theorem fee_tail_chain (cfg : Common) (c : BallotTransactionChecker)
    (h : (RunChecker (ballotTransactionCheckerFuncs cfg) c).2 = none) :
    (BallotTransactionsOperationBodyCollectTxFee c).2 = none := by
  unfold ballotTransactionCheckerFuncs at h
  rcases IsNew_cases c with h1 | h1
  · rw [RunChecker_cons_error _ _ _ _ _ h1] at h
    cases h
  · rw [RunChecker_cons_ok _ _ _ _ h1,
      RunChecker_cons_ok _ _ _ _ (CheckMissingTransaction_eq _)] at h
    have h5 := fee_tail_sameSource cfg _ h
    refine Eq.trans (Eq.symm (fee_stage_congr _ c ?_ ?_ ?_)) h5 <;> rfl

/-! ## `ValidateOp` -/

theorem uint64Sub_eq (a b : Nat) (hb : b ≤ a) (ha : a < 2 ^ 64) : uint64Sub a b = a - b := by
  unfold uint64Sub
  have h1 : a + 2 ^ 64 - b = (a - b) + 2 ^ 64 := by omega
  rw [h1, Nat.add_mod_right]
  exact Nat.mod_eq_of_lt (by omega)

theorem unfreezingCheck_eq_none_iff (cfg : Common) (st : Storage) (source : BlockAccount) :
    unfreezingCheck cfg st source = none ↔
      (firstBlockOperationBySource st source.Address).Type_ =
          OperationType.TypeUnfreezingRequest ∧
        cfg.UnfreezingPeriod ≤ uint64Sub (GetLatestBlock st).Height
          (firstBlockOperationBySource st source.Address).Height := by
  unfold unfreezingCheck
  by_cases h1 : (firstBlockOperationBySource st source.Address).Type_ =
      OperationType.TypeUnfreezingRequest
  · by_cases h2 : uint64Sub (GetLatestBlock st).Height
        (firstBlockOperationBySource st source.Address).Height < cfg.UnfreezingPeriod
    · simp [h1, h2]
    · simp [h1, h2]
      omega
  · simp [h1]

theorem unfreezingCheck_not_reached (cfg : Common) (st : Storage) (source : BlockAccount)
    (h1 : (firstBlockOperationBySource st source.Address).Type_ =
      OperationType.TypeUnfreezingRequest)
    (h2 : uint64Sub (GetLatestBlock st).Height
      (firstBlockOperationBySource st source.Address).Height < cfg.UnfreezingPeriod) :
    unfreezingCheck cfg st source = some Error.UnfreezingNotReachedExpiration := by
  simp [unfreezingCheck, h1, h2]

theorem unfreezingCheck_ne_wholeUnit (cfg : Common) (st : Storage) (source : BlockAccount) :
    unfreezingCheck cfg st source ≠ some Error.FrozenAccountCreationWholeUnit := by
  unfold unfreezingCheck
  simp only
  split
  · simp
  · split <;> simp

theorem ValidateOp_payment (cfg : Common) (st : Storage) (source : BlockAccount)
    (op : Operation) (target : String) (amount : Nat) (taccount : BlockAccount)
    (ht : op.H.Type_ = OperationType.TypePayment)
    (hb : op.B = OperationBody.Payment target amount)
    (hg : GetBlockAccount st target = Except.ok taccount) (hl : taccount.Linked = "")
    (hs : source.Linked ≠ "") :
    ValidateOp cfg st source op =
      if amount ≠ (AmountSub cfg source.Balance cfg.BaseFee).1 then
        some Error.FrozenAccountMustWithdrawEverything
      else
        match unfreezingCheck cfg st source with
        | some e => some e
        | none => (AmountSub cfg source.Balance cfg.BaseFee).2 := by
  unfold ValidateOp
  simp only [ht, hb, hg, hl, hs]
  simp [hs]

/-- C13: for a frozen source and a Payment whose target exists and is not
frozen, `ValidateOp` returns `FrozenAccountMustWithdrawEverything` whenever the
amount differs from the result of `source.Balance.Sub(BaseFee)`, which is
`source.Balance - BaseFee` when the balance covers the base fee; it does so
whatever the recorded operations and the latest block are. -/
theorem ValidateOp_frozen_must_withdraw (cfg : Common) (st : Storage) (source : BlockAccount)
    (op : Operation) (target : String) (amount : Nat) (taccount : BlockAccount)
    (hs : source.Linked ≠ "")
    (ht : op.H.Type_ = OperationType.TypePayment)
    (hb : op.B = OperationBody.Payment target amount)
    (hg : GetBlockAccount st target = Except.ok taccount) (hl : taccount.Linked = "") :
    (amount ≠ (AmountSub cfg source.Balance cfg.BaseFee).1 →
        ValidateOp cfg st source op = some Error.FrozenAccountMustWithdrawEverything) ∧
      (cfg.BaseFee ≤ source.Balance → amount ≠ source.Balance - cfg.BaseFee →
        ValidateOp cfg st source op = some Error.FrozenAccountMustWithdrawEverything) := by
  have key : amount ≠ (AmountSub cfg source.Balance cfg.BaseFee).1 →
      ValidateOp cfg st source op = some Error.FrozenAccountMustWithdrawEverything := by
    intro hne
    rw [ValidateOp_payment cfg st source op target amount taccount ht hb hg hl hs, if_pos hne]
  refine ⟨key, ?_⟩
  intro hle hne
  apply key
  simp only [AmountSub, if_pos hle]
  exact hne

/-- Witness of C13: the frozen account `F1` (balance 1000000, base fee 10000)
pays 999999 to its parent, with and without a recorded unfreezing request. -/
theorem ValidateOp_frozen_must_withdraw_witness :
    ValidateOp sampleCommon (frozenStorage [] 10) sampleFrozen (samplePayment "P1" 999999) =
        some Error.FrozenAccountMustWithdrawEverything ∧
    ValidateOp sampleCommon (frozenStorage [sampleUnfreezingRequest 100] 500000) sampleFrozen
        (samplePayment "P1" 999999) = some Error.FrozenAccountMustWithdrawEverything :=
  ⟨(ValidateOp_frozen_must_withdraw sampleCommon (frozenStorage [] 10) sampleFrozen
      (samplePayment "P1" 999999) "P1" 999999
      { Address := "P1", Balance := 5, SequenceID := 0, Linked := "" }
      (by decide) rfl rfl rfl rfl).2 (by decide) (by decide),
   (ValidateOp_frozen_must_withdraw sampleCommon
      (frozenStorage [sampleUnfreezingRequest 100] 500000) sampleFrozen
      (samplePayment "P1" 999999) "P1" 999999
      { Address := "P1", Balance := 5, SequenceID := 0, Linked := "" }
      (by decide) rfl rfl rfl rfl).1 (by decide)⟩

/-- C14: for a frozen source whose latest recorded operation is an unfreezing
request at height `r`, a Payment of exactly `source.Balance - BaseFee` to an
existing target that is not frozen, and a latest block of height `H ≥ r`,
`ValidateOp` returns `UnfreezingNotReachedExpiration` when
`H - r < UnfreezingPeriod` and accepts when `H - r ≥ UnfreezingPeriod`; in
particular it rejects at `UnfreezingPeriod - 1` and accepts at
`UnfreezingPeriod`. Heights are `uint64`. -/
theorem ValidateOp_unfreezing_boundary (cfg : Common) (st : Storage) (source : BlockAccount)
    (op : Operation) (target : String) (amount : Nat) (taccount : BlockAccount)
    (hs : source.Linked ≠ "")
    (hbo : (firstBlockOperationBySource st source.Address).Type_ =
      OperationType.TypeUnfreezingRequest)
    (ht : op.H.Type_ = OperationType.TypePayment)
    (hb : op.B = OperationBody.Payment target amount)
    (hamount : amount + cfg.BaseFee = source.Balance)
    (hg : GetBlockAccount st target = Except.ok taccount) (hl : taccount.Linked = "")
    (hr : (firstBlockOperationBySource st source.Address).Height ≤ (GetLatestBlock st).Height)
    (hH : (GetLatestBlock st).Height < 2 ^ 64) :
    ((GetLatestBlock st).Height - (firstBlockOperationBySource st source.Address).Height
          < cfg.UnfreezingPeriod →
        ValidateOp cfg st source op = some Error.UnfreezingNotReachedExpiration) ∧
      (cfg.UnfreezingPeriod ≤
          (GetLatestBlock st).Height - (firstBlockOperationBySource st source.Address).Height →
        ValidateOp cfg st source op = none) ∧
      ((GetLatestBlock st).Height - (firstBlockOperationBySource st source.Address).Height
          = cfg.UnfreezingPeriod - 1 → 0 < cfg.UnfreezingPeriod →
        ValidateOp cfg st source op = some Error.UnfreezingNotReachedExpiration) ∧
      ((GetLatestBlock st).Height - (firstBlockOperationBySource st source.Address).Height
          = cfg.UnfreezingPeriod →
        ValidateOp cfg st source op = none) := by
  have hsub : AmountSub cfg source.Balance cfg.BaseFee = (amount, none) := by
    unfold AmountSub
    rw [if_pos (by omega)]
    congr 1
    omega
  have hu := uint64Sub_eq _ _ hr hH
  have hval := ValidateOp_payment cfg st source op target amount taccount ht hb hg hl hs
  rw [hsub] at hval
  simp only [ne_eq, not_true_eq_false, if_false] at hval
  have lo : (GetLatestBlock st).Height - (firstBlockOperationBySource st source.Address).Height
      < cfg.UnfreezingPeriod →
      ValidateOp cfg st source op = some Error.UnfreezingNotReachedExpiration := by
    intro h
    rw [hval, unfreezingCheck_not_reached cfg st source hbo (by rw [hu]; exact h)]
  have hi : cfg.UnfreezingPeriod ≤
      (GetLatestBlock st).Height - (firstBlockOperationBySource st source.Address).Height →
      ValidateOp cfg st source op = none := by
    intro h
    rw [hval, (unfreezingCheck_eq_none_iff cfg st source).mpr ⟨hbo, by rw [hu]; exact h⟩]
  refine ⟨lo, hi, ?_, ?_⟩
  · intro h hp
    exact lo (by omega)
  · intro h
    exact hi (by omega)

/-- Witness of C14: the unfreezing request of `F1` is recorded at height 100
and `F1` pays its whole balance less the base fee to its parent; one block
before the period has passed the payment is rejected, at the period it is
accepted. -/
theorem ValidateOp_unfreezing_boundary_witness :
    ValidateOp sampleCommon (frozenStorage [sampleUnfreezingRequest 100] (100 + 241919))
        sampleFrozen (samplePayment "P1" 990000) =
          some Error.UnfreezingNotReachedExpiration ∧
    ValidateOp sampleCommon (frozenStorage [sampleUnfreezingRequest 100] (100 + 241920))
        sampleFrozen (samplePayment "P1" 990000) = none :=
  ⟨(ValidateOp_unfreezing_boundary sampleCommon
      (frozenStorage [sampleUnfreezingRequest 100] (100 + 241919)) sampleFrozen
      (samplePayment "P1" 990000) "P1" 990000
      { Address := "P1", Balance := 5, SequenceID := 0, Linked := "" }
      (by decide) rfl rfl rfl (by decide) rfl rfl (by decide) (by decide)).2.2.1
      (by decide) (by decide),
   (ValidateOp_unfreezing_boundary sampleCommon
      (frozenStorage [sampleUnfreezingRequest 100] (100 + 241920)) sampleFrozen
      (samplePayment "P1" 990000) "P1" 990000
      { Address := "P1", Balance := 5, SequenceID := 0, Linked := "" }
      (by decide) rfl rfl rfl (by decide) rfl rfl (by decide) (by decide)).2.2.2
      (by decide)⟩

/-- C15: for every source account, frozen or not, `ValidateOp` on a Payment
returns `BlockAccountDoesNotExists` when the target is not in storage and
`FrozenAccountNoDeposit` when the target exists and is frozen; the state of the
source (its `Linked`, its balance, its recorded operations) plays no part. -/
theorem ValidateOp_payment_target (cfg : Common) (st : Storage) (source : BlockAccount)
    (op : Operation) (target : String) (amount : Nat)
    (ht : op.H.Type_ = OperationType.TypePayment)
    (hb : op.B = OperationBody.Payment target amount) :
    (∀ e, GetBlockAccount st target = Except.error e →
        ValidateOp cfg st source op = some Error.BlockAccountDoesNotExists) ∧
      (∀ taccount, GetBlockAccount st target = Except.ok taccount → taccount.Linked ≠ "" →
        ValidateOp cfg st source op = some Error.FrozenAccountNoDeposit) := by
  constructor
  · intro e hg
    unfold ValidateOp
    simp only [ht, hb, hg]
  · intro taccount hg hl
    unfold ValidateOp
    simp only [ht, hb, hg]
    simp [hl]

/-- Witness of C15: the frozen account `F1`, with no unfreezing request
recorded and an amount that is not its whole balance, pays to a missing
account and to itself (a frozen target). -/
theorem ValidateOp_payment_target_witness :
    ValidateOp sampleCommon (frozenStorage [] 10) sampleFrozen (samplePayment "nobody" 3) =
        some Error.BlockAccountDoesNotExists ∧
    ValidateOp sampleCommon (frozenStorage [] 10) sampleFrozen (samplePayment "F1" 3) =
        some Error.FrozenAccountNoDeposit :=
  ⟨(ValidateOp_payment_target sampleCommon (frozenStorage [] 10) sampleFrozen
      (samplePayment "nobody" 3) "nobody" 3 rfl rfl).1 Error.StorageRecordDoesNotExist rfl,
   (ValidateOp_payment_target sampleCommon (frozenStorage [] 10) sampleFrozen
      (samplePayment "F1" 3) "F1" 3 rfl rfl).2 sampleFrozen rfl (by decide)⟩

/-- C16: `ValidateOp` on a CreateAccount whose target already exists in storage
returns `BlockAccountAlreadyExists`, for every source; for a source that is not
frozen and a target that does not exist the operation is accepted. -/
theorem ValidateOp_create_account (cfg : Common) (st : Storage) (source : BlockAccount)
    (op : Operation) (target : String) (amount : Nat) (linked : String)
    (ht : op.H.Type_ = OperationType.TypeCreateAccount)
    (hb : op.B = OperationBody.CreateAccount target amount linked) :
    ((ExistsBlockAccount st target).1 = true →
        ValidateOp cfg st source op = some Error.BlockAccountAlreadyExists) ∧
      ((ExistsBlockAccount st target).1 = false → source.Linked = "" →
        ValidateOp cfg st source op = none) := by
  constructor
  · intro he
    unfold ValidateOp
    simp only [ht, hb]
    simp [ExistsBlockAccount] at he ⊢
    intro h
    simp [h] at he
  · intro he hs
    unfold ValidateOp
    simp only [ht, hb]
    simp [ExistsBlockAccount] at he ⊢
    simp [he, hs]

/-- Witness of C16: the account `S1` creates `T1`, which exists, and `N1`,
which does not. -/
theorem ValidateOp_create_account_witness :
    ValidateOp sampleCommon sampleStorage
        { Address := "S1", Balance := 200, SequenceID := 5, Linked := "" }
        (sampleCreateAccount "T1" 10 "") = some Error.BlockAccountAlreadyExists ∧
    ValidateOp sampleCommon sampleStorage
        { Address := "S1", Balance := 200, SequenceID := 5, Linked := "" }
        (sampleCreateAccount "N1" 10 "") = none :=
  ⟨(ValidateOp_create_account sampleCommon sampleStorage
      { Address := "S1", Balance := 200, SequenceID := 5, Linked := "" }
      (sampleCreateAccount "T1" 10 "") "T1" 10 "" rfl rfl).1 (by decide),
   (ValidateOp_create_account sampleCommon sampleStorage
      { Address := "S1", Balance := 200, SequenceID := 5, Linked := "" }
      (sampleCreateAccount "N1" 10 "") "N1" 10 "" rfl rfl).2 (by decide) rfl⟩

/-- C17: `ValidateOp` on an UnfreezingRequest returns
`UnfreezingFromInvalidAccount` when the source is not frozen; for a frozen
source it returns `UnfreezingRequestAlreadyReceived` if and only if the latest
recorded operation of the source is an unfreezing request, and accepts the
request otherwise, also when the source has no recorded operation. -/
theorem ValidateOp_unfreezing_request (cfg : Common) (st : Storage) (source : BlockAccount)
    (op : Operation)
    (ht : op.H.Type_ = OperationType.TypeUnfreezingRequest)
    (hb : op.B = OperationBody.UnfreezeRequest) :
    (source.Linked = "" →
        ValidateOp cfg st source op = some Error.UnfreezingFromInvalidAccount) ∧
      (source.Linked ≠ "" →
        (ValidateOp cfg st source op = some Error.UnfreezingRequestAlreadyReceived ↔
          (firstBlockOperationBySource st source.Address).Type_ =
            OperationType.TypeUnfreezingRequest) ∧
        ((firstBlockOperationBySource st source.Address).Type_ ≠
            OperationType.TypeUnfreezingRequest → ValidateOp cfg st source op = none) ∧
        (st.operationsBySource source.Address = [] → ValidateOp cfg st source op = none)) := by
  have hval : source.Linked ≠ "" → ValidateOp cfg st source op =
      if (firstBlockOperationBySource st source.Address).Type_ =
          OperationType.TypeUnfreezingRequest
      then some Error.UnfreezingRequestAlreadyReceived else none := by
    intro hs
    unfold ValidateOp
    simp only [ht, hb]
    simp [hs]
  constructor
  · intro hs
    unfold ValidateOp
    simp only [ht, hb]
    simp [hs]
  · intro hs
    rw [hval hs]
    refine ⟨?_, ?_, ?_⟩
    · by_cases h : (firstBlockOperationBySource st source.Address).Type_ =
          OperationType.TypeUnfreezingRequest
      · simp [h]
      · simp [h]
    · intro h
      simp [h]
    · intro h
      simp [firstBlockOperationBySource, h, BlockOperation.zero]

/-- Witness of C17: the frozen account `F1` asks for unfreezing with no
recorded operation (accepted) and after a recorded request (rejected); the
account `S1`, not frozen, is refused. -/
theorem ValidateOp_unfreezing_request_witness :
    ValidateOp sampleCommon (frozenStorage [] 10) sampleFrozen
        { H := { Type_ := OperationType.TypeUnfreezingRequest },
          B := OperationBody.UnfreezeRequest } = none ∧
    ValidateOp sampleCommon (frozenStorage [sampleUnfreezingRequest 5] 10) sampleFrozen
        { H := { Type_ := OperationType.TypeUnfreezingRequest },
          B := OperationBody.UnfreezeRequest } =
        some Error.UnfreezingRequestAlreadyReceived ∧
    ValidateOp sampleCommon sampleStorage
        { Address := "S1", Balance := 200, SequenceID := 5, Linked := "" }
        { H := { Type_ := OperationType.TypeUnfreezingRequest },
          B := OperationBody.UnfreezeRequest } = some Error.UnfreezingFromInvalidAccount :=
  ⟨((ValidateOp_unfreezing_request sampleCommon (frozenStorage [] 10) sampleFrozen
      { H := { Type_ := OperationType.TypeUnfreezingRequest },
        B := OperationBody.UnfreezeRequest } rfl rfl).2 (by decide)).2.2 rfl,
   ((ValidateOp_unfreezing_request sampleCommon (frozenStorage [sampleUnfreezingRequest 5] 10)
      sampleFrozen
      { H := { Type_ := OperationType.TypeUnfreezingRequest },
        B := OperationBody.UnfreezeRequest } rfl rfl).2 (by decide)).1.mpr rfl,
   (ValidateOp_unfreezing_request sampleCommon sampleStorage
      { Address := "S1", Balance := 200, SequenceID := 5, Linked := "" }
      { H := { Type_ := OperationType.TypeUnfreezingRequest },
        B := OperationBody.UnfreezeRequest } rfl rfl).1 rfl⟩

/-- C18: `ValidateOp` accepts every operation whose type tag is CongressVoting
or CongressVotingResult, whatever the storage, the source account and the body
are, and rejects with `UnknownOperationType` every operation whose type tag is
none of CreateAccount, Payment, UnfreezingRequest, CongressVoting and
CongressVotingResult. -/
theorem ValidateOp_congress_and_unknown (cfg : Common) (st : Storage) (source : BlockAccount)
    (op : Operation) :
    (op.H.Type_ = OperationType.TypeCongressVoting ∨
        op.H.Type_ = OperationType.TypeCongressVotingResult →
        ValidateOp cfg st source op = none) ∧
      (op.H.Type_ ≠ OperationType.TypeCreateAccount →
        op.H.Type_ ≠ OperationType.TypePayment →
        op.H.Type_ ≠ OperationType.TypeUnfreezingRequest →
        op.H.Type_ ≠ OperationType.TypeCongressVoting →
        op.H.Type_ ≠ OperationType.TypeCongressVotingResult →
        ValidateOp cfg st source op = some Error.UnknownOperationType) := by
  constructor
  · rintro (h | h)
    · unfold ValidateOp
      simp only [h]
    · unfold ValidateOp
      simp only [h]
  · intro h1 h2 h3 h4 h5
    unfold ValidateOp
    cases ht : op.H.Type_ with
    | TypeCreateAccount => exact absurd ht h1
    | TypePayment => exact absurd ht h2
    | TypeUnfreezingRequest => exact absurd ht h3
    | TypeCongressVoting => exact absurd ht h4
    | TypeCongressVotingResult => exact absurd ht h5
    | TypeOther tag => rfl

/-- Witness of C18: a CongressVoting operation carrying a payment body from a
frozen source is accepted; an operation tagged `inflation` is rejected. -/
theorem ValidateOp_congress_and_unknown_witness :
    ValidateOp sampleCommon (frozenStorage [] 10) sampleFrozen
        { H := { Type_ := OperationType.TypeCongressVoting },
          B := OperationBody.Payment "nobody" 3 } = none ∧
    ValidateOp sampleCommon (frozenStorage [] 10) sampleFrozen
        { H := { Type_ := OperationType.TypeOther "inflation" },
          B := OperationBody.Other } = some Error.UnknownOperationType :=
  ⟨(ValidateOp_congress_and_unknown sampleCommon (frozenStorage [] 10) sampleFrozen
      { H := { Type_ := OperationType.TypeCongressVoting },
        B := OperationBody.Payment "nobody" 3 }).1 (Or.inl rfl),
   (ValidateOp_congress_and_unknown sampleCommon (frozenStorage [] 10) sampleFrozen
      { H := { Type_ := OperationType.TypeOther "inflation" },
        B := OperationBody.Other }).2 (by decide) (by decide) (by decide) (by decide)
        (by decide)⟩

theorem AmountSub_ne_wholeUnit (cfg : Common) (a sub : Nat) :
    (AmountSub cfg a sub).2 ≠ some Error.FrozenAccountCreationWholeUnit := by
  unfold AmountSub
  split <;> simp

theorem ValidateOp_create_account_eq (cfg : Common) (st : Storage) (source : BlockAccount)
    (op : Operation) (target : String) (amount : Nat) (linked : String)
    (ht : op.H.Type_ = OperationType.TypeCreateAccount)
    (hb : op.B = OperationBody.CreateAccount target amount linked) :
    ValidateOp cfg st source op =
      if (ExistsBlockAccount st target).1 = true then some Error.BlockAccountAlreadyExists
      else if source.Linked ≠ "" then
        match unfreezingCheck cfg st source with
        | some e => some e
        | none =>
          if linked ≠ "" ∧ amount % cfg.Unit ≠ 0 then some Error.FrozenAccountCreationWholeUnit
          else none
      else none := by
  unfold ValidateOp
  simp only [ht, hb]
  simp [ExistsBlockAccount]

theorem ValidateOp_wholeUnit_is_create (cfg : Common) (st : Storage) (source : BlockAccount)
    (op : Operation)
    (h : ValidateOp cfg st source op = some Error.FrozenAccountCreationWholeUnit) :
    ∃ target amount linked, op.H.Type_ = OperationType.TypeCreateAccount ∧
      op.B = OperationBody.CreateAccount target amount linked := by
  have hu := unfreezingCheck_ne_wholeUnit cfg st source
  have hs := AmountSub_ne_wholeUnit cfg source.Balance cfg.BaseFee
  obtain ⟨⟨ty⟩, b⟩ := op
  cases ty with
  | TypeCreateAccount =>
    cases b with
    | CreateAccount target amount linked => exact ⟨target, amount, linked, rfl, rfl⟩
    | _ => simp [ValidateOp] at h
  | TypePayment =>
    exfalso
    revert h
    unfold ValidateOp
    dsimp only
    repeat' split
    all_goals first
      | exact hs
      | (intro h; simp_all)
  | TypeUnfreezingRequest =>
    exfalso
    revert h
    unfold ValidateOp
    dsimp only
    repeat' split
    all_goals (intro h; simp_all)
  | TypeCongressVoting => simp [ValidateOp] at h
  | TypeCongressVotingResult => simp [ValidateOp] at h
  | TypeOther tag => simp [ValidateOp] at h

/-- C19: `ValidateOp` returns `FrozenAccountCreationWholeUnit` exactly when the
operation is a CreateAccount whose target does not exist, the source is frozen,
its latest recorded operation is an unfreezing request, the unfreezing period
has passed (`lastblock.Height - bo.Height`, on `uint64`, is not below
`UnfreezingPeriod`), the created account is itself frozen and the amount is not
a whole multiple of `Unit`; under the same conditions a whole multiple of
`Unit` passes; and under a source that is not frozen the creation of a frozen
account passes whatever the amount is. -/
theorem ValidateOp_whole_unit (cfg : Common) (st : Storage) (source : BlockAccount)
    (op : Operation) :
    (ValidateOp cfg st source op = some Error.FrozenAccountCreationWholeUnit ↔
      ∃ target amount linked, op.H.Type_ = OperationType.TypeCreateAccount ∧
        op.B = OperationBody.CreateAccount target amount linked ∧
        (ExistsBlockAccount st target).1 = false ∧ source.Linked ≠ "" ∧
        (firstBlockOperationBySource st source.Address).Type_ =
          OperationType.TypeUnfreezingRequest ∧
        cfg.UnfreezingPeriod ≤ uint64Sub (GetLatestBlock st).Height
          (firstBlockOperationBySource st source.Address).Height ∧
        linked ≠ "" ∧ amount % cfg.Unit ≠ 0) ∧
    (∀ target amount linked, op.H.Type_ = OperationType.TypeCreateAccount →
        op.B = OperationBody.CreateAccount target amount linked →
        (ExistsBlockAccount st target).1 = false → source.Linked ≠ "" →
        (firstBlockOperationBySource st source.Address).Type_ =
          OperationType.TypeUnfreezingRequest →
        cfg.UnfreezingPeriod ≤ uint64Sub (GetLatestBlock st).Height
          (firstBlockOperationBySource st source.Address).Height →
        linked ≠ "" → amount % cfg.Unit = 0 →
        ValidateOp cfg st source op = none) ∧
    (∀ target amount linked, op.H.Type_ = OperationType.TypeCreateAccount →
        op.B = OperationBody.CreateAccount target amount linked →
        (ExistsBlockAccount st target).1 = false → source.Linked = "" →
        linked ≠ "" → ValidateOp cfg st source op = none) := by
  refine ⟨⟨?_, ?_⟩, ?_, ?_⟩
  · intro h
    obtain ⟨target, amount, linked, ht, hb⟩ := ValidateOp_wholeUnit_is_create cfg st source op h
    refine ⟨target, amount, linked, ht, hb, ?_⟩
    rw [ValidateOp_create_account_eq cfg st source op target amount linked ht hb] at h
    by_cases he : (ExistsBlockAccount st target).1 = true
    · simp [he] at h
    · rw [if_neg he] at h
      by_cases hs : source.Linked ≠ ""
      · rw [if_pos hs] at h
        cases hu : unfreezingCheck cfg st source with
        | some e =>
          rw [hu] at h
          dsimp only at h
          rw [h] at hu
          exact absurd hu (unfreezingCheck_ne_wholeUnit cfg st source)
        | none =>
          rw [hu] at h
          dsimp only at h
          have hc := (unfreezingCheck_eq_none_iff cfg st source).mp hu
          by_cases hw : linked ≠ "" ∧ amount % cfg.Unit ≠ 0
          · exact ⟨by simpa using he, hs, hc.1, hc.2, hw.1, hw.2⟩
          · rw [if_neg hw] at h
            cases h
      · rw [if_neg hs] at h
        cases h
  · rintro ⟨target, amount, linked, ht, hb, he, hs, h1, h2, h3, h4⟩
    rw [ValidateOp_create_account_eq cfg st source op target amount linked ht hb,
      if_neg (by simp [he]), if_pos hs,
      (unfreezingCheck_eq_none_iff cfg st source).mpr ⟨h1, h2⟩]
    dsimp only
    rw [if_pos ⟨h3, h4⟩]
  · intro target amount linked ht hb he hs h1 h2 h3 h4
    rw [ValidateOp_create_account_eq cfg st source op target amount linked ht hb,
      if_neg (by simp [he]), if_pos hs,
      (unfreezingCheck_eq_none_iff cfg st source).mpr ⟨h1, h2⟩]
    dsimp only
    rw [if_neg (by simp [h4])]
  · intro target amount linked ht hb he hs _
    rw [ValidateOp_create_account_eq cfg st source op target amount linked ht hb,
      if_neg (by simp [he]), if_neg (by simp [hs])]

/-- Witness of C19: the frozen account `F1`, its unfreezing request recorded at
height 100 and the latest block at 300000, creates the frozen account `N1`
with 15000000 (one unit and a half: rejected) and with 20000000 (two units:
accepted); the account `S1`, not frozen, creates it with 15000000 and is
accepted. -/
theorem ValidateOp_whole_unit_witness :
    ValidateOp sampleCommon (frozenStorage [sampleUnfreezingRequest 100] 300000) sampleFrozen
        (sampleCreateAccount "N1" 15000000 "F1") =
          some Error.FrozenAccountCreationWholeUnit ∧
    ValidateOp sampleCommon (frozenStorage [sampleUnfreezingRequest 100] 300000) sampleFrozen
        (sampleCreateAccount "N1" 20000000 "F1") = none ∧
    ValidateOp sampleCommon sampleStorage
        { Address := "S1", Balance := 200, SequenceID := 5, Linked := "" }
        (sampleCreateAccount "N1" 15000000 "S1") = none :=
  ⟨(ValidateOp_whole_unit sampleCommon (frozenStorage [sampleUnfreezingRequest 100] 300000)
      sampleFrozen (sampleCreateAccount "N1" 15000000 "F1")).1.mpr
      ⟨"N1", 15000000, "F1", rfl, rfl, by decide, by decide, rfl, by decide, by decide,
        by decide⟩,
   (ValidateOp_whole_unit sampleCommon (frozenStorage [sampleUnfreezingRequest 100] 300000)
      sampleFrozen (sampleCreateAccount "N1" 20000000 "F1")).2.1 "N1" 20000000 "F1" rfl rfl
      (by decide) (by decide) rfl (by decide) (by decide) (by decide),
   (ValidateOp_whole_unit sampleCommon sampleStorage
      { Address := "S1", Balance := 200, SequenceID := 5, Linked := "" }
      (sampleCreateAccount "N1" 15000000 "S1")).2.2 "N1" 15000000 "S1" rfl rfl
      (by decide) rfl (by decide)⟩

/-! ## `BallotTransactionsAllValid` and `BallotTransactionsOperationBodyCollectTxFee` -/

theorem all_mem_iff_eq_of_sublist (v T : List String) (hsub : v.Sublist T) (hnd : T.Nodup) :
    (∀ h, h ∈ T → h ∈ v) ↔ v = T := by
  constructor
  · intro hall
    apply hsub.eq_of_length_le
    exact (List.subperm_of_subset hnd (fun a ha => hall a ha)).length_le
  · intro e h hh
    rw [e]
    exact hh

/-- C11 (amended): `BallotTransactionsAllValid` never returns an error; after
the valid list was set to `v` by an earlier stage it sets the vote to YES if
and only if every hash of the ballot's list `Transactions` occurs in `v`, and
to NO otherwise; when `v` is a sub-list of `Transactions` and `Transactions`
has no hash twice, that is the same as `v = Transactions`. -/
theorem BallotTransactionsAllValid_iff (c : BallotTransactionChecker) (v : List String) :
    (BallotTransactionsAllValid c).2 = none ∧
    (BallotTransactionsAllValid (c.setValidTransactions v)).2 = none ∧
    ((BallotTransactionsAllValid (c.setValidTransactions v)).1.VotingHole = Hole.YES ↔
      ∀ h, h ∈ c.Transactions → h ∈ v) ∧
    ((BallotTransactionsAllValid (c.setValidTransactions v)).1.VotingHole = Hole.NO ↔
      ¬ ∀ h, h ∈ c.Transactions → h ∈ v) ∧
    (v.Sublist c.Transactions → c.Transactions.Nodup →
      ((BallotTransactionsAllValid (c.setValidTransactions v)).1.VotingHole = Hole.YES ↔
        (c.setValidTransactions v).ValidTransactions = c.Transactions)) := by
  have hv := BallotTransactionsAllValid_vote (c.setValidTransactions v)
  have hfound : (∀ h, h ∈ (c.setValidTransactions v).Transactions →
      (c.setValidTransactions v).validTransactionsMap.found h = true) ↔
      ∀ h, h ∈ c.Transactions → h ∈ v := by
    apply forall_congr'
    intro h
    apply imp_congr Iff.rfl
    exact setValidTransactions_found c v h
  rw [hfound] at hv
  have hyes : (BallotTransactionsAllValid (c.setValidTransactions v)).1.VotingHole = Hole.YES ↔
      ∀ h, h ∈ c.Transactions → h ∈ v := by
    rcases hv.2 with ⟨a, b⟩ | ⟨a, b⟩
    · exact ⟨fun _ => b, fun _ => a⟩
    · constructor
      · intro hy
        rw [a] at hy
        cases hy
      · intro hall
        exact absurd hall b
  have hno : (BallotTransactionsAllValid (c.setValidTransactions v)).1.VotingHole = Hole.NO ↔
      ¬ ∀ h, h ∈ c.Transactions → h ∈ v := by
    rcases hv.2 with ⟨a, b⟩ | ⟨a, b⟩
    · constructor
      · intro hn
        rw [a] at hn
        cases hn
      · intro hnall
        exact absurd b hnall
    · exact ⟨fun _ => b, fun _ => a⟩
  refine ⟨(BallotTransactionsAllValid_vote c).1, hv.1, hyes, hno, ?_⟩
  intro hsub hnd
  rw [hyes]
  exact all_mem_iff_eq_of_sublist v c.Transactions hsub hnd

/-- Witness of C11 (amended): of the ballot hashes `h1`, `h2` only `h1`
survived, so the vote is NO. -/
theorem BallotTransactionsAllValid_iff_witness :
    (BallotTransactionsAllValid
      ((sampleChecker NewPool ["h1", "h2"] 0).setValidTransactions ["h1"])).1.VotingHole
        = Hole.NO ∧
    ¬ ((BallotTransactionsAllValid
      ((sampleChecker NewPool ["h1", "h2"] 0).setValidTransactions ["h1"])).1.VotingHole
        = Hole.YES) :=
  ⟨(BallotTransactionsAllValid_iff (sampleChecker NewPool ["h1", "h2"] 0) ["h1"]).2.2.2.1.mpr
      (by decide),
   fun hy => absurd
     (((BallotTransactionsAllValid_iff (sampleChecker NewPool ["h1", "h2"] 0) ["h1"]).2.2.2.2
        (by decide) (by decide)).mp hy) (by decide)⟩

/-- Counterexample to C11 as stated: a ballot lists the hash `h1` twice; the
transaction is in the pool and valid and the collected fee matches. The chain
ends without error, the same-source stage has dropped the second occurrence,
so the surviving list `ValidTransactions` differs from `Transactions`, and the
vote is YES. -/
theorem BallotTransactionsAllValid_duplicate_hash :
    (RunChecker (ballotTransactionCheckerFuncs sampleCommon)
      (sampleChecker (Pool.run [PoolCall.Add (sampleTxOps "h1" 1 5 [samplePayment "T1" 50])])
        ["h1", "h1"] 2)).2 = none ∧
    (RunChecker (ballotTransactionCheckerFuncs sampleCommon)
      (sampleChecker (Pool.run [PoolCall.Add (sampleTxOps "h1" 1 5 [samplePayment "T1" 50])])
        ["h1", "h1"] 2)).1.Transactions = ["h1", "h1"] ∧
    (RunChecker (ballotTransactionCheckerFuncs sampleCommon)
      (sampleChecker (Pool.run [PoolCall.Add (sampleTxOps "h1" 1 5 [samplePayment "T1" 50])])
        ["h1", "h1"] 2)).1.ValidTransactions = ["h1"] ∧
    (RunChecker (ballotTransactionCheckerFuncs sampleCommon)
      (sampleChecker (Pool.run [PoolCall.Add (sampleTxOps "h1" 1 5 [samplePayment "T1" 50])])
        ["h1", "h1"] 2)).1.ValidTransactions ≠
    (RunChecker (ballotTransactionCheckerFuncs sampleCommon)
      (sampleChecker (Pool.run [PoolCall.Add (sampleTxOps "h1" 1 5 [samplePayment "T1" 50])])
        ["h1", "h1"] 2)).1.Transactions ∧
    (RunChecker (ballotTransactionCheckerFuncs sampleCommon)
      (sampleChecker (Pool.run [PoolCall.Add (sampleTxOps "h1" 1 5 [samplePayment "T1" 50])])
        ["h1", "h1"] 2)).1.VotingHole = Hole.YES := by
  decide

theorem collectFeeLoop_all (pool : Pool) (l : List String) (fee : Nat)
    (h : ∀ x, x ∈ l → pool.Has x = true) :
    collectFeeLoop pool l fee = some (fee + (l.map (fun x => (pool.Get x).1.B.Fee)).sum) := by
  induction l generalizing fee with
  | nil => simp [collectFeeLoop]
  | cons y t ih =>
    have hy : y ∈ pool.Pool_ := (Pool.Has_iff _ _).mp (h y (List.mem_cons_self _ _))
    cases hl : AList.lookup y pool.Pool_ with
    | none => exact absurd hy (AList.lookup_eq_none.mp hl)
    | some tx =>
      have hget : pool.Get y = (tx, true) := Pool.Get_of_lookup _ _ _ hl
      unfold collectFeeLoop
      rw [hget]
      dsimp only
      rw [ih _ (fun x hx => h x (List.mem_cons_of_mem _ hx))]
      simp only [List.map_cons, List.sum_cons, hget]
      congr 1
      omega

/-- C12: for a checker whose transaction list is the ballot's, whose referenced
transactions are all in the local pool and whose proposer-transaction carries a
CollectTxFee operation, `BallotTransactionsOperationBodyCollectTxFee` succeeds
if and only if the CollectTxFee amount equals the sum of the fees of the listed
transactions; with no transaction it fails with `InvalidOperation` when the
amount is not 0, and with transactions a mismatch gives `InvalidFee`. The fees
are added as `MustAdd` adds them when it does not overflow. -/
theorem CollectTxFee_amount_iff (c : BallotTransactionChecker) (opb : CollectTxFee)
    (hp : c.Ballot.ProposerCollectTxFee = Except.ok opb)
    (hb : c.Ballot.Transactions = c.Transactions)
    (hall : ∀ h, h ∈ c.Transactions → c.NodeRunner.TransactionPool.Has h = true) :
    ((BallotTransactionsOperationBodyCollectTxFee c).2 = none ↔
        opb.Amount =
          (c.Transactions.map (fun h => (c.NodeRunner.TransactionPool.Get h).1.B.Fee)).sum) ∧
      (c.Transactions = [] →
        ((BallotTransactionsOperationBodyCollectTxFee c).2 = none ↔ opb.Amount = 0) ∧
        (opb.Amount ≠ 0 →
          (BallotTransactionsOperationBodyCollectTxFee c).2 = some Error.InvalidOperation)) ∧
      (c.Transactions ≠ [] →
        opb.Amount ≠
          (c.Transactions.map (fun h => (c.NodeRunner.TransactionPool.Get h).1.B.Fee)).sum →
        (BallotTransactionsOperationBodyCollectTxFee c).2 = some Error.InvalidFee) := by
  have hloop := collectFeeLoop_all c.NodeRunner.TransactionPool c.Transactions 0 hall
  rw [Nat.zero_add] at hloop
  by_cases hnil : c.Transactions = []
  · have hlen : c.Ballot.TransactionsLength < 1 := by
      unfold Ballot.TransactionsLength
      rw [hb, hnil]
      decide
    have hval : (BallotTransactionsOperationBodyCollectTxFee c).2 =
        if opb.Amount ≠ 0 then some Error.InvalidOperation else none := by
      unfold BallotTransactionsOperationBodyCollectTxFee
      rw [hp]
      dsimp only
      rw [if_pos hlen]
      split <;> rfl
    have hiff : (BallotTransactionsOperationBodyCollectTxFee c).2 = none ↔ opb.Amount = 0 := by
      rw [hval]
      by_cases h0 : opb.Amount = 0
      · simp [h0]
      · simp [h0]
    refine ⟨?_, ?_, ?_⟩
    · rw [hiff, hnil]
      simp
    · intro _
      refine ⟨hiff, ?_⟩
      intro h0
      rw [hval, if_pos h0]
    · intro hne
      exact absurd hnil hne
  · have hlen : ¬ c.Ballot.TransactionsLength < 1 := by
      unfold Ballot.TransactionsLength
      rw [hb]
      have : c.Transactions.length ≠ 0 := fun h => hnil (List.length_eq_zero.mp h)
      omega
    have hval : (BallotTransactionsOperationBodyCollectTxFee c).2 =
        if opb.Amount ≠
          (c.Transactions.map (fun h => (c.NodeRunner.TransactionPool.Get h).1.B.Fee)).sum
        then some Error.InvalidFee else none := by
      unfold BallotTransactionsOperationBodyCollectTxFee
      rw [hp]
      dsimp only
      rw [if_neg hlen, hloop]
      dsimp only
      split <;> rfl
    refine ⟨?_, ?_, ?_⟩
    · rw [hval]
      by_cases h0 : opb.Amount =
          (c.Transactions.map (fun h => (c.NodeRunner.TransactionPool.Get h).1.B.Fee)).sum
      · simp [h0]
      · simp [h0]
    · intro h
      exact absurd h hnil
    · intro _ hne
      rw [hval, if_pos hne]

/-- Witness of C12: two pooled transactions with fees 1 and 2; a collected
amount of 3 passes, one of 4 gives `InvalidFee`; an empty ballot with amount 1
gives `InvalidOperation`. -/
theorem CollectTxFee_amount_iff_witness :
    (BallotTransactionsOperationBodyCollectTxFee
      (sampleChecker (Pool.run [PoolCall.Add (sampleTx "h1" "S1" 1 0),
        PoolCall.Add (sampleTx "h2" "S2" 2 0)]) ["h1", "h2"] 3)).2 = none ∧
    (BallotTransactionsOperationBodyCollectTxFee
      (sampleChecker (Pool.run [PoolCall.Add (sampleTx "h1" "S1" 1 0),
        PoolCall.Add (sampleTx "h2" "S2" 2 0)]) ["h1", "h2"] 4)).2 = some Error.InvalidFee ∧
    (BallotTransactionsOperationBodyCollectTxFee (sampleChecker NewPool [] 1)).2 =
      some Error.InvalidOperation :=
  ⟨(CollectTxFee_amount_iff
      (sampleChecker (Pool.run [PoolCall.Add (sampleTx "h1" "S1" 1 0),
        PoolCall.Add (sampleTx "h2" "S2" 2 0)]) ["h1", "h2"] 3) { Amount := 3 } rfl rfl
      (by decide)).1.mpr (by decide),
   (CollectTxFee_amount_iff
      (sampleChecker (Pool.run [PoolCall.Add (sampleTx "h1" "S1" 1 0),
        PoolCall.Add (sampleTx "h2" "S2" 2 0)]) ["h1", "h2"] 4) { Amount := 4 } rfl rfl
      (by decide)).2.2 (by decide) (by decide),
   ((CollectTxFee_amount_iff (sampleChecker NewPool [] 1) { Amount := 1 } rfl rfl
      (by decide)).2.1 rfl).2 (by decide)⟩

/-! ## `ValidateTx` and the storage -/

/-- C20: evaluation at the failing input. The storage holds the history marker
of `h1`; the transaction `h1` passes the account, sequence-id and balance
checks and its payment to a missing account is rejected by `ValidateOp`;
afterwards the history marker is gone: `ValidateTx` has written to the
storage. -/
theorem ValidateTx_writes_storage :
    sampleStorage.history "h1" = some TransactionHistoryStatus.Submitted ∧
    (ValidateTx sampleCommon sampleStorage
      (sampleTxOps "h1" 1 5 [samplePayment "nobody" 50])).2 =
        some Error.BlockAccountDoesNotExists ∧
    (ValidateTx sampleCommon sampleStorage
      (sampleTxOps "h1" 1 5 [samplePayment "nobody" 50])).1.history "h1" = none ∧
    (ValidateTx sampleCommon sampleStorage
      (sampleTxOps "h1" 1 5 [samplePayment "nobody" 50])).1 ≠ sampleStorage := by
  refine ⟨by decide, by decide, by decide, ?_⟩
  intro h
  have h1 := congrArg (fun s => s.history "h1") h
  revert h1
  decide

theorem validateOperations_storage (cfg : Common) (st : Storage) (ba : BlockAccount)
    (hash : String) (ops : List Operation) :
    ((∃ op, op ∈ ops ∧ ValidateOp cfg st ba op ≠ none) →
        (validateOperations cfg st ba hash ops).1 =
          st.Remove (GetBlockTransactionHistoryKey hash) ∧
        (validateOperations cfg st ba hash ops).2 ≠ none) ∧
      ((∀ op, op ∈ ops → ValidateOp cfg st ba op = none) →
        validateOperations cfg st ba hash ops = (st, none)) := by
  constructor
  · rintro ⟨op, hop, hne⟩
    rcases validateOperations_result cfg st ba hash ops with ⟨_, h2⟩ | ⟨_, _, _, e, _, _, _, h4⟩
    · exact absurd (h2 op hop) hne
    · rw [h4]
      exact ⟨rfl, by simp⟩
  · intro h
    exact validateOperations_all_pass cfg st ba hash ops h

/-- C21: `ValidateTx` removes the history marker stored under the hash of the
transaction exactly when the account, sequence-id, snapshot and balance checks
pass and some operation fails `ValidateOp`; the removal changes no other key;
when the transaction is rejected for a missing source, an invalid sequence-id,
a missing snapshot or an insufficient balance, and when it is accepted, the
storage is left as it was. -/
theorem ValidateTx_history_marker (cfg : Common) (st : Storage) (tx : Transaction) :
    ((∃ ba bac, GetBlockAccount st tx.B.Source = Except.ok ba ∧
          tx.IsValidSequenceID ba.SequenceID = true ∧
          GetBlockAccountSequenceID st tx.B.Source tx.B.SequenceID = Except.ok bac ∧
          tx.TotalAmount true ≤ bac.Balance ∧
          ∃ op, op ∈ tx.B.Operations ∧ ValidateOp cfg st ba op ≠ none) →
        (ValidateTx cfg st tx).1 = st.Remove (GetBlockTransactionHistoryKey tx.H.Hash) ∧
        (ValidateTx cfg st tx).2 ≠ none) ∧
    (¬ (∃ ba bac, GetBlockAccount st tx.B.Source = Except.ok ba ∧
          tx.IsValidSequenceID ba.SequenceID = true ∧
          GetBlockAccountSequenceID st tx.B.Source tx.B.SequenceID = Except.ok bac ∧
          tx.TotalAmount true ≤ bac.Balance ∧
          ∃ op, op ∈ tx.B.Operations ∧ ValidateOp cfg st ba op ≠ none) →
        (ValidateTx cfg st tx).1 = st) ∧
    ((st.Remove (GetBlockTransactionHistoryKey tx.H.Hash)).history tx.H.Hash = none ∧
      (∀ h, h ≠ tx.H.Hash →
        (st.Remove (GetBlockTransactionHistoryKey tx.H.Hash)).history h = st.history h) ∧
      (st.Remove (GetBlockTransactionHistoryKey tx.H.Hash)).accounts = st.accounts ∧
      (st.Remove (GetBlockTransactionHistoryKey tx.H.Hash)).accountsAtSequence =
        st.accountsAtSequence ∧
      (st.Remove (GetBlockTransactionHistoryKey tx.H.Hash)).blockTransactions =
        st.blockTransactions ∧
      (st.Remove (GetBlockTransactionHistoryKey tx.H.Hash)).operationsBySource =
        st.operationsBySource ∧
      (st.Remove (GetBlockTransactionHistoryKey tx.H.Hash)).latestBlock = st.latestBlock ∧
      (st.Remove (GetBlockTransactionHistoryKey tx.H.Hash)).transactionPool =
        st.transactionPool) ∧
    ((∀ e, GetBlockAccount st tx.B.Source = Except.error e → (ValidateTx cfg st tx).1 = st) ∧
      (∀ ba, GetBlockAccount st tx.B.Source = Except.ok ba →
        tx.IsValidSequenceID ba.SequenceID = false → (ValidateTx cfg st tx).1 = st) ∧
      (∀ ba e, GetBlockAccount st tx.B.Source = Except.ok ba →
        GetBlockAccountSequenceID st tx.B.Source tx.B.SequenceID = Except.error e →
        (ValidateTx cfg st tx).1 = st) ∧
      (∀ ba bac, GetBlockAccount st tx.B.Source = Except.ok ba →
        GetBlockAccountSequenceID st tx.B.Source tx.B.SequenceID = Except.ok bac →
        bac.Balance < tx.TotalAmount true → (ValidateTx cfg st tx).1 = st) ∧
      ((ValidateTx cfg st tx).2 = none → (ValidateTx cfg st tx).1 = st)) := by
  have hfail : (∃ ba bac, GetBlockAccount st tx.B.Source = Except.ok ba ∧
          tx.IsValidSequenceID ba.SequenceID = true ∧
          GetBlockAccountSequenceID st tx.B.Source tx.B.SequenceID = Except.ok bac ∧
          tx.TotalAmount true ≤ bac.Balance ∧
          ∃ op, op ∈ tx.B.Operations ∧ ValidateOp cfg st ba op ≠ none) →
        (ValidateTx cfg st tx).1 = st.Remove (GetBlockTransactionHistoryKey tx.H.Hash) ∧
        (ValidateTx cfg st tx).2 ≠ none := by
    rintro ⟨ba, bac, h1, h2, h3, h4, hop⟩
    rw [ValidateTx_of_checks cfg st tx ba bac h1 h2 h3, if_neg (by omega)]
    exact (validateOperations_storage cfg st ba tx.H.Hash tx.B.Operations).1 hop
  have hkeep : ¬ (∃ ba bac, GetBlockAccount st tx.B.Source = Except.ok ba ∧
          tx.IsValidSequenceID ba.SequenceID = true ∧
          GetBlockAccountSequenceID st tx.B.Source tx.B.SequenceID = Except.ok bac ∧
          tx.TotalAmount true ≤ bac.Balance ∧
          ∃ op, op ∈ tx.B.Operations ∧ ValidateOp cfg st ba op ≠ none) →
        (ValidateTx cfg st tx).1 = st := by
    intro hn
    cases h1 : GetBlockAccount st tx.B.Source with
    | error e => simp [ValidateTx, h1]
    | ok ba =>
      cases h2 : tx.IsValidSequenceID ba.SequenceID with
      | false => simp [ValidateTx, h1, h2]
      | true =>
        cases h3 : GetBlockAccountSequenceID st tx.B.Source tx.B.SequenceID with
        | error e => simp [ValidateTx, h1, h2, h3]
        | ok bac =>
          rw [ValidateTx_of_checks cfg st tx ba bac h1 h2 h3]
          by_cases h4 : bac.Balance < tx.TotalAmount true
          · rw [if_pos h4]
          · rw [if_neg h4, validateOperations_all_pass cfg st ba tx.H.Hash tx.B.Operations]
            intro o ho
            by_contra hno
            exact hn ⟨ba, bac, h1, h2, h3, by omega, o, ho, hno⟩
  refine ⟨hfail, hkeep, ?_, ?_⟩
  · refine ⟨?_, ?_, rfl, rfl, rfl, rfl, rfl, rfl⟩
    · simp [Storage.Remove, GetBlockTransactionHistoryKey]
    · intro h hne
      simp [Storage.Remove, GetBlockTransactionHistoryKey, hne]
  · refine ⟨?_, ?_, ?_, ?_, ?_⟩
    · intro e h1
      simp [ValidateTx, h1]
    · intro ba h1 h2
      simp [ValidateTx, h1, h2]
    · intro ba e h1 h3
      apply hkeep
      rintro ⟨ba2, bac, g1, _, g3, _⟩
      rw [h3] at g3
      cases g3
    · intro ba bac h1 h3 h4
      apply hkeep
      rintro ⟨ba2, bac2, g1, _, g3, g4, _⟩
      rw [h3] at g3
      cases g3
      omega
    · intro hn
      rcases ValidateTx_storage cfg st tx with h | ⟨_, hne⟩
      · exact h
      · exact absurd hn hne

/-- Witness of C21: the transaction `h1` (marker in storage) with a payment to
a missing account loses its marker; with a sequence-id that is not the
account's it keeps it. -/
theorem ValidateTx_history_marker_witness :
    (ValidateTx sampleCommon sampleStorage
      (sampleTxOps "h1" 1 5 [samplePayment "nobody" 50])).1 =
        sampleStorage.Remove (GetBlockTransactionHistoryKey "h1") ∧
    (ValidateTx sampleCommon sampleStorage
      (sampleTxOps "h1" 1 4 [samplePayment "nobody" 50])).1 = sampleStorage :=
  ⟨((ValidateTx_history_marker sampleCommon sampleStorage
      (sampleTxOps "h1" 1 5 [samplePayment "nobody" 50])).1
      ⟨{ Address := "S1", Balance := 200, SequenceID := 5, Linked := "" },
       { SequenceID := 5, Address := "S1", Balance := 200 }, rfl, rfl, rfl, by decide,
       samplePayment "nobody" 50, List.mem_cons_self _ _, by decide⟩).1,
   (ValidateTx_history_marker sampleCommon sampleStorage
      (sampleTxOps "h1" 1 4 [samplePayment "nobody" 50])).2.2.2.2.1
      { Address := "S1", Balance := 200, SequenceID := 5, Linked := "" } rfl rfl⟩

/-! ## What `Remove` leaves alone -/

theorem Pool.foldl_removeOne_lookup (hashes : List String) (tp : Pool) (h : String)
    (hn : h ∉ hashes) :
    AList.lookup h (hashes.foldl Pool.removeOne tp).Pool_ = AList.lookup h tp.Pool_ := by
  induction hashes generalizing tp with
  | nil => rfl
  | cons x t ih =>
    have hx : h ≠ x := fun e => hn (e ▸ List.mem_cons_self _ _)
    have ht : h ∉ t := fun hm => hn (List.mem_cons_of_mem _ hm)
    rw [List.foldl_cons, ih _ ht, Pool.removeOne_lookup_ne tp x h hx]

theorem Pool.removeOne_hashes_filter (tp : Pool) (x : String) (inv : tp.Mirrored) :
    (tp.removeOne x).hashes = tp.hashes.filter (fun h => decide (h ≠ x)) := by
  cases hl : AList.lookup x tp.Pool_ with
  | none =>
    have hx : x ∉ tp.Pool_ := AList.lookup_eq_none.mp hl
    rw [Pool.removeOne_of_not_mem tp x hx]
    symm
    rw [List.filter_eq_self]
    intro a ha
    have : a ≠ x := fun e => hx ((inv.2 x).mp (e ▸ ha))
    simpa using this
  | some tx =>
    rw [Pool.removeOne_of_lookup tp x tx hl]
    show tp.hashes.erase x = _
    rw [inv.1.erase_eq_filter]
    apply List.filter_congr
    intro a _
    by_cases e : a = x
    · simp [e]
    · simp [e, bne_iff_ne]

theorem Pool.foldl_removeOne_hashes (hashes : List String) (tp : Pool) (inv : tp.Mirrored) :
    (hashes.foldl Pool.removeOne tp).hashes =
      tp.hashes.filter (fun h => decide (h ∉ hashes)) := by
  induction hashes generalizing tp with
  | nil => simp
  | cons x t ih =>
    rw [List.foldl_cons, ih _ (Pool.Mirrored_removeOne tp x inv),
      Pool.removeOne_hashes_filter tp x inv, List.filter_filter]
    apply List.filter_congr
    intro a _
    simp only [List.mem_cons, not_or, Bool.decide_and, Bool.and_comm]

theorem Pool.foldl_removeOne_absent (hashes : List String) (tp : Pool)
    (h : ∀ x, x ∈ hashes → x ∉ tp.Pool_) : hashes.foldl Pool.removeOne tp = tp := by
  induction hashes generalizing tp with
  | nil => rfl
  | cons x t ih =>
    rw [List.foldl_cons, Pool.removeOne_of_not_mem tp x (h x (List.mem_cons_self _ _))]
    exact ih tp (fun y hy => h y (List.mem_cons_of_mem _ hy))

/-- C30: on a reachable pool, `Remove(hs)` leaves every transaction whose hash
is not in `hs` stored under the same hash with the same value, keeps the
remaining hashes of the hash sequence in their order (the sequence afterwards
is the old one without the hashes of `hs`), ignores a hash of `hs` that is not
in the pool, and changes nothing when `hs` is empty or holds no pooled hash. -/
theorem Pool.Remove_frame (calls : List PoolCall) (hs : List String) :
    (∀ h, h ∉ hs → ((Pool.run calls).Remove hs).Get h = (Pool.run calls).Get h) ∧
    ((Pool.run calls).Remove hs).hashes =
      (Pool.run calls).hashes.filter (fun h => decide (h ∉ hs)) ∧
    ((Pool.run calls).Remove hs).hashes.Sublist (Pool.run calls).hashes ∧
    (∀ pre post h, hs = pre ++ h :: post → (Pool.run calls).Has h = false →
      (Pool.run calls).Remove hs = (Pool.run calls).Remove (pre ++ post)) ∧
    ((∀ h, h ∈ hs → (Pool.run calls).Has h = false) →
      (Pool.run calls).Remove hs = Pool.run calls) ∧
    (Pool.run calls).Remove [] = Pool.run calls := by
  have inv := Pool.Mirrored_run calls
  refine ⟨?_, ?_, Pool.Remove_hashes_sublist _ hs, ?_, ?_, ?_⟩
  · intro h hn
    have hl := Pool.foldl_removeOne_lookup hs (Pool.run calls) h hn
    rw [Pool.Remove_eq_foldl]
    unfold Pool.Get
    rw [hl]
  · rw [Pool.Remove_eq_foldl]
    exact Pool.foldl_removeOne_hashes hs _ inv
  · intro pre post h e hh
    rw [e, Pool.Remove_eq_foldl, Pool.Remove_eq_foldl, List.foldl_append, List.foldl_append,
      List.foldl_cons]
    have hnot : h ∉ (pre.foldl Pool.removeOne (Pool.run calls)).Pool_ := fun hm =>
      (Pool.Has_eq_false_iff _ _).mp hh (Pool.foldl_removeOne_mem_pool pre _ h hm)
    rw [Pool.removeOne_of_not_mem _ h hnot]
  · intro hall
    rw [Pool.Remove_eq_foldl]
    exact Pool.foldl_removeOne_absent hs _ (fun x hx => (Pool.Has_eq_false_iff _ _).mp (hall x hx))
  · rfl

/-- Witness of C30: `h1`, `h2`, `h3` are pooled and `h2` is removed together
with the unknown hash `h9`. -/
theorem Pool.Remove_frame_witness :
    ((Pool.run [PoolCall.Add (sampleTx "h1" "S1" 1 0), PoolCall.Add (sampleTx "h2" "S2" 1 0),
      PoolCall.Add (sampleTx "h3" "S3" 1 0)]).Remove ["h9", "h2"]).Get "h3" =
    (Pool.run [PoolCall.Add (sampleTx "h1" "S1" 1 0), PoolCall.Add (sampleTx "h2" "S2" 1 0),
      PoolCall.Add (sampleTx "h3" "S3" 1 0)]).Get "h3" ∧
    ((Pool.run [PoolCall.Add (sampleTx "h1" "S1" 1 0), PoolCall.Add (sampleTx "h2" "S2" 1 0),
      PoolCall.Add (sampleTx "h3" "S3" 1 0)]).Remove ["h9", "h2"]).hashes = ["h1", "h3"] ∧
    (Pool.run [PoolCall.Add (sampleTx "h1" "S1" 1 0), PoolCall.Add (sampleTx "h2" "S2" 1 0),
      PoolCall.Add (sampleTx "h3" "S3" 1 0)]).Remove ["h9", "h2"] =
    (Pool.run [PoolCall.Add (sampleTx "h1" "S1" 1 0), PoolCall.Add (sampleTx "h2" "S2" 1 0),
      PoolCall.Add (sampleTx "h3" "S3" 1 0)]).Remove ([] ++ ["h2"]) ∧
    (Pool.run [PoolCall.Add (sampleTx "h1" "S1" 1 0), PoolCall.Add (sampleTx "h2" "S2" 1 0),
      PoolCall.Add (sampleTx "h3" "S3" 1 0)]).Remove ["h9", "h8"] =
    Pool.run [PoolCall.Add (sampleTx "h1" "S1" 1 0), PoolCall.Add (sampleTx "h2" "S2" 1 0),
      PoolCall.Add (sampleTx "h3" "S3" 1 0)] :=
  ⟨(Pool.Remove_frame [PoolCall.Add (sampleTx "h1" "S1" 1 0),
      PoolCall.Add (sampleTx "h2" "S2" 1 0), PoolCall.Add (sampleTx "h3" "S3" 1 0)]
      ["h9", "h2"]).1 "h3" (by decide),
   by decide,
   (Pool.Remove_frame [PoolCall.Add (sampleTx "h1" "S1" 1 0),
      PoolCall.Add (sampleTx "h2" "S2" 1 0), PoolCall.Add (sampleTx "h3" "S3" 1 0)]
      ["h9", "h2"]).2.2.2.1 [] ["h2"] "h9" rfl (by decide),
   (Pool.Remove_frame [PoolCall.Add (sampleTx "h1" "S1" 1 0),
      PoolCall.Add (sampleTx "h2" "S2" 1 0), PoolCall.Add (sampleTx "h3" "S3" 1 0)]
      ["h9", "h8"]).2.2.2.2.1 (by decide)⟩

/-! ## `IsNew` -/

theorem isNewLoop_only (st : Storage) (l acc : List String) :
    isNewLoop st true l acc = some (acc ++ l.filter (fun x => !(st.blockTransactions x))) := by
  induction l generalizing acc with
  | nil => simp [isNewLoop]
  | cons y t ih =>
    unfold isNewLoop
    cases hy : st.blockTransactions y
    · simp [ExistsBlockTransaction, hy, ih]
    · simp [ExistsBlockTransaction, hy, ih]

theorem isNewLoop_strict_none (st : Storage) (l acc : List String)
    (h : ∃ x, x ∈ l ∧ st.blockTransactions x = true) : isNewLoop st false l acc = none := by
  induction l generalizing acc with
  | nil =>
    obtain ⟨x, hx, _⟩ := h
    simp at hx
  | cons y t ih =>
    unfold isNewLoop
    cases hy : st.blockTransactions y
    · simp only [ExistsBlockTransaction, hy, ne_eq, not_true_eq_false, Bool.false_eq_true,
        or_self, if_false]
      apply ih
      obtain ⟨x, hx, hs⟩ := h
      rcases List.mem_cons.mp hx with e | hm
      · rw [e, hy] at hs
        cases hs
      · exact ⟨x, hm, hs⟩
    · simp [ExistsBlockTransaction, hy]

theorem isNewLoop_strict_some (st : Storage) (l acc : List String)
    (h : ∀ x, x ∈ l → st.blockTransactions x = false) :
    isNewLoop st false l acc = some (acc ++ l) := by
  induction l generalizing acc with
  | nil => simp [isNewLoop]
  | cons y t ih =>
    unfold isNewLoop
    have hy : st.blockTransactions y = false := h y (List.mem_cons_self _ _)
    simp only [ExistsBlockTransaction, hy, ne_eq, not_true_eq_false, Bool.false_eq_true,
      or_self, if_false]
    rw [ih _ (fun x hx => h x (List.mem_cons_of_mem _ hx))]
    simp

/-- C24 (amended): in check-transactions-only mode `IsNew` returns no error and
sets `ValidTransactions` to the sub-list of `Transactions`, in the original
order, whose hashes are not stored as block transactions; outside that mode it
does the same when no hash is stored, and returns `NewButKnownMessage` without
touching the checker when some hash of the list is stored in a block. -/
theorem IsNew_narrows (c : BallotTransactionChecker) :
    (c.CheckTransactionsOnly = true →
      IsNew c = (c.setValidTransactions (c.Transactions.filter
        (fun h => !(ExistsBlockTransaction c.NodeRunner.Storage_ h).1)), none)) ∧
    (c.CheckTransactionsOnly = false →
      (∀ h, h ∈ c.Transactions → (ExistsBlockTransaction c.NodeRunner.Storage_ h).1 = false) →
      IsNew c = (c.setValidTransactions c.Transactions, none)) ∧
    (c.CheckTransactionsOnly = false →
      (∃ h, h ∈ c.Transactions ∧ (ExistsBlockTransaction c.NodeRunner.Storage_ h).1 = true) →
      IsNew c = (c, some Error.NewButKnownMessage)) ∧
    (c.Transactions.filter
      (fun h => !(ExistsBlockTransaction c.NodeRunner.Storage_ h).1)).Sublist c.Transactions := by
  refine ⟨?_, ?_, ?_, List.filter_sublist _⟩
  · intro ho
    unfold IsNew
    rw [ho, isNewLoop_only]
    simp [ExistsBlockTransaction]
  · intro ho hall
    unfold IsNew
    rw [ho, isNewLoop_strict_some _ _ _ hall]
    simp
  · intro ho hex
    unfold IsNew
    rw [ho, isNewLoop_strict_none _ _ _ hex]

/-- Witness of C24 (amended): of the hashes `h1`, `hb`, `h2`, the second being
stored in a block, the check-only mode keeps `h1` and `h2`. -/
theorem IsNew_narrows_witness :
    (IsNew (storedChecker ["h1", "hb", "h2"] true)).2 = none ∧
    (IsNew (storedChecker ["h1", "hb", "h2"] true)).1.ValidTransactions = ["h1", "h2"] ∧
    IsNew (storedChecker ["h1", "hb", "h2"] false) =
      (storedChecker ["h1", "hb", "h2"] false, some Error.NewButKnownMessage) :=
  ⟨by rw [(IsNew_narrows (storedChecker ["h1", "hb", "h2"] true)).1 rfl],
   by rw [(IsNew_narrows (storedChecker ["h1", "hb", "h2"] true)).1 rfl]; decide,
   (IsNew_narrows (storedChecker ["h1", "hb", "h2"] false)).2.2.1 rfl
     ⟨"hb", by decide, by decide⟩⟩

/-- Counterexample to C24 as stated: outside check-transactions-only mode, with
the hash `hb` stored in a block, `IsNew` returns `NewButKnownMessage` and does
not set `ValidTransactions` to the narrowed list. -/
theorem IsNew_returns_known :
    (IsNew (storedChecker ["h1", "hb", "h2"] false)).2 = some Error.NewButKnownMessage ∧
    (IsNew (storedChecker ["h1", "hb", "h2"] false)).1.ValidTransactions = [] ∧
    (storedChecker ["h1", "hb", "h2"] false).Transactions.filter
      (fun h => !(ExistsBlockTransaction storedStorage h).1) = ["h1", "h2"] := by
  decide

/-! ## The transaction ingress chain -/

theorem unfreezingCheck_ne_known (cfg : Common) (st : Storage) (source : BlockAccount) :
    unfreezingCheck cfg st source ≠ some Error.NewButKnownMessage := by
  unfold unfreezingCheck
  simp only
  split
  · simp
  · split <;> simp

theorem AmountSub_ne_known (cfg : Common) (a sub : Nat) :
    (AmountSub cfg a sub).2 ≠ some Error.NewButKnownMessage := by
  unfold AmountSub
  split <;> simp

theorem ValidateOp_ne_known (cfg : Common) (st : Storage) (source : BlockAccount)
    (op : Operation) : ValidateOp cfg st source op ≠ some Error.NewButKnownMessage := by
  have hu := unfreezingCheck_ne_known cfg st source
  have hs := AmountSub_ne_known cfg source.Balance cfg.BaseFee
  unfold ValidateOp
  dsimp only [ExistsBlockAccount]
  repeat' split
  all_goals first
    | exact hs
    | (intro h; simp_all)

theorem ValidateTx_ne_known (cfg : Common) (st : Storage) (tx : Transaction) :
    (ValidateTx cfg st tx).2 ≠ some Error.NewButKnownMessage := by
  cases h1 : GetBlockAccount st tx.B.Source with
  | error e => simp [ValidateTx, h1]
  | ok ba =>
    cases h2 : tx.IsValidSequenceID ba.SequenceID with
    | false => simp [ValidateTx, h1, h2]
    | true =>
      cases h3 : GetBlockAccountSequenceID st tx.B.Source tx.B.SequenceID with
      | error e =>
        have he : e = Error.StorageRecordDoesNotExist := by
          unfold GetBlockAccountSequenceID at h3
          split at h3
          · cases h3
          · exact (Except.error.inj h3).symm
        simp [ValidateTx, h1, h2, h3, he]
      | ok bac =>
        rw [ValidateTx_of_checks cfg st tx ba bac h1 h2 h3]
        by_cases h4 : bac.Balance < tx.TotalAmount true
        · simp [h4]
        · rw [if_neg h4]
          rcases validateOperations_result cfg st ba tx.H.Hash tx.B.Operations with
            ⟨g1, _⟩ | ⟨_, op, _, e, _, _, g3, g4⟩
          · rw [g1]
            simp
          · rw [g4]
            intro h
            have he : e = Error.NewButKnownMessage := Option.some.inj h
            rw [he] at g3
            exact ValidateOp_ne_known cfg st ba op g3

theorem HasTransaction_known (c : MessageChecker)
    (h : c.TransactionPool.Has c.Transaction_.GetHash = true ∨
      (ExistsBlockTransaction c.Storage_ c.Transaction_.GetHash).1 = true) :
    HasTransaction c = (c, some Error.NewButKnownMessage) := by
  unfold HasTransaction
  by_cases hp : c.TransactionPool.Has c.Transaction_.GetHash = true
  · simp [hp]
  · rcases h with h | h
    · exact absurd h hp
    · simp only [ExistsBlockTransaction] at h
      simp [hp, ExistsBlockTransaction, h]

theorem HasTransaction_fresh (c : MessageChecker)
    (hp : c.TransactionPool.Has c.Transaction_.GetHash = false)
    (hb : (ExistsBlockTransaction c.Storage_ c.Transaction_.GetHash).1 = false) :
    HasTransaction c = (c, none) := by
  unfold HasTransaction
  simp only [ExistsBlockTransaction] at hb
  simp [hp, ExistsBlockTransaction, hb]

theorem SaveTransactionHistory_known (c : MessageChecker)
    (h : (ExistsBlockTransactionHistory c.Storage_ c.Transaction_.GetHash).1 = true) :
    SaveTransactionHistory c = (c, some Error.NewButKnownMessage) := by
  unfold SaveTransactionHistory
  simp only [ExistsBlockTransactionHistory] at h
  simp [ExistsBlockTransactionHistory, h]

theorem SaveTransactionHistory_fresh (c : MessageChecker)
    (h : (ExistsBlockTransactionHistory c.Storage_ c.Transaction_.GetHash).1 = false) :
    SaveTransactionHistory c =
      ({ c with Storage_ := (blockSaveTransactionHistory c.Storage_ c.Transaction_
          TransactionHistoryStatus.Submitted).1 }, none) := by
  unfold SaveTransactionHistory
  simp only [ExistsBlockTransactionHistory] at h
  simp [ExistsBlockTransactionHistory, h, blockSaveTransactionHistory]

/-- C22: for an incoming transaction that is already in the pool, already
stored as a block transaction, or already has a history marker, the ingress
chain stops in `HasTransaction` or `SaveTransactionHistory` with the sentinel
`NewButKnownMessage`, and the checker (pool and storage) is as before; the
sentinel is none of the errors `ValidateTx` returns, nor the storage lookup
error, nor the same-source error. -/
theorem ingress_known_transaction (cfg : Common) (c : MessageChecker) :
    (c.TransactionPool.Has c.Transaction_.GetHash = true ∨
        (ExistsBlockTransaction c.Storage_ c.Transaction_.GetHash).1 = true →
      HasTransaction c = (c, some Error.NewButKnownMessage) ∧
      RunChecker (messageCheckerFuncs cfg) c = (c, some Error.NewButKnownMessage)) ∧
    ((ExistsBlockTransactionHistory c.Storage_ c.Transaction_.GetHash).1 = true →
      RunChecker (messageCheckerFuncs cfg) c = (c, some Error.NewButKnownMessage) ∧
      (c.TransactionPool.Has c.Transaction_.GetHash = false →
        (ExistsBlockTransaction c.Storage_ c.Transaction_.GetHash).1 = false →
        HasTransaction c = (c, none) ∧
        SaveTransactionHistory c = (c, some Error.NewButKnownMessage))) ∧
    (∀ st tx, (ValidateTx cfg st tx).2 ≠ some Error.NewButKnownMessage) ∧
    Error.NewButKnownMessage ≠ Error.StorageRecordDoesNotExist ∧
    Error.NewButKnownMessage ≠ Error.TransactionSameSource := by
  have hfirst : c.TransactionPool.Has c.Transaction_.GetHash = true ∨
        (ExistsBlockTransaction c.Storage_ c.Transaction_.GetHash).1 = true →
      RunChecker (messageCheckerFuncs cfg) c = (c, some Error.NewButKnownMessage) := by
    intro h
    unfold messageCheckerFuncs
    rw [RunChecker_cons_error _ _ _ _ _ (HasTransaction_known c h)]
  refine ⟨fun h => ⟨HasTransaction_known c h, hfirst h⟩, ?_, ValidateTx_ne_known cfg,
    by decide, by decide⟩
  intro hh
  constructor
  · by_cases hp : c.TransactionPool.Has c.Transaction_.GetHash = true
    · exact hfirst (Or.inl hp)
    · by_cases hb : (ExistsBlockTransaction c.Storage_ c.Transaction_.GetHash).1 = true
      · exact hfirst (Or.inr hb)
      · unfold messageCheckerFuncs
        rw [RunChecker_cons_ok _ _ _ _ (HasTransaction_fresh c (by simpa using hp)
            (by simpa using hb)),
          RunChecker_cons_error _ _ _ _ _ (SaveTransactionHistory_known c hh)]
  · intro hp hb
    exact ⟨HasTransaction_fresh c hp hb, SaveTransactionHistory_known c hh⟩

/-- Witness of C22: `h0` is in the pool, `hb` is stored in a block, `h1` has a
history marker. -/
theorem ingress_known_transaction_witness :
    RunChecker (messageCheckerFuncs sampleCommon)
        (sampleMessageChecker (Pool.run [PoolCall.Add (sampleTx "h0" "S1" 1 5)]) storedStorage
          (sampleTx "h0" "S1" 1 5)) =
      (sampleMessageChecker (Pool.run [PoolCall.Add (sampleTx "h0" "S1" 1 5)]) storedStorage
          (sampleTx "h0" "S1" 1 5), some Error.NewButKnownMessage) ∧
    RunChecker (messageCheckerFuncs sampleCommon)
        (sampleMessageChecker NewPool storedStorage (sampleTx "hb" "S1" 1 5)) =
      (sampleMessageChecker NewPool storedStorage (sampleTx "hb" "S1" 1 5),
        some Error.NewButKnownMessage) ∧
    RunChecker (messageCheckerFuncs sampleCommon)
        (sampleMessageChecker NewPool storedStorage (sampleTx "h1" "S1" 1 5)) =
      (sampleMessageChecker NewPool storedStorage (sampleTx "h1" "S1" 1 5),
        some Error.NewButKnownMessage) :=
  ⟨((ingress_known_transaction sampleCommon
      (sampleMessageChecker (Pool.run [PoolCall.Add (sampleTx "h0" "S1" 1 5)]) storedStorage
        (sampleTx "h0" "S1" 1 5))).1 (Or.inl (by decide))).2,
   ((ingress_known_transaction sampleCommon
      (sampleMessageChecker NewPool storedStorage (sampleTx "hb" "S1" 1 5))).1
        (Or.inr (by decide))).2,
   ((ingress_known_transaction sampleCommon
      (sampleMessageChecker NewPool storedStorage (sampleTx "h1" "S1" 1 5))).2.1
        (by decide)).1⟩

theorem MessageHasSameSource_error (c : MessageChecker)
    (h : c.TransactionPool.IsSameSource c.Transaction_.Source = true) :
    MessageHasSameSource c = (c, some Error.TransactionSameSource) := by
  simp [MessageHasSameSource, h]

/-- C23 (amended): the pool was filled behind the gate of the ingress chain
and holds a transaction `t1` of source `S1`; the chain (HasTransaction,
SaveTransactionHistory, MessageHasSameSource, MessageValidate,
PushIntoTransactionPool) is run on a transaction of the same source that is
not in the pool, not stored in a block and without a history marker. Then the
first two stages pass, the chain ends with `TransactionSameSource` at
`MessageHasSameSource`, the transaction is not added, the pool is exactly the
pool before, and the storage has gained the history marker of the rejected
transaction and nothing else. -/
theorem ingress_same_source (cfg : Common) (c : MessageChecker) (calls : List PoolCall)
    (t1 : Transaction)
    (hpool : c.TransactionPool = Pool.run calls)
    (hg : NewPool.sourceGated calls = true)
    (h1 : c.TransactionPool.Get t1.GetHash = (t1, true))
    (hs : t1.Source = c.Transaction_.Source)
    (hnp : c.TransactionPool.Has c.Transaction_.GetHash = false)
    (hnb : (ExistsBlockTransaction c.Storage_ c.Transaction_.GetHash).1 = false)
    (hnh : (ExistsBlockTransactionHistory c.Storage_ c.Transaction_.GetHash).1 = false) :
    (RunChecker (messageCheckerFuncs cfg) c).2 = some Error.TransactionSameSource ∧
    (RunChecker (messageCheckerFuncs cfg) c).1.TransactionPool = c.TransactionPool ∧
    (RunChecker (messageCheckerFuncs cfg) c).1.TransactionPool.Has c.Transaction_.GetHash
      = false ∧
    (RunChecker (messageCheckerFuncs cfg) c).1.TransactionPool.Get t1.GetHash = (t1, true) ∧
    (RunChecker (messageCheckerFuncs cfg) c).1.Storage_ =
      (blockSaveTransactionHistory c.Storage_ c.Transaction_
        TransactionHistoryStatus.Submitted).1 ∧
    HasTransaction c = (c, none) ∧
    (SaveTransactionHistory c).2 = none ∧
    MessageHasSameSource (SaveTransactionHistory c).1 =
      ((SaveTransactionHistory c).1, some Error.TransactionSameSource) := by
  have sc := Pool.SourceConsistent_gated calls NewPool Pool.SourceConsistent_new hg
  have hsame : c.TransactionPool.IsSameSource c.Transaction_.Source = true := by
    rw [← hs, Pool.IsSameSource_iff, hpool]
    rw [hpool] at h1
    exact (sc.1 _ _ (Pool.lookup_of_Get _ _ _ h1)).2
  have e1 := HasTransaction_fresh c hnp hnb
  have e2 := SaveTransactionHistory_fresh c hnh
  have e3 : MessageHasSameSource (SaveTransactionHistory c).1 =
      ((SaveTransactionHistory c).1, some Error.TransactionSameSource) := by
    apply MessageHasSameSource_error
    rw [e2]
    exact hsame
  have hrun : RunChecker (messageCheckerFuncs cfg) c =
      ((SaveTransactionHistory c).1, some Error.TransactionSameSource) := by
    unfold messageCheckerFuncs
    rw [RunChecker_cons_ok _ _ _ _ e1]
    have e2b : SaveTransactionHistory c = ((SaveTransactionHistory c).1, none) := by
      rw [e2]
    rw [RunChecker_cons_ok _ _ _ _ e2b, RunChecker_cons_error _ _ _ _ _ e3]
  rw [hrun, e2]
  exact ⟨rfl, rfl, hnp, h1, rfl, e1, rfl, by rw [← e2]; exact e3⟩

/-- Witness of C23 (amended): the pool holds `h0` of source `S1` and the fresh
transaction `h2` of source `S1` arrives. -/
theorem ingress_same_source_witness :
    (RunChecker (messageCheckerFuncs sampleCommon)
      (sampleMessageChecker (Pool.run [PoolCall.Add (sampleTx "h0" "S1" 1 5)]) storedStorage
        (sampleTxOps "h2" 1 5 [samplePayment "T1" 50]))).2 =
      some Error.TransactionSameSource ∧
    (RunChecker (messageCheckerFuncs sampleCommon)
      (sampleMessageChecker (Pool.run [PoolCall.Add (sampleTx "h0" "S1" 1 5)]) storedStorage
        (sampleTxOps "h2" 1 5 [samplePayment "T1" 50]))).1.TransactionPool =
      Pool.run [PoolCall.Add (sampleTx "h0" "S1" 1 5)] :=
  ⟨(ingress_same_source sampleCommon
      (sampleMessageChecker (Pool.run [PoolCall.Add (sampleTx "h0" "S1" 1 5)]) storedStorage
        (sampleTxOps "h2" 1 5 [samplePayment "T1" 50]))
      [PoolCall.Add (sampleTx "h0" "S1" 1 5)] (sampleTx "h0" "S1" 1 5) rfl (by decide)
      (by decide) rfl (by decide) (by decide) (by decide)).1,
   (ingress_same_source sampleCommon
      (sampleMessageChecker (Pool.run [PoolCall.Add (sampleTx "h0" "S1" 1 5)]) storedStorage
        (sampleTxOps "h2" 1 5 [samplePayment "T1" 50]))
      [PoolCall.Add (sampleTx "h0" "S1" 1 5)] (sampleTx "h0" "S1" 1 5) rfl (by decide)
      (by decide) rfl (by decide) (by decide) (by decide)).2.1⟩

/-- Counterexample to C23 as stated. First: the pool holds `h0` of source `S1`
and the transaction `h1` of source `S1`, which already has a history marker,
arrives: the chain ends with `NewButKnownMessage`, not `TransactionSameSource`.
Second: the pool was filled without the gate (two transactions of `S1` added,
one removed), it holds `h0` of source `S1` but `S1` is not in its source set;
the fresh, valid transaction `h2` of source `S1` passes the whole chain and is
added to the pool. -/
theorem ingress_same_source_fails :
    (RunChecker (messageCheckerFuncs sampleCommon)
      (sampleMessageChecker (Pool.run [PoolCall.Add (sampleTx "h0" "S1" 1 5)]) storedStorage
        (sampleTx "h1" "S1" 1 5))).2 = some Error.NewButKnownMessage ∧
    ((Pool.run [PoolCall.Add (sampleTx "h0" "S1" 1 5), PoolCall.Add (sampleTx "h3" "S1" 1 5),
        PoolCall.Remove ["h3"]]).Get "h0" = (sampleTx "h0" "S1" 1 5, true) ∧
     (RunChecker (messageCheckerFuncs sampleCommon)
      (sampleMessageChecker
        (Pool.run [PoolCall.Add (sampleTx "h0" "S1" 1 5), PoolCall.Add (sampleTx "h3" "S1" 1 5),
          PoolCall.Remove ["h3"]]) storedStorage
        (sampleTxOps "h2" 1 5 [samplePayment "T1" 50]))).2 = none ∧
     (RunChecker (messageCheckerFuncs sampleCommon)
      (sampleMessageChecker
        (Pool.run [PoolCall.Add (sampleTx "h0" "S1" 1 5), PoolCall.Add (sampleTx "h3" "S1" 1 5),
          PoolCall.Remove ["h3"]]) storedStorage
        (sampleTxOps "h2" 1 5 [samplePayment "T1" 50]))).1.TransactionPool.Has "h2" = true) := by
  decide

/-! ## `Syncer.sync` -/

theorem syncLoop_spec (work : Nat → Bool) (h : Nat) (hh : h < 2 ^ 64 - 1) (fuel : Nat) :
    ∀ height cur, height ≤ h + 1 → h + 2 ≤ fuel + height →
      ∃ k, height + k ≤ h + 1 ∧ (∀ i, i < k → work (height + i) = true) ∧
        (height + k ≤ h → work (height + k) = false) ∧
        syncLoop work h fuel height cur =
          some (if k = 0 then cur else height + k - 1,
            (List.range' height k).map (fun x => (x, true)) ++
              (if height + k ≤ h then [(height + k, false)] else [])) := by
  induction fuel with
  | zero =>
    intro height cur h1 h2
    omega
  | succ fuel ih =>
    intro height cur h1 h2
    unfold syncLoop
    by_cases hle : height ≤ h
    · by_cases hw : work height = false
      · refine ⟨0, by omega, fun i hi => by omega, fun _ => hw, ?_⟩
        simp [hle, hw]
      · have hw1 : work height = true := by simpa using hw
        have hmod : (height + 1) % 2 ^ 64 = height + 1 := Nat.mod_eq_of_lt (by omega)
        obtain ⟨k, hk1, hk2, hk3, hk4⟩ := ih (height + 1) height (by omega) (by omega)
        refine ⟨k + 1, by omega, ?_, ?_, ?_⟩
        · intro i hi
          cases i with
          | zero => exact hw1
          | succ j =>
            have := hk2 j (by omega)
            rw [show height + (j + 1) = height + 1 + j by omega]
            exact this
        · intro hle2
          rw [show height + (k + 1) = height + 1 + k by omega]
          exact hk3 (by omega)
        · rw [if_pos hle, if_neg hw, hmod, hk4]
          have e3 : height + 1 + k = height + (k + 1) := by omega
          have e4 : (if k = 0 then height else height + (k + 1) - 1) = height + (k + 1) - 1 := by
            split <;> omega
          simp only [e3, Nat.add_eq_zero, one_ne_zero, and_false, if_false,
            List.range'_succ, List.map_cons, List.cons_append, e4]
    · have e : height = h + 1 := by omega
      refine ⟨0, by omega, fun i hi => by omega, fun hc => by omega, ?_⟩
      simp [hle]

theorem Syncer.sync_skip (L : Nat) (work : Nat → Bool) (p : SyncProgress)
    (hc : p.CurrentBlock < 2 ^ 64 - 1) (hL : L < 2 ^ 64 - 1)
    (hs : p.HighestBlock < max p.CurrentBlock L + 1) :
    Syncer.sync L work p =
      some ({ StartingBlock := L + 1, CurrentBlock := p.CurrentBlock,
              HighestBlock := p.HighestBlock }, []) := by
  have m1 : (L + 1) % 2 ^ 64 = L + 1 := Nat.mod_eq_of_lt (by omega)
  have m2 : (p.CurrentBlock + 1) % 2 ^ 64 = p.CurrentBlock + 1 := Nat.mod_eq_of_lt (by omega)
  unfold Syncer.sync
  simp only [m1, m2]
  have hstart : (if L > p.CurrentBlock then L + 1 else p.CurrentBlock + 1) =
      max p.CurrentBlock L + 1 := by
    split <;> omega
  rw [hstart, if_pos (by omega)]

theorem Syncer.sync_run (L : Nat) (work : Nat → Bool) (p : SyncProgress)
    (hc : p.CurrentBlock < 2 ^ 64 - 1) (hL : L < 2 ^ 64 - 1)
    (hh : p.HighestBlock < 2 ^ 64 - 1)
    (hs : max p.CurrentBlock L + 1 ≤ p.HighestBlock) :
    ∃ k, max p.CurrentBlock L + 1 + k ≤ p.HighestBlock + 1 ∧
      (∀ i, i < k → work (max p.CurrentBlock L + 1 + i) = true) ∧
      (max p.CurrentBlock L + 1 + k ≤ p.HighestBlock →
        work (max p.CurrentBlock L + 1 + k) = false) ∧
      Syncer.sync L work p =
        some ({ StartingBlock := max p.CurrentBlock L + 1,
                CurrentBlock :=
                  if k = 0 then p.CurrentBlock else max p.CurrentBlock L + 1 + k - 1,
                HighestBlock := p.HighestBlock },
          (List.range' (max p.CurrentBlock L + 1) k).map (fun x => (x, true)) ++
            (if max p.CurrentBlock L + 1 + k ≤ p.HighestBlock then
              [(max p.CurrentBlock L + 1 + k, false)] else [])) := by
  have m1 : (L + 1) % 2 ^ 64 = L + 1 := Nat.mod_eq_of_lt (by omega)
  have m2 : (p.CurrentBlock + 1) % 2 ^ 64 = p.CurrentBlock + 1 := Nat.mod_eq_of_lt (by omega)
  have hstart : (if L > p.CurrentBlock then L + 1 else p.CurrentBlock + 1) =
      max p.CurrentBlock L + 1 := by
    split <;> omega
  obtain ⟨k, hk1, hk2, hk3, hk4⟩ := syncLoop_spec work p.HighestBlock hh (p.HighestBlock + 2)
    (max p.CurrentBlock L + 1) p.CurrentBlock (by omega) (by omega)
  refine ⟨k, hk1, hk2, hk3, ?_⟩
  unfold Syncer.sync
  simp only [m1, m2]
  rw [hstart, if_neg (by omega), hk4]

/-- C25 (amended): for a stored height `L ≤ c`, `CurrentBlock = c < h =
HighestBlock` (heights below `2 ^ 64 - 1`) and no refused job, one sync pass
submits the heights `c + 1, ..., h` in that order and yields `{c + 1, h, h}`;
a later pass with `CurrentBlock = HighestBlock = h` submits nothing and yields
`{L + 1, h, h}`: the starting block is reset to the stored height plus one. For
a node at height 10 that receives the target 25 the progress is `{11, 25, 25}`
after that pass and `{26, 25, 25}` after a check tick once the blocks up to 25
are stored. -/
theorem Syncer.sync_catch_up (L : Nat) (work : Nat → Bool) (s0 c h : Nat) :
    (L ≤ c → c < h → h < 2 ^ 64 - 1 → (∀ x, work x = true) →
      Syncer.sync L work { StartingBlock := s0, CurrentBlock := c, HighestBlock := h } =
        some ({ StartingBlock := c + 1, CurrentBlock := h, HighestBlock := h },
          (List.range' (c + 1) (h - c)).map (fun x => (x, true)))) ∧
    (L < 2 ^ 64 - 1 → h < 2 ^ 64 - 1 →
      Syncer.sync L work { StartingBlock := s0, CurrentBlock := h, HighestBlock := h } =
        some ({ StartingBlock := L + 1, CurrentBlock := h, HighestBlock := h }, [])) ∧
    ((∀ x, work x = true) →
      Syncer.handle 10 work (Syncer.initialProgress 10) (SyncEvent.RequestHighestBlock 25) =
        some ({ StartingBlock := 11, CurrentBlock := 25, HighestBlock := 25 },
          (List.range' 11 15).map (fun x => (x, true))) ∧
      Syncer.handle 25 work { StartingBlock := 11, CurrentBlock := 25, HighestBlock := 25 }
          SyncEvent.Check =
        some ({ StartingBlock := 26, CurrentBlock := 25, HighestBlock := 25 }, [])) := by
  have pass : ∀ s1 c1 h1 L1, L1 ≤ c1 → c1 < h1 → h1 < 2 ^ 64 - 1 → (∀ x, work x = true) →
      Syncer.sync L1 work { StartingBlock := s1, CurrentBlock := c1, HighestBlock := h1 } =
        some ({ StartingBlock := c1 + 1, CurrentBlock := h1, HighestBlock := h1 },
          (List.range' (c1 + 1) (h1 - c1)).map (fun x => (x, true))) := by
    intro s1 c1 h1 L1 hL hc hh hw
    obtain ⟨k, hk1, _, hk3, hk4⟩ := Syncer.sync_run L1 work
      { StartingBlock := s1, CurrentBlock := c1, HighestBlock := h1 }
      (by show c1 < 2 ^ 64 - 1; omega) (by omega) hh (by show max c1 L1 + 1 ≤ h1; omega)
    have hmax : max c1 L1 = c1 := by omega
    simp only [hmax] at hk1 hk3 hk4
    have hk : k = h1 - c1 := by
      by_contra hne
      have hlt : c1 + 1 + k ≤ h1 := by omega
      have := hk3 hlt
      rw [hw] at this
      cases this
    rw [hk4, hk]
    have e1 : ¬ (c1 + 1 + (h1 - c1) ≤ h1) := by omega
    have e2 : ¬ (h1 - c1 = 0) := by omega
    have e3 : c1 + 1 + (h1 - c1) - 1 = h1 := by omega
    simp only [e1, e2, e3, if_false, List.append_nil]
  have done : ∀ s1 h1 L1, L1 < 2 ^ 64 - 1 → h1 < 2 ^ 64 - 1 →
      Syncer.sync L1 work { StartingBlock := s1, CurrentBlock := h1, HighestBlock := h1 } =
        some ({ StartingBlock := L1 + 1, CurrentBlock := h1, HighestBlock := h1 }, []) := by
    intro s1 h1 L1 hL hh
    exact Syncer.sync_skip L1 work
      { StartingBlock := s1, CurrentBlock := h1, HighestBlock := h1 } hh hL
      (by show h1 < max h1 L1 + 1; omega)
  refine ⟨pass s0 c h L, done s0 h L, ?_⟩
  intro hw
  constructor
  · have h1 := pass 10 10 25 10 (by omega) (by omega) (by norm_num) hw
    simpa [Syncer.handle, Syncer.initialProgress] using h1
  · exact done 11 25 25 (by norm_num) (by norm_num)

/-- Witness of C25 (amended): every job is taken; the node at height 10 is
given the target 25, and a check tick follows when block 25 is stored. -/
theorem Syncer.sync_catch_up_witness :
    Syncer.handle 10 (fun _ => true) (Syncer.initialProgress 10)
        (SyncEvent.RequestHighestBlock 25) =
      some ({ StartingBlock := 11, CurrentBlock := 25, HighestBlock := 25 },
        (List.range' 11 15).map (fun x => (x, true))) ∧
    Syncer.handle 25 (fun _ => true)
        { StartingBlock := 11, CurrentBlock := 25, HighestBlock := 25 } SyncEvent.Check =
      some ({ StartingBlock := 26, CurrentBlock := 25, HighestBlock := 25 }, []) :=
  (Syncer.sync_catch_up 10 (fun _ => true) 10 10 25).2.2 (fun _ => rfl)

/-- Counterexample to C25 as stated: after the catch-up to 25 (progress
`{11, 25, 25}`), with the blocks up to 25 stored, the next check tick changes
the progress to `{26, 25, 25}`; the starting block 11 is not kept. -/
theorem Syncer.sync_starting_block_reset :
    Syncer.handle 10 (fun _ => true) (Syncer.initialProgress 10)
        (SyncEvent.RequestHighestBlock 25) =
      some ({ StartingBlock := 11, CurrentBlock := 25, HighestBlock := 25 },
        [(11, true), (12, true), (13, true), (14, true), (15, true), (16, true), (17, true),
         (18, true), (19, true), (20, true), (21, true), (22, true), (23, true), (24, true),
         (25, true)]) ∧
    Syncer.handle 25 (fun _ => true)
        { StartingBlock := 11, CurrentBlock := 25, HighestBlock := 25 } SyncEvent.Check =
      some ({ StartingBlock := 26, CurrentBlock := 25, HighestBlock := 25 }, []) ∧
    ({ StartingBlock := 26, CurrentBlock := 25, HighestBlock := 25 } : SyncProgress) ≠
      { StartingBlock := 11, CurrentBlock := 25, HighestBlock := 25 } := by
  decide

/-- C27 (amended): for a sync progress with `CurrentBlock = c`,
`HighestBlock = h` and stored height `L` (heights below `2 ^ 64 - 1`), let
`s = max(c, L) + 1`. One call of `sync` returns. When `s > h` it submits
nothing and sets `StartingBlock` to `L + 1`, leaving `CurrentBlock`. When
`s ≤ h` it calls `work` for `s, s + 1, ...` in this order, up to `h`, stops at
the first height that is refused and calls no later height; afterwards
`CurrentBlock` is the last accepted height (unchanged when none was accepted)
and `StartingBlock` is `s`. In both cases `HighestBlock` is unchanged,
`CurrentBlock` has not decreased, and it does not exceed `HighestBlock` when
`c ≤ h` held before. -/
theorem Syncer.sync_submits (L : Nat) (work : Nat → Bool) (p : SyncProgress)
    (hc : p.CurrentBlock < 2 ^ 64 - 1) (hL : L < 2 ^ 64 - 1)
    (hh : p.HighestBlock < 2 ^ 64 - 1) :
    (p.HighestBlock < max p.CurrentBlock L + 1 →
      Syncer.sync L work p =
        some ({ StartingBlock := L + 1, CurrentBlock := p.CurrentBlock,
                HighestBlock := p.HighestBlock }, [])) ∧
    (max p.CurrentBlock L + 1 ≤ p.HighestBlock →
      ∃ k, max p.CurrentBlock L + 1 + k ≤ p.HighestBlock + 1 ∧
        (∀ i, i < k → work (max p.CurrentBlock L + 1 + i) = true) ∧
        (max p.CurrentBlock L + 1 + k ≤ p.HighestBlock →
          work (max p.CurrentBlock L + 1 + k) = false) ∧
        Syncer.sync L work p =
          some ({ StartingBlock := max p.CurrentBlock L + 1,
                  CurrentBlock :=
                    if k = 0 then p.CurrentBlock else max p.CurrentBlock L + 1 + k - 1,
                  HighestBlock := p.HighestBlock },
            (List.range' (max p.CurrentBlock L + 1) k).map (fun x => (x, true)) ++
              (if max p.CurrentBlock L + 1 + k ≤ p.HighestBlock then
                [(max p.CurrentBlock L + 1 + k, false)] else []))) ∧
    (∃ q calls, Syncer.sync L work p = some (q, calls) ∧
      q.HighestBlock = p.HighestBlock ∧ p.CurrentBlock ≤ q.CurrentBlock ∧
      (p.CurrentBlock ≤ p.HighestBlock → q.CurrentBlock ≤ q.HighestBlock)) := by
  refine ⟨Syncer.sync_skip L work p hc hL, Syncer.sync_run L work p hc hL hh, ?_⟩
  by_cases hs : p.HighestBlock < max p.CurrentBlock L + 1
  · exact ⟨_, _, Syncer.sync_skip L work p hc hL hs, rfl, Nat.le_refl _, fun h => h⟩
  · obtain ⟨k, hk1, _, _, hk4⟩ := Syncer.sync_run L work p hc hL hh (by omega)
    refine ⟨_, _, hk4, rfl, ?_, ?_⟩
    · show p.CurrentBlock ≤ if k = 0 then p.CurrentBlock else max p.CurrentBlock L + 1 + k - 1
      split <;> omega
    · intro hle
      show (if k = 0 then p.CurrentBlock else max p.CurrentBlock L + 1 + k - 1)
        ≤ p.HighestBlock
      split <;> omega

/-- Witness of C27 (amended): from `{10, 10, 25}` with stored height 10, the
pool takes the jobs of the heights below 14 and refuses 14; and from
`{11, 25, 25}` with stored height 15 nothing is submitted. -/
theorem Syncer.sync_submits_witness :
    Syncer.sync 10 (fun x => decide (x < 14))
        { StartingBlock := 10, CurrentBlock := 10, HighestBlock := 25 } =
      some ({ StartingBlock := 11, CurrentBlock := 13, HighestBlock := 25 },
        [(11, true), (12, true), (13, true), (14, false)]) ∧
    Syncer.sync 15 (fun _ => true)
        { StartingBlock := 11, CurrentBlock := 25, HighestBlock := 25 } =
      some ({ StartingBlock := 15 + 1, CurrentBlock := 25, HighestBlock := 25 }, []) :=
  ⟨by decide,
   (Syncer.sync_submits 15 (fun _ => true)
      { StartingBlock := 11, CurrentBlock := 25, HighestBlock := 25 }
      (by norm_num) (by norm_num) (by norm_num)).1 (by decide)⟩

/-- Counterexample to C27 as stated: with `CurrentBlock = HighestBlock = 25`
and stored height 15, `s = max(25, 15) + 1 = 26`, nothing is submitted, and
`StartingBlock` becomes 16, not 26. -/
theorem Syncer.sync_starting_block_skip :
    Syncer.sync 15 (fun _ => true)
        { StartingBlock := 11, CurrentBlock := 25, HighestBlock := 25 } =
      some ({ StartingBlock := 16, CurrentBlock := 25, HighestBlock := 25 }, []) ∧
    (16 : Nat) ≠ max 25 15 + 1 := by
  decide

/-- C28: evaluation at the failing input. In a turn of the retry loop in which
`Fetch` returns an error and `Validate` returns `nil`, the loop is left as done
(not through `ctx.Done()`, `err = nil`), whatever came before. -/
theorem workLoop_done_after_failed_fetch (e : Error) (rest : List WorkIteration)
    (err : Option Error) (n : Nat) :
    workLoop (WorkIteration.Attempt (some e) none :: rest) err n =
      some { iterations := n + 1, canceled := false, err := none } := by
  rfl

/-! ## The `--genesis` flag -/

/-- C29: evaluation at the failing input and at its neighbours. With three
fields the balance handed to `makeGenesisBlock` is the second field (the common
account), not the third; with two fields it is empty; with one or four fields a
flags error is raised. -/
theorem nodeCmdGenesis_balance :
    nodeCmdGenesis "GENESIS,COMMON,1000" =
      GenesisOutcome.MakeGenesisBlock "GENESIS" "COMMON" "COMMON" ∧
    nodeCmdGenesis "GENESIS,COMMON,1000" ≠
      GenesisOutcome.MakeGenesisBlock "GENESIS" "COMMON" "1000" ∧
    nodeCmdGenesis "GENESIS,COMMON" = GenesisOutcome.MakeGenesisBlock "GENESIS" "COMMON" "" ∧
    nodeCmdGenesis "GENESIS" = GenesisOutcome.FlagsError ∧
    nodeCmdGenesis "GENESIS,COMMON,1000,x" = GenesisOutcome.FlagsError ∧
    nodeCmdGenesis "" = GenesisOutcome.NotRequested := by
  decide

/-! ## The same-proposer check -/

/-- C26: for a received ballot whose proposer is not the proposer the selector
assigns to its height and round, `BallotIsSameProposer` sets the vote to NO and
returns no error, whatever the state, the vote and the signer of the ballot
are; for a ballot of the expected proposer it returns no error and leaves the
vote as it was. -/
theorem BallotIsSameProposer_vote (checker : BallotChecker) :
    (checker.Ballot.Proposer ≠
        checker.CalculateProposer checker.Ballot.Basis.Height checker.Ballot.Basis.Round →
      (BallotIsSameProposer checker).2 = none ∧
      (BallotIsSameProposer checker).1.VotingHole = Hole.NO) ∧
    (checker.Ballot.Proposer =
        checker.CalculateProposer checker.Ballot.Basis.Height checker.Ballot.Basis.Round →
      (BallotIsSameProposer checker).2 = none ∧
      (BallotIsSameProposer checker).1.VotingHole = checker.VotingHole ∧
      (checker.VotingHole ≠ Hole.NO → (BallotIsSameProposer checker).1.VotingHole ≠ Hole.NO)) := by
  constructor
  · intro h
    simp [BallotIsSameProposer, h]
  · intro h
    simp [BallotIsSameProposer, h]

/-- Witness of C26: the selector always answers `n0`; a SIGN ballot with an
EXPIRED vote proposed by `n1` makes the receiver vote NO, the same ballot
proposed by `n0` leaves the vote NOTYET. -/
theorem BallotIsSameProposer_vote_witness :
    (BallotIsSameProposer
      { CalculateProposer := fun _ _ => "n0",
        Ballot := { Basis := { Round := 0, Height := 1, BlockHash := "b", TotalTxs := 0 },
                    Proposer := "n1", Source := "n1", State := BallotState.SIGN,
                    Vote := Hole.EXP },
        VotingHole := Hole.NOTYET }).1.VotingHole = Hole.NO ∧
    (BallotIsSameProposer
      { CalculateProposer := fun _ _ => "n0",
        Ballot := { Basis := { Round := 0, Height := 1, BlockHash := "b", TotalTxs := 0 },
                    Proposer := "n0", Source := "n1", State := BallotState.SIGN,
                    Vote := Hole.EXP },
        VotingHole := Hole.NOTYET }).1.VotingHole = Hole.NOTYET :=
  ⟨((BallotIsSameProposer_vote
      { CalculateProposer := fun _ _ => "n0",
        Ballot := { Basis := { Round := 0, Height := 1, BlockHash := "b", TotalTxs := 0 },
                    Proposer := "n1", Source := "n1", State := BallotState.SIGN,
                    Vote := Hole.EXP },
        VotingHole := Hole.NOTYET }).1 (by decide)).2,
   ((BallotIsSameProposer_vote
      { CalculateProposer := fun _ _ => "n0",
        Ballot := { Basis := { Round := 0, Height := 1, BlockHash := "b", TotalTxs := 0 },
                    Proposer := "n0", Source := "n1", State := BallotState.SIGN,
                    Vote := Hole.EXP },
        VotingHole := Hole.NOTYET }).2 rfl).2.1⟩

/-! ## The outcome of the ballot transaction chain, stage by stage -/

theorem sameSourceLoop_only (pool : Pool) (l : List String) (seen : GoMap Bool)
    (acc : List String) : ∃ v, sameSourceLoop pool true l seen acc = some v := by
  induction l generalizing seen acc with
  | nil => exact ⟨acc, rfl⟩
  | cons y t ih =>
    unfold sameSourceLoop
    dsimp only
    split
    · simp only [not_true_eq_false, if_false]
      exact ih _ _
    · exact ih _ _

theorem sameSourceLoop_strict (pool : Pool) (l : List String) (seen : GoMap Bool)
    (acc v : List String) :
    sameSourceLoop pool false l seen acc = some v ↔
      ((∀ x, x ∈ l → (pool.Get x).1.B.Source ∉ seen) ∧
        l.Pairwise (fun a b => (pool.Get a).1.B.Source ≠ (pool.Get b).1.B.Source) ∧
        v = acc ++ l) := by
  induction l generalizing seen acc with
  | nil => simp [sameSourceLoop, eq_comm]
  | cons y t ih =>
    unfold sameSourceLoop
    by_cases hy : (pool.Get y).1.B.Source ∈ seen
    · have hf : InStringMap seen (pool.Get y).1.B.Source = true := (GoMap.found_iff _ _).mpr hy
      simp only [hf, if_true]
      constructor
      · intro h
        simp at h
      · rintro ⟨h1, _, _⟩
        exact absurd hy (h1 y (List.mem_cons_self _ _))
    · have hf : InStringMap seen (pool.Get y).1.B.Source = false :=
        (GoMap.found_eq_false_iff _ _).mpr hy
      simp only [hf, Bool.false_eq_true, if_false]
      rw [ih]
      simp only [List.pairwise_cons, List.mem_cons, AList.mem_insert, List.append_assoc,
        List.singleton_append]
      constructor
      · rintro ⟨h1, h2, h3⟩
        refine ⟨?_, ⟨?_, h2⟩, h3⟩
        · intro x hx
          rcases hx with e | hx
          · rw [e]
            exact hy
          · exact fun hm => h1 x hx (Or.inr hm)
        · intro a ha e
          exact h1 a ha (Or.inl e.symm)
      · rintro ⟨h1, ⟨h2, h3⟩, h4⟩
        refine ⟨?_, h3, h4⟩
        intro x hx hm
        rcases hm with e | hm
        · exact h2 x hx e.symm
        · exact h1 x (Or.inr hx) hm

theorem sourceCheckLoop_only (cfg : Common) (pool : Pool) (l : List String) (st : Storage)
    (acc : List String) :
    ∃ st1 v, sourceCheckLoop cfg pool true l st acc = (st1, Except.ok v) := by
  induction l generalizing st acc with
  | nil => exact ⟨st, acc, rfl⟩
  | cons y t ih =>
    unfold sourceCheckLoop
    rcases hv : ValidateTx cfg st (pool.Get y).1 with ⟨s1, _ | e⟩
    · dsimp only
      rw [hv]
      dsimp only
      exact ih _ _
    · dsimp only
      rw [hv]
      dsimp only
      simp only [not_true_eq_false, if_false]
      exact ih _ _

theorem sourceCheckLoop_strict (cfg : Common) (pool : Pool) (l : List String) (st : Storage)
    (acc : List String) (st1 : Storage) (v : List String) :
    sourceCheckLoop cfg pool false l st acc = (st1, Except.ok v) ↔
      ((∀ x, x ∈ l → (ValidateTx cfg st (pool.Get x).1).2 = none) ∧ st1 = st ∧
        v = acc ++ l) := by
  induction l generalizing acc with
  | nil =>
    simp only [sourceCheckLoop, Prod.mk.injEq, Except.ok.injEq, List.not_mem_nil,
      false_implies, implies_true, true_and, List.append_nil]
    constructor
    · rintro ⟨a, b⟩
      exact ⟨a.symm, b.symm⟩
    · rintro ⟨a, b⟩
      exact ⟨a.symm, b.symm⟩
  | cons y t ih =>
    unfold sourceCheckLoop
    rcases hv : ValidateTx cfg st (pool.Get y).1 with ⟨s1, _ | e⟩
    · dsimp only
      rw [hv]
      dsimp only
      have hs : s1 = st := by
        rcases ValidateTx_storage cfg st (pool.Get y).1 with h1 | h1
        · rw [hv] at h1
          exact h1
        · rw [hv] at h1
          exact absurd rfl h1.2
      rw [hs, ih]
      simp only [List.mem_cons, List.append_assoc, List.singleton_append]
      constructor
      · rintro ⟨h1, h2, h3⟩
        refine ⟨?_, h2, h3⟩
        intro x hx
        rcases hx with e | hx
        · rw [e, hv]
        · exact h1 x hx
      · rintro ⟨h1, h2, h3⟩
        exact ⟨fun x hx => h1 x (Or.inr hx), h2, h3⟩
    · dsimp only
      rw [hv]
      dsimp only
      simp only [Bool.false_eq_true, not_false_eq_true, if_true, Prod.mk.injEq]
      constructor
      · rintro ⟨_, h⟩
        cases h
      · rintro ⟨h1, _, _⟩
        have := h1 y (List.mem_cons_self _ _)
        rw [hv] at this
        cases this

theorem IsNew_none_iff (c : BallotTransactionChecker) :
    (IsNew c).2 = none ↔
      (c.CheckTransactionsOnly = true ∨
        ∀ h, h ∈ c.Transactions → c.NodeRunner.Storage_.blockTransactions h = false) := by
  unfold IsNew
  cases ho : c.CheckTransactionsOnly
  · by_cases hex : ∃ x, x ∈ c.Transactions ∧ c.NodeRunner.Storage_.blockTransactions x = true
    · rw [isNewLoop_strict_none _ _ _ hex]
      obtain ⟨x, hx, hs⟩ := hex
      constructor
      · intro h
        cases h
      · rintro (h | h)
        · cases h
        · rw [h x hx] at hs
          cases hs
    · have hall : ∀ h, h ∈ c.Transactions →
          c.NodeRunner.Storage_.blockTransactions h = false := by
        intro h hh
        cases hs : c.NodeRunner.Storage_.blockTransactions h
        · rfl
        · exact absurd ⟨h, hh, hs⟩ hex
      rw [isNewLoop_strict_some _ _ _ hall]
      exact ⟨fun _ => Or.inr hall, fun _ => rfl⟩
  · rw [isNewLoop_only]
    exact ⟨fun _ => Or.inl rfl, fun _ => rfl⟩

theorem BallotTransactionsSameSource_only (c : BallotTransactionChecker)
    (ho : c.CheckTransactionsOnly = true) : (BallotTransactionsSameSource c).2 = none := by
  obtain ⟨v, hv⟩ := sameSourceLoop_only c.NodeRunner.TransactionPool c.ValidTransactions ∅ []
  rw [← ho] at hv
  unfold BallotTransactionsSameSource
  rw [hv]

theorem BallotTransactionsSameSource_strict (c : BallotTransactionChecker)
    (ho : c.CheckTransactionsOnly = false) :
    (c.ValidTransactions.Pairwise (fun a b =>
        (c.NodeRunner.TransactionPool.Get a).1.B.Source ≠
          (c.NodeRunner.TransactionPool.Get b).1.B.Source) →
      BallotTransactionsSameSource c = (c.setValidTransactions c.ValidTransactions, none)) ∧
    ((BallotTransactionsSameSource c).2 = none →
      c.ValidTransactions.Pairwise (fun a b =>
        (c.NodeRunner.TransactionPool.Get a).1.B.Source ≠
          (c.NodeRunner.TransactionPool.Get b).1.B.Source)) := by
  constructor
  · intro hp
    have h := (sameSourceLoop_strict c.NodeRunner.TransactionPool c.ValidTransactions ∅ []
      ([] ++ c.ValidTransactions)).mpr
      ⟨fun x _ => AList.not_mem_empty _, hp, rfl⟩
    rw [← ho] at h
    unfold BallotTransactionsSameSource
    rw [h]
    rfl
  · intro hn
    unfold BallotTransactionsSameSource at hn
    cases hl : sameSourceLoop c.NodeRunner.TransactionPool c.CheckTransactionsOnly
        c.ValidTransactions ∅ [] with
    | none =>
      rw [hl] at hn
      cases hn
    | some v =>
      rw [ho] at hl
      exact ((sameSourceLoop_strict _ _ _ _ _).mp hl).2.1

theorem BallotTransactionsSourceCheck_only (cfg : Common) (c : BallotTransactionChecker)
    (ho : c.CheckTransactionsOnly = true) :
    (BallotTransactionsSourceCheck cfg c).2 = none := by
  obtain ⟨st1, v, hv⟩ := sourceCheckLoop_only cfg c.NodeRunner.TransactionPool
    c.ValidTransactions c.NodeRunner.Storage_ []
  rw [← ho] at hv
  unfold BallotTransactionsSourceCheck
  rw [hv]

theorem BallotTransactionsSourceCheck_strict (cfg : Common) (c : BallotTransactionChecker)
    (ho : c.CheckTransactionsOnly = false) :
    ((∀ h, h ∈ c.ValidTransactions →
        (ValidateTx cfg c.NodeRunner.Storage_ (c.NodeRunner.TransactionPool.Get h).1).2 = none) →
      BallotTransactionsSourceCheck cfg c =
        (c.setValidTransactions c.ValidTransactions, none)) ∧
    ((BallotTransactionsSourceCheck cfg c).2 = none →
      ∀ h, h ∈ c.ValidTransactions →
        (ValidateTx cfg c.NodeRunner.Storage_ (c.NodeRunner.TransactionPool.Get h).1).2 = none) := by
  constructor
  · intro hall
    have h := (sourceCheckLoop_strict cfg c.NodeRunner.TransactionPool c.ValidTransactions
      c.NodeRunner.Storage_ [] c.NodeRunner.Storage_ ([] ++ c.ValidTransactions)).mpr
      ⟨hall, rfl, rfl⟩
    rw [← ho] at h
    unfold BallotTransactionsSourceCheck
    rw [h]
    rfl
  · intro hn
    unfold BallotTransactionsSourceCheck at hn
    rcases hl : sourceCheckLoop cfg c.NodeRunner.TransactionPool c.CheckTransactionsOnly
      c.ValidTransactions c.NodeRunner.Storage_ [] with ⟨st1, e | v⟩
    · rw [hl] at hn
      cases hn
    · rw [ho] at hl
      exact ((sourceCheckLoop_strict _ _ _ _ _ _ _).mp hl).1

theorem fee_tail_eq (c : BallotTransactionChecker) :
    (RunChecker [BallotTransactionsOperationBodyCollectTxFee, BallotTransactionsAllValid] c).2 =
      (BallotTransactionsOperationBodyCollectTxFee c).2 := by
  rcases h5 : BallotTransactionsOperationBodyCollectTxFee c with ⟨c5, _ | e⟩
  · rw [RunChecker_cons_ok _ _ _ _ h5]
    have hv := (BallotTransactionsAllValid_vote c5).1
    rcases hr : BallotTransactionsAllValid c5 with ⟨c6, oe⟩
    rw [hr] at hv
    have hoe : oe = none := hv
    subst hoe
    rw [RunChecker_cons_ok _ _ _ _ hr]
    rfl
  · rw [RunChecker_cons_error _ _ _ _ _ h5]

theorem only_tail_sourceCheck (cfg : Common) (c : BallotTransactionChecker)
    (ho : c.CheckTransactionsOnly = true) :
    (RunChecker [BallotTransactionsSourceCheck cfg,
      BallotTransactionsOperationBodyCollectTxFee, BallotTransactionsAllValid] c).2 =
      (BallotTransactionsOperationBodyCollectTxFee c).2 := by
  rcases BallotTransactionsSourceCheck_cases cfg c with ⟨st1, e, h4⟩ | ⟨st1, h4⟩
  · have := BallotTransactionsSourceCheck_only cfg c ho
    rw [h4] at this
    cases this
  · rw [RunChecker_cons_ok _ _ _ _ h4, fee_tail_eq]
    exact fee_stage_congr _ c rfl rfl rfl

theorem only_tail_sameSource (cfg : Common) (c : BallotTransactionChecker)
    (ho : c.CheckTransactionsOnly = true) :
    (RunChecker [BallotTransactionsSameSource, BallotTransactionsSourceCheck cfg,
      BallotTransactionsOperationBodyCollectTxFee, BallotTransactionsAllValid] c).2 =
      (BallotTransactionsOperationBodyCollectTxFee c).2 := by
  rcases BallotTransactionsSameSource_cases c with h3 | ⟨v3, h3, _⟩
  · have := BallotTransactionsSameSource_only c ho
    rw [h3] at this
    cases this
  · rw [RunChecker_cons_ok _ _ _ _ h3]
    refine Eq.trans (only_tail_sourceCheck cfg _ ho) ?_
    exact fee_stage_congr _ c rfl rfl rfl

theorem chain_only (cfg : Common) (c : BallotTransactionChecker)
    (ho : c.CheckTransactionsOnly = true) :
    (RunChecker (ballotTransactionCheckerFuncs cfg) c).2 =
      (BallotTransactionsOperationBodyCollectTxFee c).2 := by
  unfold ballotTransactionCheckerFuncs
  rcases IsNew_cases c with h1 | h1
  · have := (IsNew_none_iff c).mpr (Or.inl ho)
    rw [h1] at this
    cases this
  · rw [RunChecker_cons_ok _ _ _ _ h1, RunChecker_cons_ok _ _ _ _ (CheckMissingTransaction_eq _)]
    refine Eq.trans (only_tail_sameSource cfg _ ho) ?_
    exact fee_stage_congr _ c rfl rfl rfl

theorem strict_tail_sourceCheck (cfg : Common) (c : BallotTransactionChecker)
    (ho : c.CheckTransactionsOnly = false) :
    (RunChecker [BallotTransactionsSourceCheck cfg,
      BallotTransactionsOperationBodyCollectTxFee, BallotTransactionsAllValid] c).2 = none ↔
      ((∀ h, h ∈ c.ValidTransactions →
        (ValidateTx cfg c.NodeRunner.Storage_ (c.NodeRunner.TransactionPool.Get h).1).2 = none) ∧
       (BallotTransactionsOperationBodyCollectTxFee c).2 = none) := by
  by_cases hall : ∀ h, h ∈ c.ValidTransactions →
      (ValidateTx cfg c.NodeRunner.Storage_ (c.NodeRunner.TransactionPool.Get h).1).2 = none
  · have hfee : (BallotTransactionsOperationBodyCollectTxFee
        (c.setValidTransactions c.ValidTransactions)).2 =
        (BallotTransactionsOperationBodyCollectTxFee c).2 := fee_stage_congr _ c rfl rfl rfl
    rw [RunChecker_cons_ok _ _ _ _ ((BallotTransactionsSourceCheck_strict cfg c ho).1 hall),
      fee_tail_eq, hfee]
    exact ⟨fun h => ⟨hall, h⟩, fun h => h.2⟩
  · rcases BallotTransactionsSourceCheck_cases cfg c with ⟨st1, e, h4⟩ | ⟨st1, h4⟩
    · rw [RunChecker_cons_error _ _ _ _ _ h4]
      constructor
      · intro h
        cases h
      · intro h
        exact absurd h.1 hall
    · exact absurd ((BallotTransactionsSourceCheck_strict cfg c ho).2 (by rw [h4])) hall

theorem strict_tail_sameSource (cfg : Common) (c : BallotTransactionChecker)
    (ho : c.CheckTransactionsOnly = false) :
    (RunChecker [BallotTransactionsSameSource, BallotTransactionsSourceCheck cfg,
      BallotTransactionsOperationBodyCollectTxFee, BallotTransactionsAllValid] c).2 = none ↔
      (c.ValidTransactions.Pairwise (fun a b =>
        (c.NodeRunner.TransactionPool.Get a).1.B.Source ≠
          (c.NodeRunner.TransactionPool.Get b).1.B.Source) ∧
       (∀ h, h ∈ c.ValidTransactions →
        (ValidateTx cfg c.NodeRunner.Storage_ (c.NodeRunner.TransactionPool.Get h).1).2 = none) ∧
       (BallotTransactionsOperationBodyCollectTxFee c).2 = none) := by
  by_cases hp : c.ValidTransactions.Pairwise (fun a b =>
      (c.NodeRunner.TransactionPool.Get a).1.B.Source ≠
        (c.NodeRunner.TransactionPool.Get b).1.B.Source)
  · rw [RunChecker_cons_ok _ _ _ _ ((BallotTransactionsSameSource_strict c ho).1 hp)]
    have hfee : (BallotTransactionsOperationBodyCollectTxFee
        (c.setValidTransactions c.ValidTransactions)).2 =
        (BallotTransactionsOperationBodyCollectTxFee c).2 := fee_stage_congr _ c rfl rfl rfl
    refine Iff.trans (strict_tail_sourceCheck cfg (c.setValidTransactions c.ValidTransactions)
      ho) ?_
    rw [hfee]
    exact ⟨fun h => ⟨hp, h.1, h.2⟩, fun h => ⟨h.2.1, h.2.2⟩⟩
  · rcases BallotTransactionsSameSource_cases c with h3 | ⟨v3, h3, _⟩
    · rw [RunChecker_cons_error _ _ _ _ _ h3]
      constructor
      · intro h
        cases h
      · intro h
        exact absurd h.1 hp
    · exact absurd ((BallotTransactionsSameSource_strict c ho).2 (by rw [h3])) hp

theorem chain_strict (cfg : Common) (c : BallotTransactionChecker)
    (ho : c.CheckTransactionsOnly = false) :
    (RunChecker (ballotTransactionCheckerFuncs cfg) c).2 = none ↔
      ((∀ h, h ∈ c.Transactions → c.NodeRunner.Storage_.blockTransactions h = false) ∧
       (c.Transactions.filter (fun x => c.NodeRunner.TransactionPool.Has x)).Pairwise
        (fun a b => (c.NodeRunner.TransactionPool.Get a).1.B.Source ≠
          (c.NodeRunner.TransactionPool.Get b).1.B.Source) ∧
       (∀ h, h ∈ c.Transactions.filter (fun x => c.NodeRunner.TransactionPool.Has x) →
        (ValidateTx cfg c.NodeRunner.Storage_ (c.NodeRunner.TransactionPool.Get h).1).2 = none) ∧
       (BallotTransactionsOperationBodyCollectTxFee c).2 = none) := by
  unfold ballotTransactionCheckerFuncs
  by_cases hs : ∀ h, h ∈ c.Transactions → c.NodeRunner.Storage_.blockTransactions h = false
  · have hf : c.Transactions.filter (fun x => !(c.NodeRunner.Storage_.blockTransactions x)) =
        c.Transactions :=
      List.filter_eq_self.mpr (fun a ha => by rw [hs a ha]; rfl)
    rcases IsNew_cases c with h1 | h1
    · have := (IsNew_none_iff c).mpr (Or.inr hs)
      rw [h1] at this
      cases this
    · rw [hf] at h1
      rw [RunChecker_cons_ok _ _ _ _ h1,
        RunChecker_cons_ok _ _ _ _ (CheckMissingTransaction_eq _)]
      have hfee : (BallotTransactionsOperationBodyCollectTxFee
          ((c.setValidTransactions c.Transactions).setValidTransactions
            (c.Transactions.filter (fun x => c.NodeRunner.TransactionPool.Has x)))).2 =
          (BallotTransactionsOperationBodyCollectTxFee c).2 := fee_stage_congr _ c rfl rfl rfl
      refine Iff.trans (strict_tail_sameSource cfg
        ((c.setValidTransactions c.Transactions).setValidTransactions
          (c.Transactions.filter (fun x => c.NodeRunner.TransactionPool.Has x))) ho) ?_
      rw [hfee]
      exact ⟨fun h => ⟨hs, h.1, h.2.1, h.2.2⟩, fun h => ⟨h.2.1, h.2.2.1, h.2.2.2⟩⟩
  · rcases IsNew_cases c with h1 | h1
    · rw [RunChecker_cons_error _ _ _ _ _ h1]
      constructor
      · intro h
        cases h
      · intro h
        exact absurd h.1 hs
    · have := (IsNew_none_iff c).mp (by rw [h1])
      rcases this with h | h
      · rw [ho] at h
        cases h
      · exact absurd h hs

theorem collectFeeLoop_missing (pool : Pool) (l : List String) (fee : Nat)
    (h : ∃ x, x ∈ l ∧ pool.Has x = false) : collectFeeLoop pool l fee = none := by
  cases hl : collectFeeLoop pool l fee with
  | none => rfl
  | some total =>
    obtain ⟨x, hx, hf⟩ := h
    rw [collectFeeLoop_some pool l fee total hl x hx] at hf
    cases hf

theorem fee_stage_none_iff (c : BallotTransactionChecker)
    (hb : c.Ballot.Transactions = c.Transactions) :
    (BallotTransactionsOperationBodyCollectTxFee c).2 = none ↔
      ((∀ h, h ∈ c.Transactions → c.NodeRunner.TransactionPool.Has h = true) ∧
        c.FeeMatches) := by
  constructor
  · intro h
    have hall := fee_stage_all_in_pool c hb h
    have hloop := collectFeeLoop_all c.NodeRunner.TransactionPool c.Transactions 0 hall
    rw [Nat.zero_add] at hloop
    refine ⟨hall, ?_⟩
    unfold BallotTransactionsOperationBodyCollectTxFee at h
    cases hp : c.Ballot.ProposerCollectTxFee with
    | error e => simp [hp] at h
    | ok opb =>
      rw [hp] at h
      dsimp only at h
      refine ⟨opb, hp, ?_⟩
      by_cases hlen : c.Ballot.TransactionsLength < 1
      · rw [if_pos hlen] at h
        unfold Ballot.TransactionsLength at hlen
        rw [hb] at hlen
        have hnil : c.Transactions = [] := List.length_eq_zero.mp (by omega)
        rw [hnil]
        by_cases h0 : opb.Amount = 0
        · simpa using h0
        · rw [if_pos h0] at h
          cases h
      · rw [if_neg hlen, hloop] at h
        dsimp only at h
        by_cases h0 : opb.Amount =
            (c.Transactions.map (fun h => (c.NodeRunner.TransactionPool.Get h).1.B.Fee)).sum
        · exact h0
        · rw [if_pos h0] at h
          cases h
  · rintro ⟨hall, opb, hp, hamt⟩
    have hloop := collectFeeLoop_all c.NodeRunner.TransactionPool c.Transactions 0 hall
    rw [Nat.zero_add] at hloop
    unfold BallotTransactionsOperationBodyCollectTxFee
    rw [hp]
    dsimp only
    by_cases hlen : c.Ballot.TransactionsLength < 1
    · rw [if_pos hlen]
      unfold Ballot.TransactionsLength at hlen
      rw [hb] at hlen
      have hnil : c.Transactions = [] := List.length_eq_zero.mp (by omega)
      rw [hnil] at hamt
      have h0 : opb.Amount = 0 := by simpa using hamt
      rw [if_neg (not_not.mpr h0)]
    · rw [if_neg hlen, hloop]
      dsimp only
      rw [if_neg (not_not.mpr hamt)]

theorem fee_stage_missing (c : BallotTransactionChecker) (opb : CollectTxFee)
    (hp : c.Ballot.ProposerCollectTxFee = Except.ok opb)
    (hb : c.Ballot.Transactions = c.Transactions)
    (hm : ∃ h, h ∈ c.Transactions ∧ c.NodeRunner.TransactionPool.Has h = false) :
    (BallotTransactionsOperationBodyCollectTxFee c).2 = some Error.TransactionNotFound := by
  have hlen : ¬ c.Ballot.TransactionsLength < 1 := by
    unfold Ballot.TransactionsLength
    rw [hb]
    obtain ⟨h, hh, _⟩ := hm
    have : 0 < c.Transactions.length := List.length_pos_of_mem hh
    omega
  unfold BallotTransactionsOperationBodyCollectTxFee
  rw [hp]
  dsimp only
  rw [if_neg hlen, collectFeeLoop_missing _ _ _ hm]

theorem pairwise_source_iff {α β : Type} (src : α → β) (T : List α) :
    T.Pairwise (fun a b => src a ≠ src b) ↔
      ((∀ h1 h2, h1 ∈ T → h2 ∈ T → src h1 = src h2 → h1 = h2) ∧ T.Nodup) := by
  constructor
  · intro hp
    constructor
    · intro h1 h2 m1 m2 e
      by_contra hne
      exact List.Pairwise.forall (fun _ _ h => Ne.symm h) hp m1 m2 hne e
    · exact hp.imp (fun h e => h (by rw [e]))
  · rintro ⟨hinj, hnd⟩
    exact List.Pairwise.imp_of_mem (fun ha hb hne e => hne (hinj _ _ ha hb e)) hnd

theorem chain_none_iff (cfg : Common) (c : BallotTransactionChecker)
    (hb : c.Ballot.Transactions = c.Transactions) :
    (RunChecker (ballotTransactionCheckerFuncs cfg) c).2 = none ↔
      ((∀ h, h ∈ c.Transactions → c.NodeRunner.TransactionPool.Has h = true) ∧
        c.FeeMatches ∧
        (c.CheckTransactionsOnly = true ∨ (c.AllGood cfg ∧ c.Transactions.Nodup))) := by
  by_cases ho : c.CheckTransactionsOnly = true
  · rw [chain_only cfg c ho, fee_stage_none_iff c hb]
    exact ⟨fun h => ⟨h.1, h.2, Or.inl ho⟩, fun h => ⟨h.1, h.2.1⟩⟩
  · have ho2 : c.CheckTransactionsOnly = false := by
      cases h : c.CheckTransactionsOnly
      · rfl
      · exact absurd h ho
    rw [chain_strict cfg c ho2, fee_stage_none_iff c hb]
    constructor
    · rintro ⟨hs, hp, hv, hall, hfm⟩
      have hf : c.Transactions.filter (fun x => c.NodeRunner.TransactionPool.Has x) =
          c.Transactions := List.filter_eq_self.mpr (fun a ha => hall a ha)
      rw [hf] at hp hv
      have hpw := (pairwise_source_iff
        (fun x => (c.NodeRunner.TransactionPool.Get x).1.B.Source) c.Transactions).mp hp
      refine ⟨hall, hfm, Or.inr ⟨⟨fun h hh => ⟨?_, hall h hh, hv h hh⟩, hpw.1⟩, hpw.2⟩⟩
      simp [ExistsBlockTransaction, hs h hh]
    · rintro ⟨hall, hfm, h | ⟨hg, hnd⟩⟩
      · exact absurd h ho
      · have hf : c.Transactions.filter (fun x => c.NodeRunner.TransactionPool.Has x) =
            c.Transactions := List.filter_eq_self.mpr (fun a ha => hall a ha)
        rw [hf]
        refine ⟨fun h hh => ?_, ?_, fun h hh => (hg.1 h hh).2.2, hall, hfm⟩
        · have := (hg.1 h hh).1
          simpa [ExistsBlockTransaction] using this
        · exact (pairwise_source_iff
            (fun x => (c.NodeRunner.TransactionPool.Get x).1.B.Source) c.Transactions).mpr
            ⟨hg.2, hnd⟩

/-- C10 (amended): for a checker whose transaction list is the ballot's, the
ballot transaction chain (IsNew, CheckMissingTransaction,
BallotTransactionsSameSource, BallotTransactionsSourceCheck,
BallotTransactionsOperationBodyCollectTxFee, BallotTransactionsAllValid) ends
without error and with the vote YES exactly when every referenced transaction
is not yet stored in a block, is in the local pool and passes `ValidateTx`, no
two different referenced hashes have the same source, the fee collected by the
proposer is the sum of the fees of the referenced transactions and, outside
check-transactions-only mode, no hash is listed twice. It ends without error
and with the vote NO exactly when the checker is in check-transactions-only
mode, every referenced transaction is in the pool, the collected fee matches,
and some referenced transaction is stored in a block, fails `ValidateTx` or
shares its source with another one. In every other case it stops with the
error of a stage and leaves the vote as it was; so it does when a referenced
transaction is missing from the pool, and in check-transactions-only mode,
the proposer transaction carrying a collect-fee body, that error is
`TransactionNotFound`. -/
theorem ballot_chain_vote (cfg : Common) (c : BallotTransactionChecker)
    (hb : c.Ballot.Transactions = c.Transactions) :
    (((RunChecker (ballotTransactionCheckerFuncs cfg) c).2 = none ∧
        (RunChecker (ballotTransactionCheckerFuncs cfg) c).1.VotingHole = Hole.YES) ↔
      (c.AllGood cfg ∧ c.FeeMatches ∧
        (c.CheckTransactionsOnly = true ∨ c.Transactions.Nodup))) ∧
    (((RunChecker (ballotTransactionCheckerFuncs cfg) c).2 = none ∧
        (RunChecker (ballotTransactionCheckerFuncs cfg) c).1.VotingHole = Hole.NO) ↔
      (c.CheckTransactionsOnly = true ∧
        (∀ h, h ∈ c.Transactions → c.NodeRunner.TransactionPool.Has h = true) ∧
        c.FeeMatches ∧ ¬ c.AllGood cfg)) ∧
    ((∃ e, (RunChecker (ballotTransactionCheckerFuncs cfg) c).2 = some e) ↔
      ¬ ((∀ h, h ∈ c.Transactions → c.NodeRunner.TransactionPool.Has h = true) ∧
        c.FeeMatches ∧
        (c.CheckTransactionsOnly = true ∨ (c.AllGood cfg ∧ c.Transactions.Nodup)))) ∧
    (∀ e, (RunChecker (ballotTransactionCheckerFuncs cfg) c).2 = some e →
      (RunChecker (ballotTransactionCheckerFuncs cfg) c).1.VotingHole = c.VotingHole) ∧
    ((∃ h, h ∈ c.Transactions ∧ c.NodeRunner.TransactionPool.Has h = false) →
      (∃ e, (RunChecker (ballotTransactionCheckerFuncs cfg) c).2 = some e ∧
        (RunChecker (ballotTransactionCheckerFuncs cfg) c).1.VotingHole = c.VotingHole) ∧
      (c.CheckTransactionsOnly = true →
        (∃ opb, c.Ballot.ProposerCollectTxFee = Except.ok opb) →
        (RunChecker (ballotTransactionCheckerFuncs cfg) c).2 =
          some Error.TransactionNotFound)) := by
  have out := ballot_chain_outcome cfg c
  have hnone := chain_none_iff cfg c hb
  unfold VoteOutcome at out
  have herr : ∀ e, (RunChecker (ballotTransactionCheckerFuncs cfg) c).2 = some e →
      (RunChecker (ballotTransactionCheckerFuncs cfg) c).1.VotingHole = c.VotingHole := by
    intro e he
    rcases out with ⟨_, _, hv⟩ | ⟨hn, _⟩
    · exact hv
    · rw [hn] at he
      cases he
  refine ⟨?_, ?_, ?_, herr, ?_⟩
  · constructor
    · rintro ⟨hn, hy⟩
      have hc := hnone.mp hn
      rcases out with ⟨e, he, _⟩ | ⟨_, ⟨_, hg⟩ | ⟨hv, _⟩⟩
      · rw [hn] at he
        cases he
      · refine ⟨hg, hc.2.1, ?_⟩
        rcases hc.2.2 with h | h
        · exact Or.inl h
        · exact Or.inr h.2
      · rw [hy] at hv
        cases hv
    · rintro ⟨hg, hfm, hm⟩
      have hn : (RunChecker (ballotTransactionCheckerFuncs cfg) c).2 = none := by
        apply hnone.mpr
        refine ⟨fun h hh => (hg.1 h hh).2.1, hfm, ?_⟩
        rcases hm with h | h
        · exact Or.inl h
        · exact Or.inr ⟨hg, h⟩
      rcases out with ⟨e, he, _⟩ | ⟨_, ⟨hv, _⟩ | ⟨_, hng⟩⟩
      · rw [hn] at he
        cases he
      · exact ⟨hn, hv⟩
      · exact absurd hg hng
  · constructor
    · rintro ⟨hn, hy⟩
      have hc := hnone.mp hn
      rcases out with ⟨e, he, _⟩ | ⟨_, ⟨hv, _⟩ | ⟨_, hng⟩⟩
      · rw [hn] at he
        cases he
      · rw [hy] at hv
        cases hv
      · refine ⟨?_, hc.1, hc.2.1, hng⟩
        rcases hc.2.2 with h | h
        · exact h
        · exact absurd h.1 hng
    · rintro ⟨ho, hall, hfm, hng⟩
      have hn : (RunChecker (ballotTransactionCheckerFuncs cfg) c).2 = none :=
        hnone.mpr ⟨hall, hfm, Or.inl ho⟩
      rcases out with ⟨e, he, _⟩ | ⟨_, ⟨_, hg⟩ | ⟨hv, _⟩⟩
      · rw [hn] at he
        cases he
      · exact absurd hg hng
      · exact ⟨hn, hv⟩
  · rw [← hnone]
    cases hr : (RunChecker (ballotTransactionCheckerFuncs cfg) c).2 with
    | none => simp
    | some e => simp
  · intro hm
    have hnn : ¬ (RunChecker (ballotTransactionCheckerFuncs cfg) c).2 = none := by
      intro hn
      obtain ⟨h, hh, hf⟩ := hm
      rw [(hnone.mp hn).1 h hh] at hf
      cases hf
    constructor
    · rcases out with ⟨e, he, hv⟩ | ⟨hn, _⟩
      · exact ⟨e, he, hv⟩
      · exact absurd hn hnn
    · rintro ho ⟨opb, hp⟩
      rw [chain_only cfg c ho]
      exact fee_stage_missing c opb hp hb hm

/-- Witness of C10 (amended): a ballot referencing `h1`, which is in the pool,
valid and matched by the collected fee, is voted YES in both modes; a ballot
referencing `h1` and `h2` of the same source is voted NO in
check-transactions-only mode; a ballot referencing `h9`, which is not in the
pool, ends with `TransactionNotFound`. -/
theorem ballot_chain_vote_witness :
    ((RunChecker (ballotTransactionCheckerFuncs sampleCommon)
        (sampleChecker (Pool.run [PoolCall.Add (sampleTxOps "h1" 1 5 [samplePayment "T1" 50])])
          ["h1"] 1)).2 = none ∧
      (RunChecker (ballotTransactionCheckerFuncs sampleCommon)
        (sampleChecker (Pool.run [PoolCall.Add (sampleTxOps "h1" 1 5 [samplePayment "T1" 50])])
          ["h1"] 1)).1.VotingHole = Hole.YES) ∧
    ((RunChecker (ballotTransactionCheckerFuncs sampleCommon)
        (strictChecker (Pool.run [PoolCall.Add (sampleTxOps "h1" 1 5 [samplePayment "T1" 50])])
          ["h1"] 1)).2 = none ∧
      (RunChecker (ballotTransactionCheckerFuncs sampleCommon)
        (strictChecker (Pool.run [PoolCall.Add (sampleTxOps "h1" 1 5 [samplePayment "T1" 50])])
          ["h1"] 1)).1.VotingHole = Hole.YES) ∧
    ((RunChecker (ballotTransactionCheckerFuncs sampleCommon)
        (sampleChecker
          (Pool.run [PoolCall.Add (sampleTxOps "h1" 1 5 [samplePayment "T1" 50]),
            PoolCall.Add (sampleTxOps "h2" 1 5 [samplePayment "T1" 60])])
          ["h1", "h2"] 2)).2 = none ∧
      (RunChecker (ballotTransactionCheckerFuncs sampleCommon)
        (sampleChecker
          (Pool.run [PoolCall.Add (sampleTxOps "h1" 1 5 [samplePayment "T1" 50]),
            PoolCall.Add (sampleTxOps "h2" 1 5 [samplePayment "T1" 60])])
          ["h1", "h2"] 2)).1.VotingHole = Hole.NO) ∧
    (RunChecker (ballotTransactionCheckerFuncs sampleCommon)
      (sampleChecker NewPool ["h9"] 0)).2 = some Error.TransactionNotFound :=
  ⟨(ballot_chain_vote sampleCommon
      (sampleChecker (Pool.run [PoolCall.Add (sampleTxOps "h1" 1 5 [samplePayment "T1" 50])])
        ["h1"] 1) rfl).1.mpr
      ⟨⟨fun h hh => by
          have e : h = "h1" := by simpa [sampleChecker] using hh
          subst e
          decide,
        fun h1 h2 m1 m2 _ => by
          have e1 : h1 = "h1" := by simpa [sampleChecker] using m1
          have e2 : h2 = "h1" := by simpa [sampleChecker] using m2
          rw [e1, e2]⟩,
       ⟨{ Amount := 1 }, rfl, by decide⟩, Or.inl rfl⟩,
   (ballot_chain_vote sampleCommon
      (strictChecker (Pool.run [PoolCall.Add (sampleTxOps "h1" 1 5 [samplePayment "T1" 50])])
        ["h1"] 1) rfl).1.mpr
      ⟨⟨fun h hh => by
          have e : h = "h1" := by simpa [strictChecker, sampleChecker] using hh
          subst e
          decide,
        fun h1 h2 m1 m2 _ => by
          have e1 : h1 = "h1" := by simpa [strictChecker, sampleChecker] using m1
          have e2 : h2 = "h1" := by simpa [strictChecker, sampleChecker] using m2
          rw [e1, e2]⟩,
       ⟨{ Amount := 1 }, rfl, by decide⟩, Or.inr (by decide)⟩,
   (ballot_chain_vote sampleCommon
      (sampleChecker
        (Pool.run [PoolCall.Add (sampleTxOps "h1" 1 5 [samplePayment "T1" 50]),
          PoolCall.Add (sampleTxOps "h2" 1 5 [samplePayment "T1" 60])])
        ["h1", "h2"] 2) rfl).2.1.mpr
      ⟨rfl, by decide, ⟨{ Amount := 2 }, rfl, by decide⟩,
       fun hg => absurd (hg.2 "h1" "h2" (by decide) (by decide) (by decide)) (by decide)⟩,
   ((ballot_chain_vote sampleCommon (sampleChecker NewPool ["h9"] 0) rfl).2.2.2.2
      ⟨"h9", by decide, by decide⟩).2 rfl ⟨{ Amount := 0 }, rfl⟩⟩

/-- Counterexample to C10 as stated. A ballot referencing `h9`, which is
missing from the pool, ends with the error `TransactionNotFound` and the vote
still NOTYET, not NO. A ballot referencing `h1` and `h2`, both in the pool and
both accepted by `ValidateTx`, with the collected fee matching, ends with the
vote NO, because the two have the same source; outside check-transactions-only
mode the same ballot ends with the error `TransactionSameSource` and the vote
still NOTYET. A ballot referencing `h1`, in the pool and valid, with a
collected fee of 2 instead of 1 ends with the error `InvalidFee` and the vote
still NOTYET, not YES; and outside check-transactions-only mode so does, with
`TransactionSameSource`, a ballot that lists `h1` twice. -/
theorem ballot_chain_vote_fails :
    ((RunChecker (ballotTransactionCheckerFuncs sampleCommon)
        (sampleChecker NewPool ["h9"] 0)).2 = some Error.TransactionNotFound ∧
      (RunChecker (ballotTransactionCheckerFuncs sampleCommon)
        (sampleChecker NewPool ["h9"] 0)).1.VotingHole = Hole.NOTYET) ∧
    ((Pool.run [PoolCall.Add (sampleTxOps "h1" 1 5 [samplePayment "T1" 50]),
        PoolCall.Add (sampleTxOps "h2" 1 5 [samplePayment "T1" 60])]).Has "h1" = true ∧
      (Pool.run [PoolCall.Add (sampleTxOps "h1" 1 5 [samplePayment "T1" 50]),
        PoolCall.Add (sampleTxOps "h2" 1 5 [samplePayment "T1" 60])]).Has "h2" = true ∧
      (ValidateTx sampleCommon sampleStorage
        (sampleTxOps "h1" 1 5 [samplePayment "T1" 50])).2 = none ∧
      (ValidateTx sampleCommon sampleStorage
        (sampleTxOps "h2" 1 5 [samplePayment "T1" 60])).2 = none ∧
      (RunChecker (ballotTransactionCheckerFuncs sampleCommon)
        (sampleChecker
          (Pool.run [PoolCall.Add (sampleTxOps "h1" 1 5 [samplePayment "T1" 50]),
            PoolCall.Add (sampleTxOps "h2" 1 5 [samplePayment "T1" 60])])
          ["h1", "h2"] 2)).2 = none ∧
      (RunChecker (ballotTransactionCheckerFuncs sampleCommon)
        (sampleChecker
          (Pool.run [PoolCall.Add (sampleTxOps "h1" 1 5 [samplePayment "T1" 50]),
            PoolCall.Add (sampleTxOps "h2" 1 5 [samplePayment "T1" 60])])
          ["h1", "h2"] 2)).1.VotingHole = Hole.NO) ∧
    ((RunChecker (ballotTransactionCheckerFuncs sampleCommon)
        (sampleChecker (Pool.run [PoolCall.Add (sampleTxOps "h1" 1 5 [samplePayment "T1" 50])])
          ["h1"] 2)).2 = some Error.InvalidFee ∧
      (RunChecker (ballotTransactionCheckerFuncs sampleCommon)
        (sampleChecker (Pool.run [PoolCall.Add (sampleTxOps "h1" 1 5 [samplePayment "T1" 50])])
          ["h1"] 2)).1.VotingHole = Hole.NOTYET) ∧
    ((RunChecker (ballotTransactionCheckerFuncs sampleCommon)
        (strictChecker
          (Pool.run [PoolCall.Add (sampleTxOps "h1" 1 5 [samplePayment "T1" 50]),
            PoolCall.Add (sampleTxOps "h2" 1 5 [samplePayment "T1" 60])])
          ["h1", "h2"] 2)).2 = some Error.TransactionSameSource ∧
      (RunChecker (ballotTransactionCheckerFuncs sampleCommon)
        (strictChecker
          (Pool.run [PoolCall.Add (sampleTxOps "h1" 1 5 [samplePayment "T1" 50]),
            PoolCall.Add (sampleTxOps "h2" 1 5 [samplePayment "T1" 60])])
          ["h1", "h2"] 2)).1.VotingHole = Hole.NOTYET) ∧
    ((RunChecker (ballotTransactionCheckerFuncs sampleCommon)
        (strictChecker (Pool.run [PoolCall.Add (sampleTxOps "h1" 1 5 [samplePayment "T1" 50])])
          ["h1", "h1"] 2)).2 = some Error.TransactionSameSource ∧
      (RunChecker (ballotTransactionCheckerFuncs sampleCommon)
        (strictChecker (Pool.run [PoolCall.Add (sampleTxOps "h1" 1 5 [samplePayment "T1" 50])])
          ["h1", "h1"] 2)).1.VotingHole = Hole.NOTYET) := by
  decide

end Sebak
